import Mathlib


/-!
# SGR frame orchestration: a shallow embedding

The definitions below embed the frame-orchestration part of the SGR renderer
(`src/src/SGR.cpp`, `src/src/WindowManager.cpp`, `src/PipelineManager.cpp`).

* C++ vectors are Lean lists; an out-of-range `operator[]`, `back()` on an empty
  vector and a remainder by zero are undefined behaviour and make the embedded
  function return `none`.
* Calls into collaborators whose code is outside the sources (Vulkan, GLFW,
  `CommandManager`, `DescriptorManager`, `SwapChainManager`) are recorded as
  `Event`s; the values they hand back are read from an `Env`.
* `glfwWaitEvents` runs the window callbacks that `WindowManager::init` registers;
  the window events that GLFW delivers during a wait are part of the `Env`. The trace
  of a `drawFrame` call holds the calls that the call makes itself; the calls of the
  callbacks run inside its `glfwWaitEvents` are in `drawFrame.timeline`.
* Handles (fences, semaphores) are natural numbers, `VK_NULL_HANDLE` is `0`.
* `initSyncObjects` and `checkRequiredExtensionsSupport` run before the first frame and
  have device answers of their own (`SyncEnv`, `ExtensionEnv`).
-/

namespace Sgr

/-! ## Result codes -/

/-- Modelled from the spec: the `SgrErrCode` enumeration is declared in `utils.h`,
which is not among the sources. Its enumerators are the ones that `SGR.cpp` names in
the embedded functions, taken to be pairwise distinct; `other` stands for every
further enumerator a collaborator may return. -/
inductive SgrErrCode where
  | sgrOK
  | sgrDescriptorsSetsUpdated
  | sgrInitSyncObjectsError
  | sgrExtensionNotSupport
  | sgrUnknownGeometry
  | sgrMissingShaders
  | sgrMissingInstance
  | sgrMissingObject
  | sgrMissingPipeline
  | sgrMissingDescriptorSets
  | sgrReinitCommandBuffersError
  | sgrFailedToAcquireImage
  | sgrQueueSubmitFailed
  | sgrFailedPresentImage
  | other (code : Nat)
  deriving DecidableEq, Repr

/-- Vulkan result codes are the integers of `vulkan_core.h`. -/
abbrev VkResult := Int

def VK_SUCCESS : VkResult := 0
def VK_SUBOPTIMAL_KHR : VkResult := 1000001003
def VK_ERROR_OUT_OF_DATE_KHR : VkResult := -1000001004

/-- The null handle of Vulkan. -/
def VK_NULL_HANDLE : Nat := 0

/-! ## Data model -/

/-- Modelled from the spec: `SGR::SgrObject`, a registered geometry, is declared in a
header that is not among the sources; the fields are the ones `SGR.cpp` uses. The
vertex and index buffers are device memory and are left out;
`meshDataAndPiplineBinded` is the bound flag. -/
structure SgrObject where
  name : String
  indicesCount : Nat
  meshDataAndPiplineBinded : Bool
  deriving DecidableEq, Repr

/-- Modelled from the spec: `SGR::SgrObjectInstance`, one drawable, is declared in a
header that is not among the sources; the fields are the ones `SGR.cpp` uses. -/
structure SgrObjectInstance where
  name : String
  geometry : String
  uboDataAlignment : Nat
  needToDraw : Bool
  deriving DecidableEq, Repr

/-- Modelled from the spec: `PipelineManager::SgrPipeline` is declared in a header
that is not among the sources; it is reduced to the field the lookups compare. -/
structure SgrPipeline where
  name : String
  deriving DecidableEq, Repr

/-- Modelled from the spec: `DescriptorManager::SgrDescriptorSets` is declared in a
header that is not among the sources; it is reduced to the field the lookups
compare. -/
structure SgrDescriptorSets where
  name : String
  deriving DecidableEq, Repr

/-- Modelled from the spec: the class `SGR` of `SGR.cpp` is declared in a header that
is not among the sources. The fields are the members that the embedded functions
read or write, together with the fields of the singleton managers they touch
(`windowManager`, `swapChainManager`, `pipelineManager`, `descriptorManager`). -/
structure SGR where
  objects : List SgrObject
  instances : List SgrObjectInstance
  commandsBuilded : Bool
  currentFrame : Nat
  maxFrameInFlight : Nat
  imageAvailableSemaphores : List Nat
  renderFinishedSemaphores : List Nat
  inFlightFences : List Nat
  imagesInFlight : List Nat
  /-- Field `windowManager->windowMinimized`. -/
  windowMinimized : Bool
  /-- Field `windowManager->windowResized`. -/
  windowResized : Bool
  /-- Whether `windowManager->getParrentSGRptr()` is non-null. -/
  parrentSgr : Bool
  /-- Field `swapChainManager->imageCount`. -/
  imageCount : Nat
  /-- Field `pipelineManager->pipelines`. -/
  pipelines : List SgrPipeline
  /-- The lookup `descriptorManager->getDescriptorSetsByName`, whose code is outside
  the sources: any function from names to descriptor sets. -/
  getDescriptorSetsByName : String → SgrDescriptorSets

/-- Calls into collaborators, in the order a function issues them, and the calls of
`buildDrawingCommands` and `unbindAllMeshesAndPiplines` made by `drawFrame`. -/
inductive Event where
  | drawDataUpdate
  | vkQueueWaitIdle
  | beginCommandBuffers
  | updateDescriptorSets
  | buildDrawingCommands (rebuild : Bool)
  | freeCommandBuffers
  | initCommandBuffers
  | bindPipeline (geometry : String)
  | bindVertexBuffer (geometry : String)
  | bindIndexBuffer (geometry : String)
  | bindDescriptorSet (commandBuffer : Nat) (instanceName : String) (dynamicOffset : Nat)
  | drawIndexed (indicesCount : Nat)
  | executeCommands
  | uiRender
  | endInitCommandBuffers
  | glfwWaitEvents
  | vkWaitForFences (fence : Nat)
  | vkAcquireNextImageKHR (semaphore : Nat)
  | unbindAllMeshesAndPiplines
  | reinitSwapChain
  | vkResetFences (fence : Nat)
  | vkQueueSubmit (imageIndex waitSemaphore signalSemaphore fence : Nat)
  | vkQueuePresentKHR (imageIndex waitSemaphore : Nat)
  deriving DecidableEq, Repr

/-- What the device and the managers answer during one `drawFrame` call. -/
structure FrameAnswers where
  /-- Result of `commandManager->beginCommandBuffers()` at the start of `drawFrame`. -/
  beginCommandBuffers : SgrErrCode
  /-- Result of `descriptorManager->updateDescriptorSets()`. -/
  updateDescriptorSets : SgrErrCode
  /-- Result of `CommandManager::instance->initCommandBuffers()` in a rebuild. -/
  initCommandBuffers : SgrErrCode
  /-- Result of `commandManager->beginCommandBuffers()` in a rebuild. -/
  rebuildBeginCommandBuffers : SgrErrCode
  /-- Value of `commandManager->commandBuffers.size()` while recording. -/
  commandBuffersSize : Nat
  /-- Result of `vkAcquireNextImageKHR`. -/
  acquire : VkResult
  /-- Value held by the local `imageIndex` after `vkAcquireNextImageKHR`. -/
  imageIndex : Nat
  /-- Result of `reinitSwapChain` on the acquire path. -/
  acquireReinit : SgrErrCode
  /-- Value of `swapChainManager->imageCount` after that call. -/
  acquireReinitImageCount : Nat
  /-- Result of `vkQueueSubmit`. -/
  submit : VkResult
  /-- Result of `vkQueuePresentKHR`. -/
  present : VkResult
  /-- Value of `swapChainManager->imageCount` after `reinitSwapChain` on the present path. -/
  presentReinitImageCount : Nat

/-- A window event for which `WindowManager::init` registers a callback (lines 62-63 of
`WindowManager.cpp`), as GLFW delivers it: the arguments of the callback, the value of
`swapChainManager->imageCount` after the `reinitSwapChain` of the callback, and what
the collaborators answer to the frame that the callback draws. -/
inductive WindowEvent where
  | framebufferResize (width height : Int) (imageCount : Nat) (answers : FrameAnswers)
  | windowPos (imageCount : Nat) (answers : FrameAnswers)

/-- What the collaborators answer during one `drawFrame` call, and the window events
that GLFW delivers when the call runs `glfwWaitEvents` (none for a wait that is ended
by an event without a registered callback). -/
structure Env extends FrameAnswers where
  waitEvents : List WindowEvent := []

/-- What a call returns: the result code, the state it leaves and the events it issued. -/
structure Outcome where
  code : SgrErrCode
  state : SGR
  trace : List Event

/-- Puts the events `pre` in front of the events of a continuation. -/
def Outcome.after (pre : List Event) (o : Option Outcome) : Option Outcome :=
  o.map fun r => { r with trace := pre ++ r.trace }

/-! ## Lookups -/

/-- Index of the first element that satisfies `p`. -/
def firstIndex {α : Type} (p : α → Bool) : List α → Option Nat
  | [] => none
  | x :: xs => if p x then some 0 else (firstIndex p xs).map (· + 1)

/-- `SGR::findObjectByName` returns a reference: the index of the first object called
`name`, and index `0` when no object has that name. -/
def findObjectByName (objects : List SgrObject) (name : String) : Nat :=
  (firstIndex (fun o => o.name == name) objects).getD 0

/-- `SGR::findInstanceByName`, as an index in the same way. -/
def findInstanceByName (instances : List SgrObjectInstance) (name : String) : Nat :=
  (firstIndex (fun i => i.name == name) instances).getD 0

/-- `PipelineManager::getPipelineByName`: the first pipeline with that name, or a
pipeline called "empty". -/
def getPipelineByName (pipelines : List SgrPipeline) (name : String) : SgrPipeline :=
  match pipelines.find? (fun p => p.name == name) with
  | some p => p
  | none => { name := "empty" }

/-! ## The constructor and the registry -/

/-- The part of the constructor `SGR::SGR` that sets up the registries and the frame
counter. `init` holds the members as they are before the constructor body runs (both
vectors are empty then); `emptyObject` and `emptyInstance` are default-constructed
values of the two structs, whose declarations are outside the sources. -/
def SGR.ctor (emptyObject : SgrObject) (emptyInstance : SgrObjectInstance) (init : SGR) : SGR :=
  { init with
    objects := [{ emptyObject with name := "empty" }]
    instances := [{ emptyInstance with name := "empty" }]
    currentFrame := 0 }

/-- What the collaborators answer during one `addNewObjectGeometry` call. -/
structure GeometryEnv where
  createVertexBuffer : SgrErrCode
  createIndexBuffer : SgrErrCode
  createShaders : SgrErrCode
  /-- Name of the shaders that `shaderManager->getShadersByName(name)` returns. -/
  shadersName : String
  /-- Whether `pipelineManager->createAndAddPipeline` stored a pipeline. -/
  pipelineAdded : Bool

/-- `SGR::addNewObjectGeometry`; `indices` is `indices.size()`, `newObject` the
default-constructed object. -/
def addNewObjectGeometry (newObject : SgrObject) (env : GeometryEnv) (name : String)
    (indices : Nat) (s : SGR) : SgrErrCode × SGR :=
  if env.createVertexBuffer ≠ .sgrOK then (env.createVertexBuffer, s)
  else if env.createIndexBuffer ≠ .sgrOK then (env.createIndexBuffer, s)
  else if env.createShaders ≠ .sgrOK then (env.createShaders, s)
  else if env.shadersName == "empty" then (.sgrMissingShaders, s)
  else
    (.sgrOK,
      { s with
        pipelines := if env.pipelineAdded then s.pipelines ++ [{ name := name }] else s.pipelines
        objects := s.objects ++ [{ newObject with name := name, indicesCount := indices % 65536 }] })

/-- The search loop of `SGR::addObjectInstance`, `for (i = size - 1; i > 0; --i)`,
started at index `i`: the first index, going down and stopping above `0`, at which
the instance has the geometry. -/
def addObjectInstance.search (instances : List SgrObjectInstance) (geometry : String) :
    Nat → Option Nat
  | 0 => none
  | i + 1 =>
    match instances[i + 1]? with
    | some inst => if inst.geometry == geometry then some (i + 1) else search instances geometry i
    | none => search instances geometry i

/-- `SGR::addObjectInstance`; `newInstance` is the default-constructed instance. -/
def addObjectInstance (newInstance : SgrObjectInstance) (name geometry : String)
    (dynamicUBOalignment : Nat) (s : SGR) : Option (SgrErrCode × SGR) :=
  match s.objects[findObjectByName s.objects geometry]? with
  | none => none
  | some found =>
    if found.name == "empty" then some (.sgrUnknownGeometry, s)
    else
      let newInstance : SgrObjectInstance :=
        { newInstance with name := name, geometry := geometry, uboDataAlignment := dynamicUBOalignment }
      match s.instances.getLast? with
      | none => none
      | some back =>
        if back.geometry == geometry then
          some (.sgrOK, { s with instances := s.instances ++ [newInstance] })
        else
          match addObjectInstance.search s.instances geometry (s.instances.length - 1) with
          | some i =>
            some (.sgrOK,
              { s with instances := s.instances.take (i + 1) ++ newInstance :: s.instances.drop (i + 1) })
          | none => some (.sgrOK, { s with instances := s.instances ++ [newInstance] })

/-- `SGR::unbindAllMeshesAndPiplines`. -/
def unbindAllMeshesAndPiplines (s : SGR) : SGR :=
  { s with objects := s.objects.map fun o => { o with meshDataAndPiplineBinded := false } }

/-! ## Recording the draw commands -/

/-- The loop of `SGR::buildDrawingCommands` that runs when `rebuild` is set (lines
676-689): it clears the bound flag of the object of every instance that is to be
drawn. The result is `sgrOK` when the loop runs to its end. -/
def buildDrawingCommands.clear :
    List SgrObjectInstance → List SgrObject → Option (SgrErrCode × List SgrObject)
  | [], objects => some (.sgrOK, objects)
  | inst :: rest, objects =>
    if inst.name == "empty" then clear rest objects
    else if !inst.needToDraw then clear rest objects
    else
      match objects[findObjectByName objects inst.geometry]? with
      | none => none
      | some objectToDraw =>
        if objectToDraw.name == "empty" then some (.sgrMissingObject, objects)
        else
          clear rest
            (objects.set (findObjectByName objects inst.geometry)
              { objectToDraw with meshDataAndPiplineBinded := false })

/-- The three binds issued for a geometry (lines 709-712). -/
def bindCommands (geometry : String) : List Event :=
  [.bindPipeline geometry, .bindVertexBuffer geometry, .bindIndexBuffer geometry]

/-- The commands that draw one instance (lines 720-725): its descriptor set is bound
with its dynamic offset for every command buffer, then the indexed draw is issued. -/
def drawCommands (commandBuffersSize : Nat) (inst : SgrObjectInstance) (indicesCount : Nat) :
    List Event :=
  (List.range commandBuffersSize).map
      (fun i => Event.bindDescriptorSet (i % 256) inst.name inst.uboDataAlignment)
    ++ [.drawIndexed indicesCount]

/-- The recording loop of `SGR::buildDrawingCommands` (lines 692-726) over the
instances that are left, with the objects as they are at that point. It gives the
result code (`sgrOK` when the loop runs to its end), the objects and the recorded
commands. -/
def buildDrawingCommands.record (s : SGR) (commandBuffersSize : Nat) :
    List SgrObjectInstance → List SgrObject → Option (SgrErrCode × List SgrObject × List Event)
  | [], objects => some (.sgrOK, objects, [])
  | inst :: rest, objects =>
    if inst.name == "empty" then record s commandBuffersSize rest objects
    else if !inst.needToDraw then record s commandBuffersSize rest objects
    else
      match objects[findObjectByName objects inst.geometry]? with
      | none => none
      | some objectToDraw =>
        if objectToDraw.name == "empty" then some (.sgrMissingObject, objects, [])
        else if (getPipelineByName s.pipelines inst.geometry).name == "empty" then
          some (.sgrMissingPipeline, objects, [])
        else
          let binds := if !objectToDraw.meshDataAndPiplineBinded then bindCommands inst.geometry else []
          let objects1 :=
            if !objectToDraw.meshDataAndPiplineBinded then
              objects.set (findObjectByName objects inst.geometry)
                { objectToDraw with meshDataAndPiplineBinded := true }
            else objects
          if (s.getDescriptorSetsByName inst.name).name == "empty" then
            some (.sgrMissingDescriptorSets, objects1, binds)
          else
            match record s commandBuffersSize rest objects1 with
            | none => none
            | some (code, objects2, commands) =>
              some (code, objects2,
                binds ++ drawCommands commandBuffersSize inst objectToDraw.indicesCount ++ commands)

/-- The part of `SGR::buildDrawingCommands` that runs before the recording loop
(lines 666-690). When its code is `sgrOK` the recording loop starts in its state. -/
def buildDrawingCommands.prologue (env : Env) (rebuild : Bool) (s : SGR) : Option Outcome :=
  if rebuild then
    if env.initCommandBuffers ≠ .sgrOK then
      some ⟨.sgrReinitCommandBuffersError, s, [.freeCommandBuffers, .initCommandBuffers]⟩
    else if env.rebuildBeginCommandBuffers ≠ .sgrOK then
      some ⟨env.rebuildBeginCommandBuffers, s,
        [.freeCommandBuffers, .initCommandBuffers, .beginCommandBuffers]⟩
    else
      match buildDrawingCommands.clear s.instances s.objects with
      | none => none
      | some (code, objects) =>
        some ⟨code, { s with objects := objects },
          [.freeCommandBuffers, .initCommandBuffers, .beginCommandBuffers]⟩
  else some ⟨.sgrOK, s, []⟩

/-- `SGR::buildDrawingCommands`. -/
def buildDrawingCommands (env : Env) (rebuild : Bool) (s : SGR) : Option Outcome :=
  match buildDrawingCommands.prologue env rebuild s with
  | none => none
  | some start =>
    if start.code ≠ .sgrOK then some start
    else
      match buildDrawingCommands.record start.state env.commandBuffersSize
          start.state.instances start.state.objects with
      | none => none
      | some (code, objects, commands) =>
        if code ≠ .sgrOK then
          some ⟨code, { start.state with objects := objects }, start.trace ++ commands⟩
        else
          some ⟨.sgrOK, { start.state with objects := objects, commandsBuilded := true },
            start.trace ++ commands⟩

/-! ## One frame -/

/-- `std::vector::resize(n, value)`. -/
def resize (l : List Nat) (n : Nat) (value : Nat) : List Nat :=
  l.take n ++ List.replicate (n - l.length) value

/-- The end of `SGR::drawFrame` (line 283): the frame counter moves to the next slot.
The pacing that follows sleeps for a floating-point time and changes no member; it is
left out. -/
def drawFrame.advance (s : SGR) : Option Outcome :=
  if s.maxFrameInFlight = 0 then none
  else some ⟨.sgrOK, { s with currentFrame := (s.currentFrame + 1) % s.maxFrameInFlight }, []⟩

/-- Lines 261-283 of `SGR::drawFrame`: present the image, rebuild the swapchain when
the surface is stale or a resize is pending. -/
def drawFrame.present (env : Env) (s : SGR) (signalSemaphore : Nat) : Option Outcome :=
  if env.present = VK_ERROR_OUT_OF_DATE_KHR ∨ env.present = VK_SUBOPTIMAL_KHR
      ∨ s.windowResized = true then
    Outcome.after
      [.vkQueuePresentKHR env.imageIndex signalSemaphore, .unbindAllMeshesAndPiplines,
        .reinitSwapChain]
      (drawFrame.advance
        { unbindAllMeshesAndPiplines { s with windowResized := false } with
          imageCount := env.presentReinitImageCount })
  else if env.present ≠ VK_SUCCESS then
    some ⟨.sgrFailedPresentImage, s, [.vkQueuePresentKHR env.imageIndex signalSemaphore]⟩
  else
    Outcome.after [.vkQueuePresentKHR env.imageIndex signalSemaphore] (drawFrame.advance s)

/-- Lines 234-236 of `SGR::drawFrame`: the wait for the fence that owns the image. -/
def drawFrame.ownerWait (owner : Nat) : List Event :=
  if owner ≠ VK_NULL_HANDLE then [.vkWaitForFences owner] else []

/-- Lines 212-213 of `SGR::drawFrame`, `if (windowMinimized) glfwWaitEvents();`.
`wait` is what `glfwWaitEvents` does in a state: the state that the window callbacks
run inside it leave, and the events those callbacks issue. The result is the state
after the statement, and the event of the call followed by the events inside it. -/
def drawFrame.minimizedWait (wait : SGR → Option (SGR × List Event)) (s : SGR) :
    Option (SGR × List Event) :=
  if s.windowMinimized then
    match wait s with
    | none => none
    | some (waited, inside) => some (waited, .glfwWaitEvents :: inside)
  else some (s, [])

/-- Lines 234-259 of `SGR::drawFrame`: claim the image for the current slot, reset the
slot's fence and submit. `fence` and `waitSemaphore` are `inFlightFences[currentFrame]`
and `imageAvailableSemaphores[currentFrame]`. -/
def drawFrame.submit (env : Env) (s : SGR) (fence waitSemaphore : Nat) : Option Outcome :=
  match s.imagesInFlight[env.imageIndex]?, s.renderFinishedSemaphores[s.currentFrame]? with
  | some owner, some signalSemaphore =>
    let claimed : SGR := { s with imagesInFlight := s.imagesInFlight.set env.imageIndex fence }
    let events : List Event :=
      drawFrame.ownerWait owner
        ++ [.vkResetFences fence,
            .vkQueueSubmit env.imageIndex waitSemaphore signalSemaphore fence]
    if env.submit ≠ VK_SUCCESS then some ⟨.sgrQueueSubmitFailed, claimed, events⟩
    else Outcome.after events (drawFrame.present env claimed signalSemaphore)
  | _, _ => none

/-- Lines 215-232 of `SGR::drawFrame` and what follows them: wait for the fence of the
current slot, acquire an image and classify the result. `s` is the state after the
wait for window events. -/
def drawFrame.acquire (env : Env) (s : SGR) : Option Outcome :=
  match s.inFlightFences[s.currentFrame]?, s.imageAvailableSemaphores[s.currentFrame]? with
  | some fence, some waitSemaphore =>
    let events : List Event :=
      [.vkWaitForFences fence, .vkAcquireNextImageKHR waitSemaphore]
    if env.acquire = VK_ERROR_OUT_OF_DATE_KHR then
      let unbound : SGR :=
        { unbindAllMeshesAndPiplines s with imageCount := env.acquireReinitImageCount }
      if env.acquireReinit ≠ .sgrOK then
        some ⟨env.acquireReinit, unbound,
          events ++ [.unbindAllMeshesAndPiplines, .reinitSwapChain]⟩
      else
        Outcome.after (events ++ [.unbindAllMeshesAndPiplines, .reinitSwapChain])
          (drawFrame.submit env
            { unbound with
              imagesInFlight := resize unbound.imagesInFlight unbound.imageCount VK_NULL_HANDLE }
            fence waitSemaphore)
    else if env.acquire ≠ VK_SUCCESS ∧ env.acquire ≠ VK_SUBOPTIMAL_KHR then
      some ⟨.sgrFailedToAcquireImage, s, events⟩
    else Outcome.after events (drawFrame.submit env s fence waitSemaphore)
  | _, _ => none

/-- Lines 200-204 of `SGR::drawFrame`: the rebuild decision. `res` is the result of the
descriptor update. -/
def drawFrame.build (env : Env) (res : SgrErrCode) (s : SGR) : Option Outcome :=
  if !s.commandsBuilded || res == .sgrDescriptorsSetsUpdated then
    Outcome.after [.buildDrawingCommands (res == .sgrDescriptorsSetsUpdated)]
      (buildDrawingCommands env (res == .sgrDescriptorsSetsUpdated) s)
  else some ⟨.sgrOK, s, []⟩

/-- Lines 212-283 of `SGR::drawFrame`: the wait for window events of a minimized
window, then the fence wait, the acquisition and what follows, in the state the wait
leaves. -/
def drawFrame.device (wait : SGR → Option (SGR × List Event)) (env : Env) (s : SGR) :
    Option Outcome :=
  match drawFrame.minimizedWait wait s with
  | none => none
  | some (waited, events) => Outcome.after events (drawFrame.acquire env waited)

/-- The body of `SGR::drawFrame`, for a given behaviour `wait` of `glfwWaitEvents`. -/
def drawFrame.run (wait : SGR → Option (SGR × List Event)) (env : Env) (s : SGR) :
    Option Outcome :=
  if env.beginCommandBuffers ≠ .sgrOK then
    some ⟨env.beginCommandBuffers, s, [.drawDataUpdate, .vkQueueWaitIdle, .beginCommandBuffers]⟩
  else if env.updateDescriptorSets ≠ .sgrOK
      ∧ env.updateDescriptorSets ≠ .sgrDescriptorsSetsUpdated then
    some ⟨env.updateDescriptorSets, s,
      [.drawDataUpdate, .vkQueueWaitIdle, .beginCommandBuffers, .updateDescriptorSets]⟩
  else
    Outcome.after [.drawDataUpdate, .vkQueueWaitIdle, .beginCommandBuffers, .updateDescriptorSets]
      (match drawFrame.build env env.updateDescriptorSets s with
        | none => none
        | some built =>
          if built.code ≠ .sgrOK then some built
          else
            Outcome.after (built.trace ++ [.executeCommands, .uiRender, .endInitCommandBuffers])
              (drawFrame.device wait env built.state))

/-! ## Window callbacks -/

/-- `WindowManager::requestUpdateSwapChain`; `imageCount` is the value of
`swapChainManager->imageCount` after `reinitSwapChain`. -/
def requestUpdateSwapChain (imageCount : Nat) (s : SGR) : SGR × List Event :=
  ({ s with imageCount := imageCount, windowResized := false }, [.reinitSwapChain])

/-- `SGR::drawFrame` as a window callback calls it. Both callbacks clear
`windowMinimized` right before the call (lines 13 and 25 of `WindowManager.cpp`) and
nothing before line 212 sets it, so such a frame does not get to `glfwWaitEvents`; a
wait from inside a callback, which GLFW does not allow, has no result here. -/
def drawFrame.nested (env : Env) (s : SGR) : Option Outcome :=
  drawFrame.run (fun _ => none) env s

/-- The common tail of the two window callbacks (lines 14-17 and 26-29 of
`WindowManager.cpp`): with a parent `SGR`, rebuild the swapchain and draw a frame,
whose result code is dropped. The events are those of the rebuild and of the frame. -/
def callbackRedraw (imageCount : Nat) (env : Env) (s : SGR) : Option (SGR × List Event) :=
  if s.parrentSgr then
    match drawFrame.nested env (requestUpdateSwapChain imageCount s).1 with
    | none => none
    | some out => some (out.state, (requestUpdateSwapChain imageCount s).2 ++ out.trace)
  else some (s, [])

/-- `WindowManager::framebufferResizeCallback`. -/
def framebufferResizeCallback (imageCount : Nat) (env : Env) (width height : Int) (s : SGR) :
    Option (SGR × List Event) :=
  if width = 0 ∨ height = 0 then some ({ s with windowMinimized := true }, [])
  else callbackRedraw imageCount env { s with windowResized := true, windowMinimized := false }

/-- `WindowManager::windowPosCallback`. -/
def windowPosCallback (imageCount : Nat) (env : Env) (s : SGR) : Option (SGR × List Event) :=
  callbackRedraw imageCount env { s with windowResized := true, windowMinimized := false }

/-- The callback that GLFW runs for a window event. -/
def WindowEvent.run : WindowEvent → SGR → Option (SGR × List Event)
  | .framebufferResize width height imageCount answers, s =>
    framebufferResizeCallback imageCount { toFrameAnswers := answers } width height s
  | .windowPos imageCount answers, s =>
    windowPosCallback imageCount { toFrameAnswers := answers } s

/-- What `glfwWaitEvents` does when GLFW delivers the window events `events`: their
callbacks run one after the other. The result is the state they leave and the events
they issue. -/
def glfwWaitEvents : List WindowEvent → SGR → Option (SGR × List Event)
  | [], s => some (s, [])
  | event :: events, s =>
    match event.run s with
    | none => none
    | some (s1, trace1) =>
      match glfwWaitEvents events s1 with
      | none => none
      | some (s2, trace2) => some (s2, trace1 ++ trace2)

/-- What `glfwWaitEvents` does during the call, with the events of the window
callbacks left out: they are the events of calls of their own. -/
def Env.wait (env : Env) (s : SGR) : Option (SGR × List Event) :=
  (glfwWaitEvents env.waitEvents s).map fun r => (r.1, [])

/-- `SGR::drawFrame`. The trace holds the calls that this call makes itself:
`glfwWaitEvents` is one event, and what the window callbacks do inside it shows in the
state (their own events are in `drawFrame.timeline`). -/
def drawFrame (env : Env) (s : SGR) : Option Outcome :=
  drawFrame.run env.wait env s

/-- The state in which a `drawFrame` call that got past recording waits for the fence
of its slot (line 215): the state after recording, or, for a minimized window, the
state that the window callbacks run inside `glfwWaitEvents` leave. -/
def drawFrame.waited (env : Env) (s : SGR) : Option SGR :=
  match drawFrame.build env env.updateDescriptorSets s with
  | none => none
  | some built => (drawFrame.minimizedWait env.wait built.state).map (·.1)

/-- The events of a `drawFrame` call in the order in which they happen, those of the
window callbacks run inside `glfwWaitEvents` included. -/
def drawFrame.timeline (env : Env) (s : SGR) : Option (List Event) :=
  (drawFrame.run (glfwWaitEvents env.waitEvents) env s).map (·.trace)

/-- Consecutive `drawFrame` calls, one for each element of `envs`: the codes they
return and the state after the last one. -/
def drawFrames : List Env → SGR → Option (List SgrErrCode × SGR)
  | [], s => some ([], s)
  | env :: envs, s =>
    match drawFrame env s with
    | none => none
    | some out =>
      match drawFrames envs out.state with
      | none => none
      | some (codes, final) => some (out.code :: codes, final)

/-! ## Predicates on events and outcomes -/

/-- The frame-counter contract of one step: the slot count is kept, a step that returns
`sgrOK` moves the counter to the next slot, any other step leaves it. -/
def CounterStep (s : SGR) (out : Outcome) : Prop :=
  out.state.maxFrameInFlight = s.maxFrameInFlight
    ∧ (out.code = .sgrOK → out.state.currentFrame = (s.currentFrame + 1) % s.maxFrameInFlight)
    ∧ (out.code ≠ .sgrOK → out.state.currentFrame = s.currentFrame)

/-- The events `drawFrame` issues before the rebuild decision. -/
def drawFrame.preamble : List Event :=
  [.drawDataUpdate, .vkQueueWaitIdle, .beginCommandBuffers, .updateDescriptorSets]

/-- Marks the calls of `buildDrawingCommands`. -/
def Event.isBuild : Event → Bool
  | .buildDrawingCommands _ => true
  | _ => false

/-- The recorded commands: binds and draws. -/
def Event.isCommand : Event → Bool
  | .bindPipeline _ => true
  | .bindVertexBuffer _ => true
  | .bindIndexBuffer _ => true
  | .bindDescriptorSet _ _ _ => true
  | .drawIndexed _ => true
  | _ => false

def Event.isAcquire : Event → Bool
  | .vkAcquireNextImageKHR _ => true
  | _ => false

def Event.isSubmit : Event → Bool
  | .vkQueueSubmit _ _ _ _ => true
  | _ => false

def Event.isPresent : Event → Bool
  | .vkQueuePresentKHR _ _ => true
  | _ => false

/-- The events a recording pass can issue. -/
def Event.isPass : Event → Bool
  | .freeCommandBuffers => true
  | .initCommandBuffers => true
  | .beginCommandBuffers => true
  | e => e.isCommand

/-- The events `drawFrame` can issue once recording has ended. -/
def Event.isDevice : Event → Bool
  | .glfwWaitEvents => true
  | .vkWaitForFences _ => true
  | .vkAcquireNextImageKHR _ => true
  | .unbindAllMeshesAndPiplines => true
  | .reinitSwapChain => true
  | .vkResetFences _ => true
  | .vkQueueSubmit _ _ _ _ => true
  | .vkQueuePresentKHR _ _ => true
  | _ => false

/-- The members that the steps after recording may change. -/
def DeviceFrame (s : SGR) (out : Outcome) : Prop :=
  out.state = { s with
    objects := out.state.objects
    imageCount := out.state.imageCount
    imagesInFlight := out.state.imagesInFlight
    windowResized := out.state.windowResized
    currentFrame := out.state.currentFrame }

/-- What a `drawFrame` call and the window callbacks keep: every member other than the
objects, `commandsBuilded`, the frame counter, the image table and count and the two
window flags is as before; the objects keep their names; `commandsBuilded` is not
cleared; the frame counter is as before or below the slot count. -/
structure Kept (s next : SGR) : Prop where
  instances : next.instances = s.instances
  maxFrameInFlight : next.maxFrameInFlight = s.maxFrameInFlight
  imageAvailableSemaphores : next.imageAvailableSemaphores = s.imageAvailableSemaphores
  renderFinishedSemaphores : next.renderFinishedSemaphores = s.renderFinishedSemaphores
  inFlightFences : next.inFlightFences = s.inFlightFences
  parrentSgr : next.parrentSgr = s.parrentSgr
  pipelines : next.pipelines = s.pipelines
  getDescriptorSetsByName : next.getDescriptorSetsByName = s.getDescriptorSetsByName
  names : next.objects.map (·.name) = s.objects.map (·.name)
  commandsBuilded : s.commandsBuilded = true → next.commandsBuilded = true
  currentFrame : next.currentFrame = s.currentFrame ∨ next.currentFrame < s.maxFrameInFlight

/-! ## The registry calls and the grouping invariant -/

/-- A call that fills the registries. -/
inductive RegistryCall where
  | addNewObjectGeometry (env : GeometryEnv) (name : String) (indices : Nat)
  | addObjectInstance (name geometry : String) (dynamicUBOalignment : Nat)

/-- Runs the calls in order, dropping their result codes; `newObject` and `newInstance`
are the default-constructed values of the two structs. -/
def runRegistryCalls (newObject : SgrObject) (newInstance : SgrObjectInstance) :
    List RegistryCall → SGR → Option SGR
  | [], s => some s
  | .addNewObjectGeometry env name indices :: calls, s =>
    runRegistryCalls newObject newInstance calls
      (addNewObjectGeometry newObject env name indices s).2
  | .addObjectInstance name geometry alignment :: calls, s =>
    match addObjectInstance newInstance name geometry alignment s with
    | none => none
    | some (_, next) => runRegistryCalls newObject newInstance calls next

/-- The grouping invariant on the geometries of a run of instances: no entry of
another geometry lies between two entries of the same geometry, that is, whenever
`x, y, x` occur in this order then `y` is `x`. -/
def Grouped (geometries : List String) : Prop :=
  ∀ x y : String, [x, y, x].Sublist geometries → y = x

/-- The grouping invariant as a check that can be run. -/
def groupedCheck (geometries : List String) : Bool :=
  geometries.all fun x =>
    geometries.all fun y => !decide ([x, y, x].Sublist geometries) || y == x

/-- The registry as the constructor and the registry calls keep it: there is an
object, the instances start with the sentinel, the instances after the sentinel are
grouped by geometry, and their geometries satisfy `P`. -/
def RegistryInv (sentinel : SgrObjectInstance) (P : String → Prop) (s : SGR) : Prop :=
  s.objects ≠ [] ∧ ∃ rest, s.instances = sentinel :: rest
    ∧ Grouped (rest.map (·.geometry)) ∧ ∀ inst ∈ rest, P inst.geometry

/-! ## What a recording pass is expected to record -/

/-- The lookups that a pass makes for an instance succeed: the instance is not the
sentinel "empty", `findObjectByName` finds an object with the name of its geometry,
which is not the sentinel, and its pipeline and its descriptor sets are found. -/
def lookupsSucceed (s : SGR) (inst : SgrObjectInstance) : Prop :=
  inst.name ≠ "empty"
    ∧ (∃ o, s.objects[findObjectByName s.objects inst.geometry]? = some o
        ∧ o.name = inst.geometry ∧ o.name ≠ "empty")
    ∧ (getPipelineByName s.pipelines inst.geometry).name ≠ "empty"
    ∧ (s.getDescriptorSetsByName inst.name).name ≠ "empty"

/-- The `indicesCount` of the object that `findObjectByName` gives for a geometry. -/
def indicesCountOf (objects : List SgrObject) (geometry : String) : Nat :=
  match objects[findObjectByName objects geometry]? with
  | some o => o.indicesCount
  | none => 0

/-- The sequence the specification describes, over the instances to draw in registry
order: the pipeline/vertex/index bind of a geometry stands immediately before the
first of its instances (`bound` lists the geometries of the instances before), and
each instance has its draw. -/
def expectedCommands (indicesCount : String → Nat) (commandBuffersSize : Nat) :
    List SgrObjectInstance → List String → List Event
  | [], _ => []
  | inst :: rest, bound =>
    (if inst.geometry ∈ bound then [] else bindCommands inst.geometry)
      ++ drawCommands commandBuffersSize inst (indicesCount inst.geometry)
      ++ expectedCommands indicesCount commandBuffersSize rest (inst.geometry :: bound)

/-- What the recording loop needs of an instance to draw, with the objects as they are
and the geometries `bound` so far. -/
def Recordable (s : SGR) (indicesCount : String → Nat) (objects : List SgrObject)
    (bound : List String) (inst : SgrObjectInstance) : Prop :=
  inst.name ≠ "empty"
    ∧ (getPipelineByName s.pipelines inst.geometry).name ≠ "empty"
    ∧ (s.getDescriptorSetsByName inst.name).name ≠ "empty"
    ∧ ∃ o, objects[findObjectByName objects inst.geometry]? = some o
      ∧ o.name = inst.geometry ∧ o.name ≠ "empty"
      ∧ o.indicesCount = indicesCount inst.geometry
      ∧ (o.meshDataAndPiplineBinded = true ↔ inst.geometry ∈ bound)

/-! ## A sample scene

Two geometries `G1` and `G2`, three instances `A`, `B` (of `G1`) and `C` (of `G2`), all
marked for drawing, two frame slots and two swapchain images. -/

/-- The scene before its first frame. -/
def sampleScene : SGR :=
  { objects := [⟨"empty", 0, false⟩, ⟨"G1", 6, false⟩, ⟨"G2", 3, false⟩]
    instances :=
      [⟨"empty", "", 0, false⟩, ⟨"A", "G1", 0, true⟩, ⟨"B", "G1", 64, true⟩,
        ⟨"C", "G2", 128, true⟩]
    commandsBuilded := false
    currentFrame := 0
    maxFrameInFlight := 2
    imageAvailableSemaphores := [11, 12]
    renderFinishedSemaphores := [21, 22]
    inFlightFences := [31, 32]
    imagesInFlight := [0, 0]
    windowMinimized := false
    windowResized := false
    parrentSgr := true
    imageCount := 2
    pipelines := [⟨"G1"⟩, ⟨"G2"⟩]
    getDescriptorSetsByName := fun n => if n == "A" || n == "B" || n == "C" then ⟨n⟩ else ⟨"empty"⟩ }

/-- The collaborators of `addNewObjectGeometry` all succeed. -/
def calmGeometryEnv : GeometryEnv :=
  { createVertexBuffer := .sgrOK
    createIndexBuffer := .sgrOK
    createShaders := .sgrOK
    shadersName := "shaders"
    pipelineAdded := true }

/-- The calls that register the two geometries and then the instances `A`, `C`, `B`:
the last one is put between the other two. -/
def sampleCalls : List RegistryCall :=
  [.addNewObjectGeometry calmGeometryEnv "G1" 6,
    .addNewObjectGeometry calmGeometryEnv "G2" 3,
    .addObjectInstance "A" "G1" 0,
    .addObjectInstance "C" "G2" 128,
    .addObjectInstance "B" "G1" 64]

/-- Every collaborator succeeds, nothing changed, image `0` is acquired. -/
def calmEnv : Env :=
  { beginCommandBuffers := .sgrOK
    updateDescriptorSets := .sgrOK
    initCommandBuffers := .sgrOK
    rebuildBeginCommandBuffers := .sgrOK
    commandBuffersSize := 2
    acquire := VK_SUCCESS
    imageIndex := 0
    acquireReinit := .sgrOK
    acquireReinitImageCount := 2
    submit := VK_SUCCESS
    present := VK_SUCCESS
    presentReinitImageCount := 2 }

/-- The scene after its first frame: commands recorded, both geometries bound, image
`0` owned by the fence of slot `0`, slot `1` next. -/
def sceneAfterFirstFrame : SGR :=
  { sampleScene with
    objects := [⟨"empty", 0, false⟩, ⟨"G1", 6, true⟩, ⟨"G2", 3, true⟩]
    commandsBuilded := true
    currentFrame := 1
    imagesInFlight := [31, 0] }

/-- The acquisition reports that the surface is out of date, the rebuild of the
swapchain succeeds, and the local `imageIndex` holds `1`. -/
def staleAcquireEnv : Env :=
  { calmEnv with acquire := VK_ERROR_OUT_OF_DATE_KHR, imageIndex := 1 }

/-- What `drawFrame` returns for `staleAcquireEnv` in `sceneAfterFirstFrame`. -/
def staleAcquireOutcome : Outcome :=
  { code := .sgrOK
    state :=
      { sceneAfterFirstFrame with
        objects := [⟨"empty", 0, false⟩, ⟨"G1", 6, false⟩, ⟨"G2", 3, false⟩]
        currentFrame := 0
        imagesInFlight := [31, 32] }
    trace :=
      [.drawDataUpdate, .vkQueueWaitIdle, .beginCommandBuffers, .updateDescriptorSets,
        .executeCommands, .uiRender, .endInitCommandBuffers,
        .vkWaitForFences 32, .vkAcquireNextImageKHR 12,
        .unbindAllMeshesAndPiplines, .reinitSwapChain,
        .vkResetFences 32, .vkQueueSubmit 1 12 22 32, .vkQueuePresentKHR 1 22] }

/-- The scene after its first frame with the window minimized. -/
def minimizedScene : SGR :=
  { sceneAfterFirstFrame with windowMinimized := true }

/-- Every collaborator succeeds, and while the call waits for window events the window
is moved: GLFW runs the window position callback, whose frame finds every collaborator
succeeding and a rebuilt swapchain of two images. -/
def restoreEnv : Env :=
  { calmEnv with waitEvents := [.windowPos 2 calmEnv.toFrameAnswers] }

/-- The state that the window position callback of `restoreEnv` leaves in
`minimizedScene`: its frame has claimed image `0` for slot `1` and moved to slot `0`. -/
def restoredScene : SGR :=
  { sceneAfterFirstFrame with currentFrame := 0, imagesInFlight := [32, 0] }

/-- What `drawFrame` returns for `restoreEnv` in `minimizedScene`: the events are those
of the call itself, which works in slot `0` after the frame of the callback. -/
def restoredOutcome : Outcome :=
  { code := .sgrOK
    state := { sceneAfterFirstFrame with currentFrame := 1, imagesInFlight := [31, 0] }
    trace :=
      [.drawDataUpdate, .vkQueueWaitIdle, .beginCommandBuffers, .updateDescriptorSets,
        .executeCommands, .uiRender, .endInitCommandBuffers,
        .glfwWaitEvents,
        .vkWaitForFences 31, .vkAcquireNextImageKHR 11,
        .vkWaitForFences 32,
        .vkResetFences 31, .vkQueueSubmit 0 11 21 31, .vkQueuePresentKHR 0 21] }

/-- What `drawFrame` returns for `calmEnv` in `sceneAfterFirstFrame`. -/
def secondFrameOutcome : Outcome :=
  { code := .sgrOK
    state := { sceneAfterFirstFrame with currentFrame := 0, imagesInFlight := [32, 0] }
    trace :=
      [.drawDataUpdate, .vkQueueWaitIdle, .beginCommandBuffers, .updateDescriptorSets,
        .executeCommands, .uiRender, .endInitCommandBuffers,
        .vkWaitForFences 32, .vkAcquireNextImageKHR 12,
        .vkWaitForFences 31,
        .vkResetFences 32, .vkQueueSubmit 0 12 22 32, .vkQueuePresentKHR 0 22] }

/-- The descriptor update reports that the sets were updated. -/
def updatedEnv : Env :=
  { calmEnv with updateDescriptorSets := .sgrDescriptorsSetsUpdated }

/-- What `drawFrame` returns for `updatedEnv` in `sceneAfterFirstFrame`. -/
def updatedOutcome : Outcome :=
  { code := .sgrOK
    state := { sceneAfterFirstFrame with currentFrame := 0, imagesInFlight := [32, 0] }
    trace :=
      [.drawDataUpdate, .vkQueueWaitIdle, .beginCommandBuffers, .updateDescriptorSets,
        .buildDrawingCommands true,
        .freeCommandBuffers, .initCommandBuffers, .beginCommandBuffers]
        ++ bindCommands "G1" ++ drawCommands 2 ⟨"A", "G1", 0, true⟩ 6
        ++ drawCommands 2 ⟨"B", "G1", 64, true⟩ 6
        ++ bindCommands "G2" ++ drawCommands 2 ⟨"C", "G2", 128, true⟩ 3
        ++ [.executeCommands, .uiRender, .endInitCommandBuffers,
          .vkWaitForFences 32, .vkAcquireNextImageKHR 12,
          .vkWaitForFences 31,
          .vkResetFences 32, .vkQueueSubmit 0 12 22 32, .vkQueuePresentKHR 0 22] }

/-- The present reports that the surface is out of date and the rebuilt swapchain has
three images. -/
def stalePresentEnv : Env :=
  { calmEnv with present := VK_ERROR_OUT_OF_DATE_KHR, presentReinitImageCount := 3 }

/-! ## Fences and outstanding frames -/

/-- The fence resets. -/
def Event.isReset : Event → Bool
  | .vkResetFences _ => true
  | _ => false

/-- The fence waits. -/
def Event.isFenceWait : Event → Bool
  | .vkWaitForFences _ => true
  | _ => false

/-- The fences of the frames that are outstanding after the events, given the ones
`pending` before: a submit makes the frame of its fence outstanding, a wait on a
fence ends the frames of that fence. -/
def outstandingFences : List Event → List Nat → List Nat
  | [], pending => pending
  | .vkQueueSubmit _ _ _ fence :: events, pending =>
    outstandingFences events (fence :: pending)
  | .vkWaitForFences fence :: events, pending =>
    outstandingFences events (pending.filter (· ≠ fence))
  | _ :: events, pending => outstandingFences events pending

/-- The events keep the outstanding fences in order: whenever the fences of the frames
outstanding before are fences of the slots without repetition, so are those after. -/
def FencesKept (events : List Event) (fences : List Nat) : Prop :=
  ∀ pending : List Nat, pending.Nodup → (∀ f ∈ pending, f ∈ fences) →
    (outstandingFences events pending).Nodup
      ∧ ∀ f ∈ outstandingFences events pending, f ∈ fences

/-- The events of consecutive `drawFrame` calls, one for each element of `envs`, in the
order in which they happen (those of the window callbacks run inside `glfwWaitEvents`
included). -/
def drawFramesTrace : List Env → SGR → Option (List Event)
  | [], _ => some []
  | env :: envs, s =>
    match drawFrame.run (glfwWaitEvents env.waitEvents) env s with
    | none => none
    | some out =>
      match drawFramesTrace envs out.state with
      | none => none
      | some events => some (out.trace ++ events)

/-- The state in which the image is claimed: the state after recording, or, after an
out-of-date acquisition with a successful rebuild, that state unbound and with the
image table resized. -/
def claimState (env : Env) (s : SGR) : SGR :=
  if env.acquire = VK_ERROR_OUT_OF_DATE_KHR then
    { unbindAllMeshesAndPiplines s with
      imageCount := env.acquireReinitImageCount
      imagesInFlight := resize s.imagesInFlight env.acquireReinitImageCount VK_NULL_HANDLE }
  else s

/-- The events between the acquisition and the claim of the image. -/
def rebuildEvents (env : Env) : List Event :=
  if env.acquire = VK_ERROR_OUT_OF_DATE_KHR then
    [.unbindAllMeshesAndPiplines, .reinitSwapChain]
  else []

/-- The swapchain rebuilds. -/
def Event.isRebuild : Event → Bool
  | .reinitSwapChain => true
  | _ => false

/-- What `drawFrame` returns for `stalePresentEnv` in `sceneAfterFirstFrame`. -/
def stalePresentOutcome : Outcome :=
  { code := .sgrOK
    state :=
      { sceneAfterFirstFrame with
        objects := [⟨"empty", 0, false⟩, ⟨"G1", 6, false⟩, ⟨"G2", 3, false⟩]
        currentFrame := 0
        imageCount := 3
        imagesInFlight := [32, 0] }
    trace :=
      [.drawDataUpdate, .vkQueueWaitIdle, .beginCommandBuffers, .updateDescriptorSets,
        .executeCommands, .uiRender, .endInitCommandBuffers,
        .vkWaitForFences 32, .vkAcquireNextImageKHR 12,
        .vkWaitForFences 31,
        .vkResetFences 32, .vkQueueSubmit 0 12 22 32, .vkQueuePresentKHR 0 22,
        .unbindAllMeshesAndPiplines, .reinitSwapChain] }

/-- The sample scene with no descriptor sets for the instance `B`. -/
def missingSetsScene : SGR :=
  { sampleScene with
    getDescriptorSetsByName := fun n => if n == "A" || n == "C" then ⟨n⟩ else ⟨"empty"⟩ }

/-! ## Synchronisation objects -/

/-- The vector a creation call writes its handle to. -/
inductive SyncTarget where
  | imageAvailableSemaphores
  | renderFinishedSemaphores
  | inFlightFences
  deriving DecidableEq, Repr

/-- A call of `vkCreateSemaphore` or `vkCreateFence` made by `initSyncObjects`: the
vector and the slot it writes to, whether the create info asks for the signaled state
(`VK_FENCE_CREATE_SIGNALED_BIT`), and the result the device returned. -/
structure SyncEvent where
  target : SyncTarget
  slot : Nat
  signaled : Bool
  result : VkResult
  deriving DecidableEq, Repr

/-- What the device answers to the creation calls of `initSyncObjects`, for each slot:
the result and the handle. -/
structure SyncEnv where
  createImageAvailable : Nat → VkResult × Nat
  createRenderFinished : Nat → VkResult × Nat
  createFence : Nat → VkResult × Nat

/-- The loop of `SGR::initSyncObjects` (lines 324-330) over the slots that are left.
The three creations of a slot are joined by `||`: the first that fails ends the call.
A creation that succeeds stores its handle in the slot; a failing creation is taken to
leave the slot as it is. -/
def initSyncObjects.create (env : SyncEnv) : List Nat → SGR → SgrErrCode × SGR × List SyncEvent
  | [], s => (.sgrOK, s, [])
  | i :: slots, s =>
    let e1 : SyncEvent :=
      ⟨.imageAvailableSemaphores, i, false, (env.createImageAvailable i).1⟩
    let e2 : SyncEvent :=
      ⟨.renderFinishedSemaphores, i, false, (env.createRenderFinished i).1⟩
    let e3 : SyncEvent := ⟨.inFlightFences, i, true, (env.createFence i).1⟩
    if (env.createImageAvailable i).1 ≠ VK_SUCCESS then (.sgrInitSyncObjectsError, s, [e1])
    else
      let s1 : SGR :=
        { s with
          imageAvailableSemaphores :=
            s.imageAvailableSemaphores.set i (env.createImageAvailable i).2 }
      if (env.createRenderFinished i).1 ≠ VK_SUCCESS then
        (.sgrInitSyncObjectsError, s1, [e1, e2])
      else
        let s2 : SGR :=
          { s1 with
            renderFinishedSemaphores :=
              s1.renderFinishedSemaphores.set i (env.createRenderFinished i).2 }
        if (env.createFence i).1 ≠ VK_SUCCESS then
          (.sgrInitSyncObjectsError, s2, [e1, e2, e3])
        else
          let s3 : SGR :=
            { s2 with inFlightFences := s2.inFlightFences.set i (env.createFence i).2 }
          let r := initSyncObjects.create env slots s3
          (r.1, r.2.1, e1 :: e2 :: e3 :: r.2.2)

/-- `SGR::initSyncObjects`: the result code, the state and the creation calls made.
`std::vector::resize(n)` fills new entries with the null handle; `imageCount` stands
for `swapChainManager->imageCount`. -/
def initSyncObjects (env : SyncEnv) (s : SGR) : SgrErrCode × SGR × List SyncEvent :=
  initSyncObjects.create env (List.range s.maxFrameInFlight)
    { s with
      imageAvailableSemaphores :=
        resize s.imageAvailableSemaphores s.maxFrameInFlight VK_NULL_HANDLE
      renderFinishedSemaphores :=
        resize s.renderFinishedSemaphores s.maxFrameInFlight VK_NULL_HANDLE
      inFlightFences := resize s.inFlightFences s.maxFrameInFlight VK_NULL_HANDLE
      imagesInFlight := resize s.imagesInFlight s.imageCount VK_NULL_HANDLE }

/-- The state of a freshly constructed engine with two frame slots and three images:
the four vectors are empty. -/
def freshScene : SGR :=
  { sampleScene with
    imageAvailableSemaphores := []
    renderFinishedSemaphores := []
    inFlightFences := []
    imagesInFlight := []
    imageCount := 3 }

/-- Every creation succeeds; the handles are numbered by slot. -/
def calmSyncEnv : SyncEnv :=
  { createImageAvailable := fun i => (VK_SUCCESS, 11 + i)
    createRenderFinished := fun i => (VK_SUCCESS, 21 + i)
    createFence := fun i => (VK_SUCCESS, 31 + i) }

/-- The creation of the render-finished semaphore of slot `1` fails. -/
def failingSyncEnv : SyncEnv :=
  { calmSyncEnv with
    createRenderFinished := fun i => (if i = 1 then -1 else VK_SUCCESS, 21 + i) }

/-! ## Marking an instance for drawing -/

/-- `SGR::drawObject`. -/
def drawObject (instanceName : String) (s : SGR) : Option (SgrErrCode × SGR) :=
  match s.instances[findInstanceByName s.instances instanceName]? with
  | none => none
  | some inst =>
    if inst.name == "empty" then some (.sgrMissingInstance, s)
    else
      match s.objects[findObjectByName s.objects inst.geometry]? with
      | none => none
      | some objectToDraw =>
        if objectToDraw.name == "empty" then some (.sgrMissingObject, s)
        else if (getPipelineByName s.pipelines inst.geometry).name == "empty" then
          some (.sgrMissingPipeline, s)
        else if (s.getDescriptorSetsByName instanceName).name == "empty" then
          some (.sgrMissingDescriptorSets, s)
        else
          some (.sgrOK,
            { s with
              instances :=
                s.instances.set (findInstanceByName s.instances instanceName)
                  { inst with needToDraw := true } })

/-- The sample scene with no instance marked for drawing yet. -/
def unmarkedScene : SGR :=
  { sampleScene with
    instances :=
      [⟨"empty", "", 0, false⟩, ⟨"A", "G1", 0, false⟩, ⟨"B", "G1", 64, false⟩,
        ⟨"C", "G2", 128, false⟩] }

/-! ## Required instance extensions -/

/-- What the two calls of `vkEnumerateInstanceExtensionProperties` answer: the result
of the first call, the count it leaves in `extensionSupportedCount` (a `uint32_t`), and
the extension names the second call writes, in order. -/
structure ExtensionEnv where
  countResult : VkResult
  count : Nat
  names : List String

/-- The vector `supportedExtensions` after the second call, as the names of its
entries: `count` entries, value-initialised (empty name) where the call wrote none. -/
def supportedExtensions (env : ExtensionEnv) : List String :=
  env.names.take env.count ++ List.replicate (env.count - env.names.length) ""

/-- The inner loop of `SGR::checkRequiredExtensionsSupport` (lines 382-386): whether it
reaches the `break`. -/
def checkRequiredExtensionsSupport.isSupported (reqExt : String) : List String → Bool
  | [] => false
  | suppExt :: rest => if reqExt == suppExt then true else isSupported reqExt rest

/-- The outer loop (lines 381-386), from the value `founded` has; `founded` is a
`uint32_t`. -/
def checkRequiredExtensionsSupport.count (supported : List String) : List String → Nat → Nat
  | [], founded => founded
  | reqExt :: rest, founded =>
    if checkRequiredExtensionsSupport.isSupported reqExt supported then
      count supported rest ((founded + 1) % 4294967296)
    else count supported rest founded

/-- `SGR::checkRequiredExtensionsSupport`; `required` is `instanceRequiredExtensions`. -/
def checkRequiredExtensionsSupport (env : ExtensionEnv) (required : List String) : SgrErrCode :=
  if env.countResult ≠ VK_SUCCESS ∨ env.count ≤ 0 then .sgrExtensionNotSupport
  else if checkRequiredExtensionsSupport.count (supportedExtensions env) required 0
      = required.length then .sgrOK
  else .sgrExtensionNotSupport

/-- The device supports three extensions. -/
def sampleExtensionEnv : ExtensionEnv :=
  { countResult := VK_SUCCESS
    count := 3
    names := ["VK_KHR_surface", "VK_KHR_xcb_surface", "VK_EXT_debug_utils"] }

/-! ## Which geometry is bound at a draw -/

/-- The geometries whose pipeline, vertex buffer and index buffer were bound last in a
pass (`none` before the first bind). -/
structure BindState where
  pipeline : Option String
  vertex : Option String
  index : Option String
  deriving DecidableEq, Repr

/-- Nothing bound yet: the start of a pass. -/
def BindState.unbound : BindState := ⟨none, none, none⟩

/-- Pipeline, vertex buffer and index buffer of `geometry` are bound. -/
def BindState.of (geometry : String) : BindState := ⟨some geometry, some geometry, some geometry⟩

/-- The effect of one recorded command on what is bound. -/
def BindState.step (b : BindState) : Event → BindState
  | .bindPipeline g => { b with pipeline := some g }
  | .bindVertexBuffer g => { b with vertex := some g }
  | .bindIndexBuffer g => { b with index := some g }
  | _ => b

/-- What is bound after the commands. -/
def bindsAfter (events : List Event) (b : BindState) : BindState :=
  events.foldl BindState.step b

/-- For every indexed draw of the commands, in order, what is bound when it is
recorded: the last pipeline, vertex and index binds before it. -/
def boundAtDraws : List Event → BindState → List BindState
  | [], _ => []
  | .drawIndexed _ :: events, b => b :: boundAtDraws events b
  | e :: events, b => boundAtDraws events (b.step e)

/-- The states that the constructor and calls of `addNewObjectGeometry`,
`addObjectInstance`, `drawObject` and `drawFrame` lead to, and the window callbacks
that GLFW runs between such calls. `init` holds the members before the constructor
body runs; `newObject`, `emptyObject`, `newInstance` and
`emptyInstance` are the default-constructed values the calls start from. -/
inductive Reachable (newObject emptyObject : SgrObject)
    (newInstance emptyInstance : SgrObjectInstance) (init : SGR) : SGR → Prop
  | ctor : Reachable newObject emptyObject newInstance emptyInstance init
      (SGR.ctor emptyObject emptyInstance init)
  | addGeometry {s : SGR} (env : GeometryEnv) (name : String) (indices : Nat) :
      Reachable newObject emptyObject newInstance emptyInstance init s →
      Reachable newObject emptyObject newInstance emptyInstance init
        (addNewObjectGeometry newObject env name indices s).2
  | addInstance {s next : SGR} {code : SgrErrCode} (name geometry : String) (alignment : Nat) :
      Reachable newObject emptyObject newInstance emptyInstance init s →
      addObjectInstance newInstance name geometry alignment s = some (code, next) →
      Reachable newObject emptyObject newInstance emptyInstance init next
  | mark {s next : SGR} {code : SgrErrCode} (instanceName : String) :
      Reachable newObject emptyObject newInstance emptyInstance init s →
      drawObject instanceName s = some (code, next) →
      Reachable newObject emptyObject newInstance emptyInstance init next
  | frame {s : SGR} {out : Outcome} (env : Env) :
      Reachable newObject emptyObject newInstance emptyInstance init s →
      drawFrame env s = some out →
      Reachable newObject emptyObject newInstance emptyInstance init out.state
  | windowEvent {s next : SGR} {events : List Event} (event : WindowEvent) :
      Reachable newObject emptyObject newInstance emptyInstance init s →
      event.run s = some (next, events) →
      Reachable newObject emptyObject newInstance emptyInstance init next

/-- What the reachable states have in common: the registries start with their
sentinels, the instances after the sentinel are grouped by geometry, the lookups of
every instance marked for drawing succeed, and while no pass has run to its end no
object other than the sentinel has its bound flag set. -/
def DrawInv (sentinel : SgrObjectInstance) (s : SGR) : Prop :=
  RegistryInv sentinel (fun _ => True) s
    ∧ (∃ o, s.objects[0]? = some o ∧ o.name = "empty")
    ∧ (∀ inst ∈ s.instances, inst.needToDraw = true → lookupsSucceed s inst)
    ∧ (s.commandsBuilded = false →
        ∀ o ∈ s.objects, o.name ≠ "empty" → o.meshDataAndPiplineBinded = false)

/-- Every object whose bound flag is set is the object that `findObjectByName` gives
for the geometry of an instance that a pass draws (`needToDraw` set, name not
"empty"). -/
def Covered (instances : List SgrObjectInstance) (objects : List SgrObject) : Prop :=
  ∀ (i : Nat) (o : SgrObject), objects[i]? = some o → o.meshDataAndPiplineBinded = true →
    ∃ inst ∈ instances, inst.name ≠ "empty" ∧ inst.needToDraw = true
      ∧ findObjectByName objects inst.geometry = i

/-- The commands that bind a pipeline, a vertex buffer or an index buffer, or draw. -/
def Event.isBindOrDraw : Event → Bool
  | .bindPipeline _ => true
  | .bindVertexBuffer _ => true
  | .bindIndexBuffer _ => true
  | .drawIndexed _ => true
  | _ => false

/-- What the first pass records in the sample scene (`rebuild` not set). -/
def firstPassOutcome : Outcome :=
  { code := .sgrOK
    state :=
      { sampleScene with
        objects := [⟨"empty", 0, false⟩, ⟨"G1", 6, true⟩, ⟨"G2", 3, true⟩]
        commandsBuilded := true }
    trace :=
      bindCommands "G1" ++ drawCommands 2 ⟨"A", "G1", 0, true⟩ 6
        ++ drawCommands 2 ⟨"B", "G1", 64, true⟩ 6
        ++ bindCommands "G2" ++ drawCommands 2 ⟨"C", "G2", 128, true⟩ 3 }

/-- The acquisition fails with `VK_ERROR_DEVICE_LOST`. -/
def fatalAcquireEnv : Env :=
  { calmEnv with acquire := -4 }

/-- The acquisition of the call fails with `VK_ERROR_DEVICE_LOST` after the window
position callback of `restoreEnv` has run inside the wait for window events. -/
def fatalRestoreEnv : Env :=
  { restoreEnv with acquire := -4 }

/-- The present of the call fails with `VK_ERROR_DEVICE_LOST` after the window position
callback of `restoreEnv` has run inside the wait for window events. -/
def failedPresentRestoreEnv : Env :=
  { restoreEnv with present := -4 }

/-- What `drawFrame` returns for `fatalAcquireEnv` in `sceneAfterFirstFrame`. -/
def fatalAcquireOutcome : Outcome :=
  { code := .sgrFailedToAcquireImage
    state := sceneAfterFirstFrame
    trace :=
      [.drawDataUpdate, .vkQueueWaitIdle, .beginCommandBuffers, .updateDescriptorSets,
        .executeCommands, .uiRender, .endInitCommandBuffers,
        .vkWaitForFences 32, .vkAcquireNextImageKHR 12] }

/-! # Lemmas -/

/-! ## Frame counter -/

theorem Outcome.after_eq_some {pre : List Event} {o : Option Outcome} {out : Outcome}
    (h : Outcome.after pre o = some out) :
    ∃ r, o = some r ∧ out = { r with trace := pre ++ r.trace } := by
  cases o with
  | none => simp [Outcome.after] at h
  | some r => exact ⟨r, rfl, by simpa [Outcome.after] using h.symm⟩

theorem advance_counterStep {s : SGR} {out : Outcome} (h : drawFrame.advance s = some out) :
    out.code = .sgrOK ∧ out.state.maxFrameInFlight = s.maxFrameInFlight
      ∧ out.state.currentFrame = (s.currentFrame + 1) % s.maxFrameInFlight := by
  unfold drawFrame.advance at h
  split_ifs at h
  simp only [Option.some.injEq] at h
  subst h
  exact ⟨rfl, rfl, rfl⟩

theorem present_counterStep {env : Env} {s : SGR} {sem : Nat} {out : Outcome}
    (h : drawFrame.present env s sem = some out) : CounterStep s out := by
  unfold drawFrame.present at h
  split_ifs at h
  · obtain ⟨r, hr, rfl⟩ := Outcome.after_eq_some h
    obtain ⟨h1, h2, h3⟩ := advance_counterStep hr
    exact ⟨h2, fun _ => h3, fun hne => absurd h1 hne⟩
  · simp only [Option.some.injEq] at h
    subst h
    exact ⟨rfl, fun hc => (by cases hc), fun _ => rfl⟩
  · obtain ⟨r, hr, rfl⟩ := Outcome.after_eq_some h
    obtain ⟨h1, h2, h3⟩ := advance_counterStep hr
    exact ⟨h2, fun _ => h3, fun hne => absurd h1 hne⟩

theorem submit_counterStep {env : Env} {s : SGR} {fence sem : Nat} {out : Outcome}
    (h : drawFrame.submit env s fence sem = some out) : CounterStep s out := by
  unfold drawFrame.submit at h
  split at h
  · dsimp only at h
    split_ifs at h
    · simp only [Option.some.injEq] at h
      subst h
      exact ⟨rfl, fun hc => (by cases hc), fun _ => rfl⟩
    · obtain ⟨r, hr, rfl⟩ := Outcome.after_eq_some h
      have := present_counterStep hr
      exact this
  · cases h

theorem acquire_counterStep {env : Env} {s : SGR} {out : Outcome}
    (h : drawFrame.acquire env s = some out) : CounterStep s out := by
  unfold drawFrame.acquire at h
  split at h
  · dsimp only at h
    split_ifs at h
    · simp only [Option.some.injEq] at h
      subst h
      exact ⟨rfl, fun hc => absurd hc (by assumption), fun _ => rfl⟩
    · obtain ⟨r, hr, rfl⟩ := Outcome.after_eq_some h
      have := submit_counterStep hr
      exact this
    · simp only [Option.some.injEq] at h
      subst h
      exact ⟨rfl, fun hc => (by cases hc), fun _ => rfl⟩
    · obtain ⟨r, hr, rfl⟩ := Outcome.after_eq_some h
      have := submit_counterStep hr
      exact this
  · cases h

theorem record_commandsBuilded_free (s : SGR) (n : Nat) :
    ∀ (l : List SgrObjectInstance) (objects : List SgrObject),
      buildDrawingCommands.record { s with commandsBuilded := true } n l objects
        = buildDrawingCommands.record s n l objects := by
  intro l
  induction l with
  | nil => intro objects; rfl
  | cons inst rest ih =>
    intro objects
    simp only [buildDrawingCommands.record, ih]

/-- What `buildDrawingCommands` may change: the objects and `commandsBuilded`. -/
theorem buildDrawingCommands_frame {env : Env} {rebuild : Bool} {s : SGR} {out : Outcome}
    (h : buildDrawingCommands env rebuild s = some out) :
    out.state = { s with objects := out.state.objects, commandsBuilded := out.state.commandsBuilded }
      ∧ (out.code = .sgrOK → out.state.commandsBuilded = true) := by
  unfold buildDrawingCommands at h
  split at h
  · cases h
  · rename_i start hstart
    have hs : start.state = { s with objects := start.state.objects } := by
      unfold buildDrawingCommands.prologue at hstart
      split_ifs at hstart
      · simp only [Option.some.injEq] at hstart; subst hstart; rfl
      · simp only [Option.some.injEq] at hstart; subst hstart; rfl
      · split at hstart
        · cases hstart
        · simp only [Option.some.injEq] at hstart; subst hstart; rfl
      · simp only [Option.some.injEq] at hstart; subst hstart; rfl
    split_ifs at h with hc
    · simp only [Option.some.injEq] at h
      subst h
      refine ⟨?_, fun h' => absurd h' hc⟩
      rw [hs]
    · split at h
      · cases h
      · split_ifs at h with hc2
        · simp only [Option.some.injEq] at h
          subst h
          refine ⟨?_, fun h' => absurd h' hc2⟩
          rw [hs]
        · simp only [Option.some.injEq] at h
          subst h
          refine ⟨?_, fun _ => rfl⟩
          rw [hs]

theorem build_frame {env : Env} {res : SgrErrCode} {s : SGR} {out : Outcome}
    (h : drawFrame.build env res s = some out) :
    out.state = { s with objects := out.state.objects, commandsBuilded := out.state.commandsBuilded }
      ∧ (out.code = .sgrOK → out.state.commandsBuilded = true) := by
  unfold drawFrame.build at h
  split_ifs at h with hc
  · obtain ⟨r, hr, rfl⟩ := Outcome.after_eq_some h
    have := buildDrawingCommands_frame hr
    exact this
  · simp only [Option.some.injEq] at h
    subst h
    refine ⟨rfl, fun _ => ?_⟩
    simp only [Bool.or_eq_true, Bool.not_eq_true', not_or, Bool.not_eq_false] at hc
    exact hc.1

/-- The ways a `drawFrame` call can go, up to image acquisition. -/
theorem minimizedWait_inv {wait : SGR → Option (SGR × List Event)} {s waited : SGR}
    {events : List Event} (h : drawFrame.minimizedWait wait s = some (waited, events)) :
    (s.windowMinimized = false ∧ waited = s ∧ events = [])
      ∨ (s.windowMinimized = true
        ∧ ∃ inside, wait s = some (waited, inside) ∧ events = .glfwWaitEvents :: inside) := by
  unfold drawFrame.minimizedWait at h
  split_ifs at h with hmin
  · right
    cases hw : wait s with
    | none => rw [hw] at h; cases h
    | some r =>
      obtain ⟨w, inside⟩ := r
      rw [hw] at h
      simp only [Option.some.injEq, Prod.mk.injEq] at h
      exact ⟨hmin, inside, by rw [h.1], h.2.symm⟩
  · left
    simp only [Option.some.injEq, Prod.mk.injEq] at h
    exact ⟨by simpa using hmin, h.1.symm, h.2.symm⟩

theorem envWait_inv {env : Env} {s waited : SGR} {inside : List Event}
    (h : env.wait s = some (waited, inside)) :
    inside = [] ∧ ∃ events, glfwWaitEvents env.waitEvents s = some (waited, events) := by
  unfold Env.wait at h
  cases hg : glfwWaitEvents env.waitEvents s with
  | none => rw [hg] at h; cases h
  | some r =>
    obtain ⟨w, events⟩ := r
    rw [hg] at h
    simp only [Option.map_some', Option.some.injEq, Prod.mk.injEq] at h
    exact ⟨h.2.symm, events, by rw [h.1]⟩

theorem device_inv {wait : SGR → Option (SGR × List Event)} {env : Env} {s : SGR}
    {dev : Outcome} (h : drawFrame.device wait env s = some dev) :
    ∃ waited events acq, drawFrame.minimizedWait wait s = some (waited, events)
      ∧ drawFrame.acquire env waited = some acq
      ∧ dev = ⟨acq.code, acq.state, events ++ acq.trace⟩ := by
  unfold drawFrame.device at h
  cases hm : drawFrame.minimizedWait wait s with
  | none => rw [hm] at h; cases h
  | some r =>
    obtain ⟨waited, events⟩ := r
    rw [hm] at h
    obtain ⟨acq, hacq, rfl⟩ := Outcome.after_eq_some h
    exact ⟨waited, events, acq, rfl, hacq, rfl⟩

/-- The wait of a `drawFrame` call: no event and no change when the window is not
minimized, one event and the state the window callbacks leave otherwise. -/
theorem wait_inv {env : Env} {s waited : SGR} {events : List Event}
    (h : drawFrame.minimizedWait env.wait s = some (waited, events)) :
    (s.windowMinimized = false ∧ waited = s ∧ events = [])
      ∨ (s.windowMinimized = true ∧ events = [.glfwWaitEvents]
        ∧ ∃ inside, glfwWaitEvents env.waitEvents s = some (waited, inside)) := by
  rcases minimizedWait_inv h with h1 | ⟨hmin, inside, hw, rfl⟩
  · exact Or.inl h1
  · obtain ⟨rfl, hg⟩ := envWait_inv hw
    exact Or.inr ⟨hmin, rfl, hg⟩

theorem run_inv {wait : SGR → Option (SGR × List Event)} {env : Env} {s : SGR}
    {out : Outcome} (h : drawFrame.run wait env s = some out) :
    (env.beginCommandBuffers ≠ .sgrOK
        ∧ out = ⟨env.beginCommandBuffers, s,
            [.drawDataUpdate, .vkQueueWaitIdle, .beginCommandBuffers]⟩)
      ∨ (env.beginCommandBuffers = .sgrOK
        ∧ env.updateDescriptorSets ≠ .sgrOK
        ∧ env.updateDescriptorSets ≠ .sgrDescriptorsSetsUpdated
        ∧ out = ⟨env.updateDescriptorSets, s, drawFrame.preamble⟩)
      ∨ (env.beginCommandBuffers = .sgrOK
        ∧ (env.updateDescriptorSets = .sgrOK
            ∨ env.updateDescriptorSets = .sgrDescriptorsSetsUpdated)
        ∧ ∃ built, drawFrame.build env env.updateDescriptorSets s = some built
          ∧ ((built.code ≠ .sgrOK
              ∧ out = ⟨built.code, built.state, drawFrame.preamble ++ built.trace⟩)
            ∨ (built.code = .sgrOK
              ∧ ∃ acq, drawFrame.device wait env built.state = some acq
                ∧ out = ⟨acq.code, acq.state,
                    drawFrame.preamble
                      ++ ((built.trace ++ [.executeCommands, .uiRender, .endInitCommandBuffers])
                        ++ acq.trace)⟩))) := by
  unfold drawFrame.run at h
  split_ifs at h with h1 h2
  · left
    simp only [Option.some.injEq] at h
    exact ⟨h1, h.symm⟩
  · right; left
    simp only [Option.some.injEq] at h
    exact ⟨not_not.mp h1, h2.1, h2.2, h.symm⟩
  · right; right
    refine ⟨not_not.mp h1, ?_, ?_⟩
    · by_cases h3 : env.updateDescriptorSets = .sgrOK
      · exact Or.inl h3
      · exact Or.inr (not_not.mp fun h4 => h2 ⟨h3, h4⟩)
    · obtain ⟨r, hr, rfl⟩ := Outcome.after_eq_some h
      split at hr
      · cases hr
      · rename_i built hbuilt
        refine ⟨built, hbuilt, ?_⟩
        split_ifs at hr with h5
        · left
          simp only [Option.some.injEq] at hr
          subst hr
          exact ⟨h5, rfl⟩
        · right
          obtain ⟨acq, hacq, rfl⟩ := Outcome.after_eq_some hr
          exact ⟨not_not.mp h5, acq, hacq, rfl⟩

theorem drawFrame_inv {env : Env} {s : SGR} {out : Outcome} (h : drawFrame env s = some out) :
    (env.beginCommandBuffers ≠ .sgrOK
        ∧ out = ⟨env.beginCommandBuffers, s,
            [.drawDataUpdate, .vkQueueWaitIdle, .beginCommandBuffers]⟩)
      ∨ (env.beginCommandBuffers = .sgrOK
        ∧ env.updateDescriptorSets ≠ .sgrOK
        ∧ env.updateDescriptorSets ≠ .sgrDescriptorsSetsUpdated
        ∧ out = ⟨env.updateDescriptorSets, s, drawFrame.preamble⟩)
      ∨ (env.beginCommandBuffers = .sgrOK
        ∧ (env.updateDescriptorSets = .sgrOK
            ∨ env.updateDescriptorSets = .sgrDescriptorsSetsUpdated)
        ∧ ∃ built, drawFrame.build env env.updateDescriptorSets s = some built
          ∧ ((built.code ≠ .sgrOK
              ∧ out = ⟨built.code, built.state, drawFrame.preamble ++ built.trace⟩)
            ∨ (built.code = .sgrOK
              ∧ ∃ acq, drawFrame.device env.wait env built.state = some acq
                ∧ out = ⟨acq.code, acq.state,
                    drawFrame.preamble
                      ++ ((built.trace ++ [.executeCommands, .uiRender, .endInitCommandBuffers])
                        ++ acq.trace)⟩))) :=
  run_inv h

/-- The steps after recording of a call whose window is not minimized. -/
theorem device_direct {wait : SGR → Option (SGR × List Event)} {env : Env} {s : SGR}
    (hmin : s.windowMinimized = false) :
    drawFrame.device wait env s = drawFrame.acquire env s := by
  unfold drawFrame.device drawFrame.minimizedWait
  simp only [hmin, Bool.false_eq_true, if_false]
  cases drawFrame.acquire env s with
  | none => rfl
  | some acq => simp [Outcome.after]

theorem run_counterStep {wait : SGR → Option (SGR × List Event)} {env : Env} {s : SGR}
    {out : Outcome} (hmin : s.windowMinimized = false)
    (h : drawFrame.run wait env s = some out) : CounterStep s out := by
  rcases run_inv h with ⟨h1, rfl⟩ | ⟨_, h2, _, rfl⟩ | ⟨_, _, built, hb, h3⟩
  · exact ⟨rfl, fun hc => absurd hc h1, fun _ => rfl⟩
  · exact ⟨rfl, fun hc => absurd hc h2, fun _ => rfl⟩
  · have hf := (build_frame hb).1
    rcases h3 with ⟨h4, rfl⟩ | ⟨_, acq, hacq, rfl⟩
    · refine ⟨?_, fun hc => absurd hc h4, fun _ => ?_⟩
      · show built.state.maxFrameInFlight = _
        rw [hf]
      · show built.state.currentFrame = _
        rw [hf]
    · have hmin' : built.state.windowMinimized = false := by rw [hf]; exact hmin
      rw [device_direct hmin'] at hacq
      have hstep := acquire_counterStep hacq
      have e1 : built.state.maxFrameInFlight = s.maxFrameInFlight := by rw [hf]
      have e2 : built.state.currentFrame = s.currentFrame := by rw [hf]
      unfold CounterStep at hstep ⊢
      rw [e1, e2] at hstep
      exact hstep

/-- In a call whose window is not minimized the frame counter does one step. -/
theorem drawFrame_counterStep {env : Env} {s : SGR} {out : Outcome}
    (hmin : s.windowMinimized = false) (h : drawFrame env s = some out) : CounterStep s out :=
  run_counterStep hmin h

/-! ## Events of the phases -/

theorem drawCommands_isCommand (n : Nat) (inst : SgrObjectInstance) (k : Nat) :
    ∀ e ∈ drawCommands n inst k, e.isCommand = true := by
  intro e he
  simp only [drawCommands, List.mem_append, List.mem_map, List.mem_singleton] at he
  rcases he with ⟨i, _, rfl⟩ | rfl <;> rfl

theorem bindCommands_isCommand (g : String) : ∀ e ∈ bindCommands g, e.isCommand = true := by
  intro e he
  simp only [bindCommands, List.mem_cons, List.mem_singleton, List.not_mem_nil, or_false] at he
  rcases he with rfl | rfl | rfl <;> rfl

theorem record_isCommand (s : SGR) (n : Nat) :
    ∀ (l : List SgrObjectInstance) (objects objects1 : List SgrObject) (code : SgrErrCode)
      (commands : List Event),
      buildDrawingCommands.record s n l objects = some (code, objects1, commands) →
      ∀ e ∈ commands, e.isCommand = true := by
  intro l
  induction l with
  | nil =>
    intro objects objects1 code commands h e he
    simp only [buildDrawingCommands.record, Option.some.injEq, Prod.mk.injEq] at h
    obtain ⟨_, _, rfl⟩ := h
    cases he
  | cons inst rest ih =>
    intro objects objects1 code commands h e he
    unfold buildDrawingCommands.record at h
    split at h
    · exact ih _ _ _ _ h e he
    split at h
    · exact ih _ _ _ _ h e he
    split at h
    · cases h
    rename_i obj hobj
    split at h
    · simp only [Option.some.injEq, Prod.mk.injEq] at h
      obtain ⟨_, _, rfl⟩ := h
      cases he
    split at h
    · simp only [Option.some.injEq, Prod.mk.injEq] at h
      obtain ⟨_, _, rfl⟩ := h
      cases he
    dsimp only at h
    split at h
    · simp only [Option.some.injEq, Prod.mk.injEq] at h
      obtain ⟨_, _, rfl⟩ := h
      split at he
      · exact bindCommands_isCommand _ e he
      · cases he
    split at h
    · cases h
    rename_i code2 objects2 commands2 hrec
    simp only [Option.some.injEq, Prod.mk.injEq] at h
    obtain ⟨_, _, rfl⟩ := h
    simp only [List.mem_append] at he
    rcases he with (he | he) | he
    · split at he
      · exact bindCommands_isCommand _ e he
      · cases he
    · exact drawCommands_isCommand _ _ _ e he
    · exact ih _ _ _ _ hrec e he

theorem prologue_isPass {env : Env} {rebuild : Bool} {s : SGR} {out : Outcome}
    (h : buildDrawingCommands.prologue env rebuild s = some out) :
    ∀ e ∈ out.trace, e.isPass = true ∧ e.isCommand = false := by
  unfold buildDrawingCommands.prologue at h
  have key : ∀ e ∈ [Event.freeCommandBuffers, Event.initCommandBuffers, Event.beginCommandBuffers],
      e.isPass = true ∧ e.isCommand = false := by
    intro e he
    simp only [List.mem_cons, List.mem_singleton, List.not_mem_nil, or_false] at he
    rcases he with rfl | rfl | rfl <;> exact ⟨rfl, rfl⟩
  split_ifs at h
  · simp only [Option.some.injEq] at h; subst h
    intro e he
    exact key e (by simp only [List.mem_cons, List.mem_singleton, List.not_mem_nil, or_false] at he ⊢; tauto)
  · simp only [Option.some.injEq] at h; subst h
    exact key
  · split at h
    · cases h
    · simp only [Option.some.injEq] at h; subst h
      exact key
  · simp only [Option.some.injEq] at h; subst h
    intro e he
    cases he

theorem isCommand_isPass {e : Event} (h : e.isCommand = true) : e.isPass = true := by
  cases e <;> first | rfl | cases h

theorem buildDrawingCommands_isPass {env : Env} {rebuild : Bool} {s : SGR} {out : Outcome}
    (h : buildDrawingCommands env rebuild s = some out) : ∀ e ∈ out.trace, e.isPass = true := by
  unfold buildDrawingCommands at h
  split at h
  · cases h
  · rename_i start hstart
    have hp := prologue_isPass hstart
    split_ifs at h
    · simp only [Option.some.injEq] at h; subst h
      exact fun e he => (hp e he).1
    · split at h
      · cases h
      · rename_i code objects commands hrec
        have hc := record_isCommand _ _ _ _ _ _ _ hrec
        have : out.trace = start.trace ++ commands := by
          split_ifs at h <;> (simp only [Option.some.injEq] at h; subst h; rfl)
        rw [this]
        intro e he
        rcases List.mem_append.mp he with he | he
        · exact (hp e he).1
        · exact isCommand_isPass (hc e he)

theorem advance_trace {s : SGR} {out : Outcome} (h : drawFrame.advance s = some out) :
    out.trace = [] := by
  unfold drawFrame.advance at h
  split_ifs at h
  simp only [Option.some.injEq] at h
  subst h
  rfl

/-- The three ways the present step can go. -/
theorem present_inv {env : Env} {s : SGR} {sem : Nat} {out : Outcome}
    (h : drawFrame.present env s sem = some out) :
    ((env.present = VK_ERROR_OUT_OF_DATE_KHR ∨ env.present = VK_SUBOPTIMAL_KHR
          ∨ s.windowResized = true)
        ∧ s.maxFrameInFlight ≠ 0
        ∧ out = ⟨.sgrOK,
            { unbindAllMeshesAndPiplines s with
              windowResized := false
              imageCount := env.presentReinitImageCount
              currentFrame := (s.currentFrame + 1) % s.maxFrameInFlight },
            [.vkQueuePresentKHR env.imageIndex sem, .unbindAllMeshesAndPiplines,
              .reinitSwapChain]⟩)
      ∨ (env.present ≠ VK_ERROR_OUT_OF_DATE_KHR ∧ env.present ≠ VK_SUBOPTIMAL_KHR
        ∧ s.windowResized = false ∧ env.present ≠ VK_SUCCESS
        ∧ out = ⟨.sgrFailedPresentImage, s, [.vkQueuePresentKHR env.imageIndex sem]⟩)
      ∨ (env.present = VK_SUCCESS ∧ s.windowResized = false ∧ s.maxFrameInFlight ≠ 0
        ∧ out = ⟨.sgrOK, { s with currentFrame := (s.currentFrame + 1) % s.maxFrameInFlight },
            [.vkQueuePresentKHR env.imageIndex sem]⟩) := by
  unfold drawFrame.present at h
  split_ifs at h with h1 h2
  · obtain ⟨r, hr, rfl⟩ := Outcome.after_eq_some h
    unfold drawFrame.advance at hr
    split_ifs at hr with h3
    simp only [Option.some.injEq] at hr
    subst hr
    exact Or.inl ⟨h1, h3, rfl⟩
  · simp only [Option.some.injEq] at h
    subst h
    simp only [not_or, Bool.not_eq_true] at h1
    exact Or.inr (Or.inl ⟨h1.1, h1.2.1, h1.2.2, h2, rfl⟩)
  · obtain ⟨r, hr, rfl⟩ := Outcome.after_eq_some h
    unfold drawFrame.advance at hr
    split_ifs at hr with h3
    simp only [Option.some.injEq] at hr
    subst hr
    simp only [not_or, Bool.not_eq_true] at h1
    exact Or.inr (Or.inr ⟨not_not.mp h2, h1.2.2, h3, rfl⟩)

/-- The events of the present step: one present, then the unbind and the rebuild when
the swapchain is rebuilt. -/
theorem present_trace {env : Env} {s : SGR} {sem : Nat} {out : Outcome}
    (h : drawFrame.present env s sem = some out) :
    out.trace = [.vkQueuePresentKHR env.imageIndex sem]
      ∨ out.trace = [.vkQueuePresentKHR env.imageIndex sem, .unbindAllMeshesAndPiplines,
          .reinitSwapChain] := by
  rcases present_inv h with ⟨_, _, rfl⟩ | ⟨_, _, _, _, rfl⟩ | ⟨_, _, _, rfl⟩
  · exact Or.inr rfl
  · exact Or.inl rfl
  · exact Or.inl rfl

/-- The events of the submit step: the wait for the owner of the image, the fence
reset, the submit, and the present step when the submit succeeds. -/
theorem submit_trace {env : Env} {s : SGR} {fence wsem : Nat} {out : Outcome}
    (h : drawFrame.submit env s fence wsem = some out) :
    ∃ owner ssem rest,
      s.imagesInFlight[env.imageIndex]? = some owner
        ∧ s.renderFinishedSemaphores[s.currentFrame]? = some ssem
        ∧ out.trace = drawFrame.ownerWait owner
            ++ [.vkResetFences fence, .vkQueueSubmit env.imageIndex wsem ssem fence] ++ rest
        ∧ ((env.submit ≠ VK_SUCCESS ∧ rest = [] ∧ out.code = .sgrQueueSubmitFailed
              ∧ out.state = { s with imagesInFlight := s.imagesInFlight.set env.imageIndex fence })
          ∨ (env.submit = VK_SUCCESS
            ∧ ∃ pres,
              drawFrame.present env
                { s with imagesInFlight := s.imagesInFlight.set env.imageIndex fence } ssem
                = some pres
              ∧ out.code = pres.code ∧ out.state = pres.state ∧ rest = pres.trace)) := by
  unfold drawFrame.submit at h
  split at h
  · rename_i owner ssem ho hs
    dsimp only at h
    split at h
    · rename_i hsub
      simp only [Option.some.injEq] at h
      subst h
      exact ⟨owner, ssem, [], ho, hs, by simp, Or.inl ⟨hsub, rfl, rfl, rfl⟩⟩
    · rename_i hsub
      obtain ⟨r, hr, rfl⟩ := Outcome.after_eq_some h
      exact ⟨owner, ssem, r.trace, ho, hs, rfl, Or.inr ⟨not_not.mp hsub, r, hr, rfl, rfl, rfl⟩⟩
  · cases h

/-- The events of the acquire step: the wait for the slot's fence and the acquisition
come first. -/
theorem acquire_trace {env : Env} {s : SGR} {out : Outcome}
    (h : drawFrame.acquire env s = some out) :
    ∃ fence wsem rest,
      s.inFlightFences[s.currentFrame]? = some fence
        ∧ s.imageAvailableSemaphores[s.currentFrame]? = some wsem
        ∧ out.trace = [.vkWaitForFences fence, .vkAcquireNextImageKHR wsem] ++ rest
        ∧ ((env.acquire = VK_ERROR_OUT_OF_DATE_KHR ∧ env.acquireReinit ≠ .sgrOK
              ∧ rest = [.unbindAllMeshesAndPiplines, .reinitSwapChain]
              ∧ out.code = env.acquireReinit)
          ∨ (env.acquire = VK_ERROR_OUT_OF_DATE_KHR ∧ env.acquireReinit = .sgrOK
              ∧ ∃ sub,
                drawFrame.submit env
                  { unbindAllMeshesAndPiplines s with
                    imageCount := env.acquireReinitImageCount
                    imagesInFlight :=
                      resize s.imagesInFlight env.acquireReinitImageCount VK_NULL_HANDLE }
                  fence wsem = some sub
                ∧ out.code = sub.code ∧ out.state = sub.state
                ∧ rest = [.unbindAllMeshesAndPiplines, .reinitSwapChain] ++ sub.trace)
          ∨ (env.acquire ≠ VK_ERROR_OUT_OF_DATE_KHR ∧ env.acquire ≠ VK_SUCCESS
              ∧ env.acquire ≠ VK_SUBOPTIMAL_KHR ∧ rest = []
              ∧ out.code = .sgrFailedToAcquireImage ∧ out.state = s)
          ∨ ((env.acquire = VK_SUCCESS ∨ env.acquire = VK_SUBOPTIMAL_KHR)
              ∧ ∃ sub, drawFrame.submit env s fence wsem = some sub
                ∧ out.code = sub.code ∧ out.state = sub.state ∧ rest = sub.trace)) := by
  unfold drawFrame.acquire at h
  split at h
  · rename_i fence wsem hf hw
    dsimp only at h
    refine ⟨fence, wsem, ?_⟩
    split at h
    · rename_i hstale
      split at h
      · rename_i hre
        simp only [Option.some.injEq] at h
        subst h
        exact ⟨_, hf, hw, rfl, Or.inl ⟨hstale, hre, rfl, rfl⟩⟩
      · rename_i hre
        obtain ⟨r, hr, rfl⟩ := Outcome.after_eq_some h
        exact ⟨[.unbindAllMeshesAndPiplines, .reinitSwapChain] ++ r.trace, hf, hw, rfl,
          Or.inr (Or.inl ⟨hstale, not_not.mp hre, r, hr, rfl, rfl, rfl⟩)⟩
    · rename_i hstale
      split at h
      · rename_i hfatal
        simp only [Option.some.injEq] at h
        subst h
        exact ⟨[], hf, hw, rfl, Or.inr (Or.inr (Or.inl
          ⟨hstale, hfatal.1, hfatal.2, rfl, rfl, rfl⟩))⟩
      · rename_i hfatal
        obtain ⟨r, hr, rfl⟩ := Outcome.after_eq_some h
        refine ⟨r.trace, hf, hw, rfl, Or.inr (Or.inr (Or.inr ⟨?_, r, hr, rfl, rfl, rfl⟩))⟩
        by_cases h1 : env.acquire = VK_SUCCESS
        · exact Or.inl h1
        · exact Or.inr (not_not.mp fun h2 => hfatal ⟨h1, h2⟩)
  · cases h

/-! ## What the steps after recording may change -/

theorem present_frame {env : Env} {s : SGR} {sem : Nat} {out : Outcome}
    (h : drawFrame.present env s sem = some out) : DeviceFrame s out := by
  unfold drawFrame.present at h
  split_ifs at h
  · obtain ⟨r, hr, rfl⟩ := Outcome.after_eq_some h
    unfold drawFrame.advance at hr
    split_ifs at hr
    simp only [Option.some.injEq] at hr
    subst hr
    rfl
  · simp only [Option.some.injEq] at h
    subst h
    rfl
  · obtain ⟨r, hr, rfl⟩ := Outcome.after_eq_some h
    unfold drawFrame.advance at hr
    split_ifs at hr
    simp only [Option.some.injEq] at hr
    subst hr
    rfl

theorem submit_frame {env : Env} {s : SGR} {fence wsem : Nat} {out : Outcome}
    (h : drawFrame.submit env s fence wsem = some out) : DeviceFrame s out := by
  unfold drawFrame.submit at h
  split at h
  · dsimp only at h
    split at h
    · simp only [Option.some.injEq] at h
      subst h
      rfl
    · obtain ⟨r, hr, rfl⟩ := Outcome.after_eq_some h
      have := present_frame hr
      exact this
  · cases h

theorem acquire_frame {env : Env} {s : SGR} {out : Outcome}
    (h : drawFrame.acquire env s = some out) : DeviceFrame s out := by
  unfold drawFrame.acquire at h
  split at h
  · dsimp only at h
    split at h
    · split at h
      · simp only [Option.some.injEq] at h
        subst h
        rfl
      · obtain ⟨r, hr, rfl⟩ := Outcome.after_eq_some h
        have := submit_frame hr
        exact this
    · split at h
      · simp only [Option.some.injEq] at h
        subst h
        rfl
      · obtain ⟨r, hr, rfl⟩ := Outcome.after_eq_some h
        have := submit_frame hr
        exact this
  · cases h

theorem build_isPass {env : Env} {res : SgrErrCode} {s : SGR} {out : Outcome}
    (h : drawFrame.build env res s = some out) :
    ∀ e ∈ out.trace, e.isBuild = true ∨ e.isPass = true := by
  unfold drawFrame.build at h
  split_ifs at h
  · obtain ⟨r, hr, rfl⟩ := Outcome.after_eq_some h
    intro e he
    simp only [List.singleton_append, List.mem_cons] at he
    rcases he with rfl | he
    · exact Or.inl rfl
    · exact Or.inr (buildDrawingCommands_isPass hr e he)
  · simp only [Option.some.injEq] at h
    subst h
    intro e he
    cases he

/-- A `drawFrame` call whose events include the end of recording went on to the
acquire step. -/
theorem drawFrame_reached_acquire {env : Env} {s : SGR} {out : Outcome}
    (h : drawFrame env s = some out)
    (hev : Event.endInitCommandBuffers ∈ out.trace ∨ ∃ e ∈ out.trace, e.isAcquire = true) :
    ∃ built acq, drawFrame.build env env.updateDescriptorSets s = some built
      ∧ built.code = .sgrOK
      ∧ drawFrame.device env.wait env built.state = some acq
      ∧ out = ⟨acq.code, acq.state,
          drawFrame.preamble
            ++ ((built.trace ++ [.executeCommands, .uiRender, .endInitCommandBuffers])
              ++ acq.trace)⟩ := by
  have hnot : ∀ e : Event, (e = .endInitCommandBuffers ∨ e.isAcquire = true) →
      e ∉ drawFrame.preamble ∧ ¬ (e.isBuild = true ∨ e.isPass = true) := by
    intro e he
    rcases he with rfl | he
    · exact ⟨by decide, by decide⟩
    · cases e <;>
        simp_all [Event.isAcquire, Event.isBuild, Event.isPass, Event.isCommand,
          drawFrame.preamble]
  have hev' : ∃ e ∈ out.trace, e = .endInitCommandBuffers ∨ e.isAcquire = true := by
    rcases hev with h1 | ⟨e, h1, h2⟩
    · exact ⟨_, h1, Or.inl rfl⟩
    · exact ⟨e, h1, Or.inr h2⟩
  obtain ⟨e, hmem, hclass⟩ := hev'
  obtain ⟨hpre, hpass⟩ := hnot e hclass
  rcases drawFrame_inv h with ⟨_, rfl⟩ | ⟨_, _, _, rfl⟩ | ⟨_, _, built, hb, h3⟩
  · exfalso
    apply hpre
    simp only [drawFrame.preamble, List.mem_cons, List.mem_singleton, List.not_mem_nil,
      or_false] at hmem ⊢
    tauto
  · exact absurd hmem hpre
  · rcases h3 with ⟨_, rfl⟩ | ⟨hok, acq, hacq, rfl⟩
    · exfalso
      rcases List.mem_append.mp hmem with h4 | h4
      · exact hpre h4
      · exact hpass (build_isPass hb e h4)
    · exact ⟨built, acq, hb, hok, hacq, rfl⟩

theorem minimizedWait_isDevice {env : Env} {s waited : SGR} {events : List Event}
    (h : drawFrame.minimizedWait env.wait s = some (waited, events)) :
    ∀ e ∈ events, e = .glfwWaitEvents := by
  intro e he
  rcases wait_inv h with ⟨_, _, rfl⟩ | ⟨_, rfl, _⟩
  · cases he
  · simpa using he

theorem ownerWait_isDevice (owner : Nat) :
    ∀ e ∈ drawFrame.ownerWait owner, e = .vkWaitForFences owner := by
  intro e he
  unfold drawFrame.ownerWait at he
  split_ifs at he
  · simpa using he
  · cases he

theorem present_isDevice {env : Env} {s : SGR} {sem : Nat} {out : Outcome}
    (h : drawFrame.present env s sem = some out) : ∀ e ∈ out.trace, e.isDevice = true := by
  intro e he
  rcases present_trace h with h1 | h1 <;> rw [h1] at he <;>
    simp only [List.mem_cons, List.mem_singleton, List.not_mem_nil, or_false] at he
  · subst he; rfl
  · rcases he with rfl | rfl | rfl <;> rfl

theorem submit_isDevice {env : Env} {s : SGR} {fence wsem : Nat} {out : Outcome}
    (h : drawFrame.submit env s fence wsem = some out) : ∀ e ∈ out.trace, e.isDevice = true := by
  intro e he
  obtain ⟨owner, ssem, rest, _, _, htr, hrest⟩ := submit_trace h
  rw [htr] at he
  simp only [List.mem_append, List.mem_cons, List.mem_singleton, List.not_mem_nil,
    or_false] at he
  rcases he with (he | rfl | rfl) | he
  · rw [ownerWait_isDevice owner e he]; rfl
  · rfl
  · rfl
  · rcases hrest with ⟨_, rfl, _⟩ | ⟨_, pres, hp, _, _, rfl⟩
    · cases he
    · exact present_isDevice hp e he

theorem acquire_isDevice {env : Env} {s : SGR} {out : Outcome}
    (h : drawFrame.acquire env s = some out) : ∀ e ∈ out.trace, e.isDevice = true := by
  intro e he
  obtain ⟨fence, wsem, rest, _, _, htr, hrest⟩ := acquire_trace h
  rw [htr] at he
  simp only [List.mem_append, List.mem_cons, List.mem_singleton, List.not_mem_nil,
    or_false] at he
  rcases he with (rfl | rfl) | he
  · rfl
  · rfl
  · rcases hrest with ⟨_, _, rfl, _⟩ | ⟨_, _, sub, hs, _, _, rfl⟩ | ⟨_, _, _, rfl, _⟩
        | ⟨_, sub, hs, _, _, rfl⟩
    · simp only [List.mem_cons, List.mem_singleton, List.not_mem_nil, or_false] at he
      rcases he with rfl | rfl <;> rfl
    · simp only [List.mem_append, List.mem_cons, List.mem_singleton, List.not_mem_nil,
        or_false] at he
      rcases he with (rfl | rfl) | he
      · rfl
      · rfl
      · exact submit_isDevice hs e he
    · cases he
    · exact submit_isDevice hs e he

theorem device_isDevice {env : Env} {s : SGR} {dev : Outcome}
    (h : drawFrame.device env.wait env s = some dev) : ∀ e ∈ dev.trace, e.isDevice = true := by
  obtain ⟨waited, events, acq, hw, hacq, rfl⟩ := device_inv h
  intro e he
  rcases List.mem_append.mp he with he | he
  · rw [minimizedWait_isDevice hw e he]; rfl
  · exact acquire_isDevice hacq e he

/-- The shape of the events of a `drawFrame` call that got to the rebuild decision. -/
theorem drawFrame_shape {env : Env} {s : SGR} {out : Outcome} (h : drawFrame env s = some out)
    (hbegin : env.beginCommandBuffers = .sgrOK)
    (hupd : env.updateDescriptorSets = .sgrOK
      ∨ env.updateDescriptorSets = .sgrDescriptorsSetsUpdated) :
    ∃ built rest, drawFrame.build env env.updateDescriptorSets s = some built
      ∧ out.trace = drawFrame.preamble ++ (built.trace ++ rest)
      ∧ (∀ e ∈ rest, e.isBuild = false ∧ e.isCommand = false)
      ∧ ((rest = [] ∧ built.code ≠ .sgrOK ∧ out.code = built.code ∧ out.state = built.state)
        ∨ (built.code = .sgrOK
          ∧ ∃ acq, drawFrame.device env.wait env built.state = some acq
            ∧ rest = [.executeCommands, .uiRender, .endInitCommandBuffers] ++ acq.trace
            ∧ out.code = acq.code ∧ out.state = acq.state)) := by
  rcases drawFrame_inv h with ⟨h1, _⟩ | ⟨_, h2, h3, _⟩ | ⟨_, _, built, hb, h4⟩
  · exact absurd hbegin h1
  · rcases hupd with h5 | h5
    · exact absurd h5 h2
    · exact absurd h5 h3
  · rcases h4 with ⟨hne, rfl⟩ | ⟨hok, acq, hacq, rfl⟩
    · exact ⟨built, [], hb, by simp, fun e he => (by cases he), Or.inl ⟨rfl, hne, rfl, rfl⟩⟩
    · refine ⟨built, [.executeCommands, .uiRender, .endInitCommandBuffers] ++ acq.trace, hb,
        by simp, ?_, Or.inr ⟨hok, acq, hacq, rfl, rfl, rfl⟩⟩
      intro e he
      rcases List.mem_append.mp he with he | he
      · simp only [List.mem_cons, List.mem_singleton, List.not_mem_nil, or_false] at he
        rcases he with rfl | rfl | rfl <;> exact ⟨rfl, rfl⟩
      · have := device_isDevice hacq e he
        cases e <;> first | exact ⟨rfl, rfl⟩ | cases this

/-- The calls of `buildDrawingCommands` among the events of the rebuild decision. -/
theorem build_markers {env : Env} {res : SgrErrCode} {s : SGR} {built : Outcome}
    (h : drawFrame.build env res s = some built) :
    (∀ r, Event.buildDrawingCommands r ∈ built.trace
        ↔ ((s.commandsBuilded = false ∨ res = .sgrDescriptorsSetsUpdated)
          ∧ r = (res == .sgrDescriptorsSetsUpdated)))
      ∧ built.trace.countP Event.isBuild ≤ 1
      ∧ (¬ (s.commandsBuilded = false ∨ res = .sgrDescriptorsSetsUpdated) →
          built.trace = [] ∧ built.code = .sgrOK ∧ built.state = s) := by
  unfold drawFrame.build at h
  split_ifs at h with hc
  · have hc' : s.commandsBuilded = false ∨ res = .sgrDescriptorsSetsUpdated := by
      simpa using hc
    obtain ⟨r, hr, rfl⟩ := Outcome.after_eq_some h
    have hp := buildDrawingCommands_isPass hr
    have hz : r.trace.countP Event.isBuild = 0 := by
      rw [List.countP_eq_zero]
      intro e he
      have := hp e he
      cases e <;> simp_all [Event.isBuild, Event.isPass, Event.isCommand]
    refine ⟨fun r' => ?_, ?_, fun hn => absurd hc' hn⟩
    · simp only [List.singleton_append, List.mem_cons, Event.buildDrawingCommands.injEq]
      constructor
      · rintro (h1 | h1)
        · exact ⟨hc', h1⟩
        · have := hp _ h1
          simp [Event.isPass, Event.isCommand] at this
      · exact fun h1 => Or.inl h1.2
    · show List.countP Event.isBuild ([_] ++ r.trace) ≤ 1
      rw [List.countP_append, hz]
      simp [List.countP_cons, Event.isBuild]
  · have hc' : ¬ (s.commandsBuilded = false ∨ res = .sgrDescriptorsSetsUpdated) := by
      simpa using hc
    simp only [Option.some.injEq] at h
    subst h
    refine ⟨fun r' => ?_, by simp, fun _ => ⟨rfl, rfl, rfl⟩⟩
    simp [hc']

theorem countP_minimizedWait (p : Event → Bool) (hp : p .glfwWaitEvents = false) {env : Env}
    {s waited : SGR} {events : List Event}
    (h : drawFrame.minimizedWait env.wait s = some (waited, events)) :
    events.countP p = 0 := by
  rw [List.countP_eq_zero]
  intro e he
  rw [minimizedWait_isDevice h e he, hp]
  simp

theorem countP_ownerWait (p : Event → Bool) (hp : ∀ f, p (.vkWaitForFences f) = false)
    (owner : Nat) : (drawFrame.ownerWait owner).countP p = 0 := by
  rw [List.countP_eq_zero]
  intro e he
  rw [ownerWait_isDevice owner e he, hp]
  simp

/-- When acquisition, submit and present succeed, the steps after recording issue one
submit and one present and return `sgrOK`. -/
theorem acquire_success {env : Env} {s : SGR} {acq : Outcome}
    (ha : env.acquire = VK_SUCCESS) (hs : env.submit = VK_SUCCESS)
    (hp : env.present = VK_SUCCESS) (h : drawFrame.acquire env s = some acq) :
    acq.code = .sgrOK ∧ acq.trace.countP Event.isSubmit = 1
      ∧ acq.trace.countP Event.isPresent = 1 := by
  have hood : VK_SUCCESS ≠ VK_ERROR_OUT_OF_DATE_KHR := by decide
  have hsub : VK_SUCCESS ≠ VK_SUBOPTIMAL_KHR := by decide
  obtain ⟨fence, wsem, rest, _, _, htr, hrest⟩ := acquire_trace h
  rcases hrest with ⟨h1, _⟩ | ⟨h1, _⟩ | ⟨_, h1, _⟩ | ⟨_, sub, hsubm, hcode, _, rfl⟩
  · exact absurd (ha ▸ h1) hood
  · exact absurd (ha ▸ h1) hood
  · exact absurd ha h1
  · obtain ⟨owner, ssem, rest2, _, _, htr2, hrest2⟩ := submit_trace hsubm
    rcases hrest2 with ⟨h2, _⟩ | ⟨_, pres, hpres, hcode2, _, rfl⟩
    · exact absurd hs h2
    · have hpt : pres.code = .sgrOK ∧ pres.trace.countP Event.isSubmit = 0
          ∧ pres.trace.countP Event.isPresent = 1 := by
        rcases present_inv hpres with ⟨_, _, rfl⟩ | ⟨_, _, _, h3, _⟩ | ⟨_, _, _, rfl⟩
        · exact ⟨rfl, rfl, rfl⟩
        · exact absurd hp h3
        · exact ⟨rfl, rfl, rfl⟩
      refine ⟨hcode.trans (hcode2.trans hpt.1), ?_, ?_⟩
      · rw [htr, htr2]
        simp only [List.countP_append, countP_ownerWait Event.isSubmit (fun _ => rfl),
          hpt.2.1]
        rfl
      · rw [htr, htr2]
        simp only [List.countP_append, countP_ownerWait Event.isPresent (fun _ => rfl),
          hpt.2.2]
        rfl

/-- The same for the steps after recording with the wait for window events. -/
theorem device_success {env : Env} {s : SGR} {dev : Outcome}
    (ha : env.acquire = VK_SUCCESS) (hs : env.submit = VK_SUCCESS)
    (hp : env.present = VK_SUCCESS) (h : drawFrame.device env.wait env s = some dev) :
    dev.code = .sgrOK ∧ dev.trace.countP Event.isSubmit = 1
      ∧ dev.trace.countP Event.isPresent = 1 := by
  obtain ⟨waited, events, acq, hw, hacq, rfl⟩ := device_inv h
  obtain ⟨h1, h2, h3⟩ := acquire_success ha hs hp hacq
  refine ⟨h1, ?_, ?_⟩
  · show List.countP _ (events ++ acq.trace) = 1
    rw [List.countP_append, countP_minimizedWait Event.isSubmit rfl hw, h2]
  · show List.countP _ (events ++ acq.trace) = 1
    rw [List.countP_append, countP_minimizedWait Event.isPresent rfl hw, h3]

/-! ## Grouping -/

theorem Grouped.nil : Grouped [] := by
  intro x y h
  cases h

theorem groupedCheck_iff (l : List String) : groupedCheck l = true ↔ Grouped l := by
  simp only [groupedCheck, List.all_eq_true, Bool.or_eq_true, Bool.not_eq_true',
    decide_eq_false_iff_not, beq_iff_eq]
  constructor
  · intro h x y hs
    have hx : x ∈ l := hs.subset (List.mem_cons_self _ _)
    have hy : y ∈ l := hs.subset (List.mem_cons_of_mem _ (List.mem_cons_self _ _))
    rcases h x hx y hy with h1 | h1
    · exact absurd hs h1
    · exact h1
  · intro h x _ y _
    by_cases hs : [x, y, x].Sublist l
    · exact Or.inr (h x y hs)
    · exact Or.inl hs

/-- The sample calls, run from the constructor's registry, put `B` between `A` and
`C`. -/
theorem sampleCalls_run :
    (runRegistryCalls ⟨"", 0, false⟩ ⟨"", "", 0, false⟩ sampleCalls
        (SGR.ctor ⟨"", 0, false⟩ ⟨"", "", 0, false⟩ sampleScene)).map
      (fun s => (s.instances.map (·.name), groupedCheck (s.instances.map (·.geometry))))
      = some (["empty", "A", "B", "C"], true) := by
  decide

/-- Repeating an entry next to itself keeps the grouping. -/
theorem Grouped.duplicate {a b : List String} {g : String} (h : Grouped (a ++ g :: b)) :
    Grouped (a ++ g :: g :: b) := by
  intro x y hsub
  obtain ⟨t1, t2, ht, h1, h2⟩ := List.sublist_append_iff.mp hsub
  rcases List.sublist_cons_iff.mp h2 with h3 | ⟨r, rfl, h3⟩
  · exact h x y (ht ▸ h1.append h3)
  · rcases List.sublist_cons_iff.mp h3 with h4 | ⟨r', rfl, h4⟩
    · exact h x y (ht ▸ h1.append (List.cons_sublist_cons.mpr h4))
    · -- both copies are used
      match t1, ht with
      | [], ht =>
        simp only [List.nil_append, List.cons.injEq] at ht
        exact ht.2.1.trans ht.1.symm
      | [_], ht =>
        simp only [List.singleton_append, List.cons.injEq] at ht
        exact ht.2.1.trans ht.2.2.1.symm
      | _ :: _ :: t, ht =>
        have hlen := congrArg List.length ht
        simp only [List.length_cons, List.length_append, List.length_nil] at hlen
        omega

/-- Adding a new geometry at the end keeps the grouping. -/
theorem Grouped.append_new {l : List String} {g : String} (h : Grouped l) (hg : g ∉ l) :
    Grouped (l ++ [g]) := by
  intro x y hsub
  obtain ⟨t1, t2, ht, h1, h2⟩ := List.sublist_append_iff.mp hsub
  rcases List.sublist_cons_iff.mp h2 with h3 | ⟨r, rfl, h3⟩
  · rw [List.sublist_nil.mp h3, List.append_nil] at ht
    exact h x y (ht ▸ h1)
  · rw [List.sublist_nil.mp h3] at ht
    match t1, ht, h1 with
    | [a, b], ht, h1 =>
      simp only [List.cons_append, List.nil_append, List.cons.injEq, and_true] at ht
      exfalso
      apply hg
      have : a ∈ l := h1.subset (List.mem_cons_self _ _)
      rw [← ht.2.2, ht.1]
      exact this
    | [], ht, _ => simp at ht
    | [_], ht, _ => simp at ht
    | _ :: _ :: _ :: _, ht, _ => simp at ht

/-- Adding a geometry after a last entry of the same geometry keeps the grouping. -/
theorem Grouped.append_same {l : List String} {g : String} (h : Grouped l)
    (hg : l.getLast? = some g) : Grouped (l ++ [g]) := by
  obtain ⟨ys, rfl⟩ := List.getLast?_eq_some_iff.mp hg
  have := Grouped.duplicate (a := ys) (b := []) (g := g) h
  simpa using this

/-- Putting a geometry in front that does not occur keeps the grouping. -/
theorem Grouped.cons_new {l : List String} {g : String} (h : Grouped l) (hg : g ∉ l) :
    Grouped (g :: l) := by
  intro x y hsub
  rcases List.sublist_cons_iff.mp hsub with h3 | ⟨r, hr, h3⟩
  · exact h x y h3
  · simp only [List.cons.injEq] at hr
    obtain ⟨rfl, rfl⟩ := hr
    exact absurd (h3.subset (List.mem_cons_of_mem _ (List.mem_cons_self _ _))) hg

theorem firstIndex_lt {α : Type} (p : α → Bool) :
    ∀ (l : List α) (i : Nat), firstIndex p l = some i → ∃ x, l[i]? = some x ∧ p x = true := by
  intro l
  induction l with
  | nil => intro i h; cases h
  | cons x xs ih =>
    intro i h
    unfold firstIndex at h
    split_ifs at h with hp
    · simp only [Option.some.injEq] at h
      subst h
      exact ⟨x, by simp, hp⟩
    · cases hrec : firstIndex p xs with
      | none => rw [hrec] at h; cases h
      | some j =>
        rw [hrec] at h
        simp only [Option.map_some', Option.some.injEq] at h
        subst h
        obtain ⟨y, hy, hpy⟩ := ih j hrec
        exact ⟨y, by simpa using hy, hpy⟩

theorem findObjectByName_lt {objects : List SgrObject} (h : objects ≠ []) (name : String) :
    ∃ o, objects[findObjectByName objects name]? = some o := by
  unfold findObjectByName
  cases hrec : firstIndex (fun o => o.name == name) objects with
  | none =>
    cases objects with
    | nil => exact absurd rfl h
    | cons o os => exact ⟨o, by simp⟩
  | some i =>
    obtain ⟨o, ho, _⟩ := firstIndex_lt _ _ _ hrec
    exact ⟨o, ho⟩

theorem search_some (l : List SgrObjectInstance) (g : String) :
    ∀ (n i : Nat), addObjectInstance.search l g n = some i →
      1 ≤ i ∧ ∃ inst, l[i]? = some inst ∧ inst.geometry = g := by
  intro n
  induction n with
  | zero => intro i h; cases h
  | succ n ih =>
    intro i h
    unfold addObjectInstance.search at h
    split at h
    · rename_i inst hinst
      split_ifs at h with hg
      · simp only [Option.some.injEq] at h
        subst h
        exact ⟨Nat.succ_le_succ (Nat.zero_le _), inst, hinst, by simpa using hg⟩
      · exact ih i h
    · exact ih i h

theorem search_none (l : List SgrObjectInstance) (g : String) :
    ∀ (n : Nat), addObjectInstance.search l g n = none →
      ∀ j, 1 ≤ j → j ≤ n → ∀ inst, l[j]? = some inst → inst.geometry ≠ g := by
  intro n
  induction n with
  | zero => intro _ j h1 h2; omega
  | succ n ih =>
    intro h j h1 h2 inst hinst
    unfold addObjectInstance.search at h
    by_cases hj : j = n + 1
    · subst hj
      rw [hinst] at h
      simp only at h
      split_ifs at h with hg
      simpa using hg
    · split at h
      · split_ifs at h
        exact ih h j h1 (by omega) inst hinst
      · exact ih h j h1 (by omega) inst hinst

theorem addNewObjectGeometry_inv {sentinel : SgrObjectInstance} {P : String → Prop} {s : SGR}
    (newObject : SgrObject) (env : GeometryEnv) (name : String) (indices : Nat)
    (h : RegistryInv sentinel P s) :
    RegistryInv sentinel P (addNewObjectGeometry newObject env name indices s).2 := by
  unfold addNewObjectGeometry
  split_ifs <;> first | exact h | exact ⟨by simp, h.2⟩

theorem grouped_insert_after {rest : List SgrObjectInstance} {k : Nat}
    {inst new : SgrObjectInstance} (hget : rest[k]? = some inst)
    (hg : inst.geometry = new.geometry) (h : Grouped (rest.map (·.geometry))) :
    Grouped ((rest.take (k + 1) ++ new :: rest.drop (k + 1)).map (·.geometry)) := by
  have ht : rest.take (k + 1) = rest.take k ++ [inst] := by
    rw [List.take_succ, hget]
    rfl
  have hr : rest.take k ++ inst :: rest.drop (k + 1) = rest := by
    have := List.take_append_drop (k + 1) rest
    rw [ht] at this
    simpa using this
  have h' : Grouped ((rest.take k ++ inst :: rest.drop (k + 1)).map (·.geometry)) := by
    rw [hr]
    exact h
  rw [ht]
  simp only [List.map_append, List.map_cons, List.map_nil, List.append_assoc,
    List.singleton_append] at h' ⊢
  rw [← hg]
  exact Grouped.duplicate h'

theorem mem_insert_after {rest : List SgrObjectInstance} {k : Nat} {new x : SgrObjectInstance}
    (hx : x ∈ rest.take (k + 1) ++ new :: rest.drop (k + 1)) : x = new ∨ x ∈ rest := by
  rcases List.mem_append.mp hx with hm | hm
  · exact Or.inr (List.mem_of_mem_take hm)
  · rcases List.mem_cons.mp hm with rfl | hm
    · exact Or.inl rfl
    · exact Or.inr (List.mem_of_mem_drop hm)

theorem addObjectInstance_inv {sentinel : SgrObjectInstance} {P : String → Prop} {s : SGR}
    (newInstance : SgrObjectInstance) (name geometry : String) (alignment : Nat)
    (hP : P geometry) (h : RegistryInv sentinel P s) :
    ∃ code next, addObjectInstance newInstance name geometry alignment s = some (code, next)
      ∧ RegistryInv sentinel P next := by
  obtain ⟨hobj, rest, hinst, hgr, hall⟩ := h
  obtain ⟨found, hfound⟩ := findObjectByName_lt hobj geometry
  unfold addObjectInstance
  rw [hfound]
  dsimp only
  split_ifs with hempty
  · exact ⟨_, _, rfl, hobj, rest, hinst, hgr, hall⟩
  · have hlast : ∃ back, s.instances.getLast? = some back := by
      rw [hinst]
      cases hl : (sentinel :: rest).getLast? with
      | none => simp at hl
      | some b => exact ⟨b, rfl⟩
    obtain ⟨back, hback⟩ := hlast
    rw [hback]
    dsimp only
    have hpush : ∀ new : SgrObjectInstance, new.geometry = geometry →
        Grouped ((rest ++ [new]).map (·.geometry)) →
        RegistryInv sentinel P { s with instances := s.instances ++ [new] } := by
      intro new hnew hg
      refine ⟨hobj, rest ++ [new], by simp [hinst], hg, ?_⟩
      intro inst hmem
      rcases List.mem_append.mp hmem with hm | hm
      · exact hall inst hm
      · rw [List.mem_singleton.mp hm, hnew]; exact hP
    split_ifs with hsame
    · -- the last instance has the geometry
      refine ⟨_, _, rfl, hpush _ rfl ?_⟩
      simp only [List.map_append, List.map_cons, List.map_nil]
      cases rest with
      | nil => intro x y hs; simp at hs
      | cons r rs =>
        apply Grouped.append_same hgr
        rw [hinst, List.getLast?_cons_cons] at hback
        rw [List.getLast?_map, hback]
        simpa using hsame
    · cases hs : addObjectInstance.search s.instances geometry (s.instances.length - 1) with
      | some i =>
        dsimp only
        obtain ⟨hi, inst, hget, hgeo⟩ := search_some _ _ _ _ hs
        obtain ⟨k, rfl⟩ : ∃ k, i = k + 1 := ⟨i - 1, by omega⟩
        rw [hinst] at hget
        simp only [List.getElem?_cons_succ] at hget
        refine ⟨_, _, rfl, hobj,
          rest.take (k + 1)
            ++ (⟨name, geometry, alignment, newInstance.needToDraw⟩ : SgrObjectInstance)
              :: rest.drop (k + 1), ?_, ?_, ?_⟩
        · show s.instances.take (k + 1 + 1) ++ _ :: s.instances.drop (k + 1 + 1) = _
          rw [hinst]
          rfl
        · exact grouped_insert_after hget hgeo hgr
        · intro x hx
          rcases mem_insert_after hx with rfl | hx
          · exact hP
          · exact hall x hx
      | none =>
        dsimp only
        refine ⟨_, _, rfl, hpush _ rfl ?_⟩
        simp only [List.map_append, List.map_cons, List.map_nil]
        apply Grouped.append_new hgr
        intro hmem
        obtain ⟨inst, hin, hgeo⟩ := List.mem_map.mp hmem
        obtain ⟨j, hj, hget⟩ := List.getElem_of_mem hin
        have := search_none _ _ _ hs (j + 1) (by omega) (by rw [hinst]; simp; omega) inst
          (by rw [hinst]; simp [List.getElem?_eq_getElem hj, hget])
        exact this hgeo

theorem ctor_inv (emptyObject : SgrObject) (emptyInstance : SgrObjectInstance) (init : SGR)
    (P : String → Prop) :
    RegistryInv { emptyInstance with name := "empty" } P
      (SGR.ctor emptyObject emptyInstance init) :=
  ⟨by simp [SGR.ctor], [], rfl, Grouped.nil, fun _ h => by cases h⟩

theorem runRegistryCalls_inv {sentinel : SgrObjectInstance} {P : String → Prop}
    (newObject : SgrObject) (newInstance : SgrObjectInstance) :
    ∀ (calls : List RegistryCall) (s : SGR), RegistryInv sentinel P s →
      (∀ n g a, RegistryCall.addObjectInstance n g a ∈ calls → P g) →
      ∃ final, runRegistryCalls newObject newInstance calls s = some final
        ∧ RegistryInv sentinel P final := by
  intro calls
  induction calls with
  | nil => intro s h _; exact ⟨s, rfl, h⟩
  | cons call calls ih =>
    intro s h hP
    have hP' : ∀ n g a, RegistryCall.addObjectInstance n g a ∈ calls → P g :=
      fun n g a hm => hP n g a (List.mem_cons_of_mem _ hm)
    cases call with
    | addNewObjectGeometry env name indices =>
      exact ih _ (addNewObjectGeometry_inv newObject env name indices h) hP'
    | addObjectInstance name geometry alignment =>
      obtain ⟨code, next, hnext, hinv⟩ :=
        addObjectInstance_inv newInstance name geometry alignment
          (hP _ _ _ (List.mem_cons_self _ _)) h
      obtain ⟨final, hfinal, hfin⟩ := ih next hinv hP'
      refine ⟨final, ?_, hfin⟩
      simp only [runRegistryCalls, hnext]
      exact hfinal

/-! ## The recording pass -/

theorem set_same {α : Type} : ∀ (l : List α) (i : Nat) (x : α), l[i]? = some x → l.set i x = l := by
  intro l
  induction l with
  | nil => intro i x h; rfl
  | cons y ys ih =>
    intro i x h
    cases i with
    | zero =>
      simp only [List.getElem?_cons_zero, Option.some.injEq] at h
      rw [h]; rfl
    | succ i =>
      simp only [List.getElem?_cons_succ] at h
      simp only [List.set_cons_succ, ih i x h]

theorem firstIndex_set {α : Type} (p : α → Bool) :
    ∀ (l : List α) (i : Nat) (x y : α), l[i]? = some x → p y = p x →
      firstIndex p (l.set i y) = firstIndex p l := by
  intro l
  induction l with
  | nil => intro i x y h _; rfl
  | cons z zs ih =>
    intro i x y h hp
    cases i with
    | zero =>
      simp only [List.getElem?_cons_zero, Option.some.injEq] at h
      subst h
      simp only [List.set_cons_zero, firstIndex, hp]
    | succ i =>
      simp only [List.getElem?_cons_succ] at h
      simp only [List.set_cons_succ, firstIndex, ih i x y h hp]

/-- Changing the bound flag of an object does not change what `findObjectByName` finds. -/
theorem findObjectByName_set (objects : List SgrObject) (i : Nat) (o : SgrObject) (b : Bool)
    (h : objects[i]? = some o) (name : String) :
    findObjectByName (objects.set i { o with meshDataAndPiplineBinded := b }) name
      = findObjectByName objects name := by
  unfold findObjectByName
  rw [firstIndex_set (fun o => o.name == name) objects i o
    { o with meshDataAndPiplineBinded := b } h rfl]

/-- Two geometries whose objects are found under their names at the same index are
the same geometry. -/
theorem geometry_eq_of_index_eq {objects : List SgrObject} {g g' : String} {o o' : SgrObject}
    (h : objects[findObjectByName objects g]? = some o) (hn : o.name = g)
    (h' : objects[findObjectByName objects g']? = some o') (hn' : o'.name = g')
    (hidx : findObjectByName objects g' = findObjectByName objects g) : g' = g := by
  rw [hidx, h] at h'
  cases h'
  rw [← hn, ← hn']

theorem Recordable.step {s : SGR} {indicesCount : String → Nat} {objects : List SgrObject}
    {bound : List String} {inst inst' : SgrObjectInstance} {o : SgrObject}
    (ho : objects[findObjectByName objects inst.geometry]? = some o)
    (hn : o.name = inst.geometry)
    (h' : Recordable s indicesCount objects bound inst') :
    Recordable s indicesCount
      (if !o.meshDataAndPiplineBinded then
        objects.set (findObjectByName objects inst.geometry)
          { o with meshDataAndPiplineBinded := true }
      else objects)
      (inst.geometry :: bound) inst' := by
  obtain ⟨h1, h2, h3, o', ho', hn', he', hc', hb'⟩ := h'
  refine ⟨h1, h2, h3, ?_⟩
  by_cases hidx : findObjectByName objects inst'.geometry = findObjectByName objects inst.geometry
  · -- the same object
    have hg := geometry_eq_of_index_eq ho hn ho' hn' hidx
    have hoo : o' = o := by
      rw [hidx, ho] at ho'
      exact (Option.some.inj ho').symm
    subst hoo
    cases hflag : o'.meshDataAndPiplineBinded with
    | false =>
      refine ⟨{ o' with meshDataAndPiplineBinded := true }, ?_, hn', he', hc', ?_⟩
      · simp only [Bool.not_false, if_true]
        rw [findObjectByName_set _ _ _ _ ho, hidx, List.getElem?_set_self']
        rw [ho]
        rfl
      · simp [hg]
    | true =>
      refine ⟨o', ?_, hn', he', hc', ?_⟩
      · simp only [Bool.not_true, Bool.false_eq_true, if_false]
        exact ho'
      · simp [hg, hflag]
  · have hg : inst'.geometry ≠ inst.geometry := by
      intro hg
      apply hidx
      rw [hg]
    refine ⟨o', ?_, hn', he', hc', ?_⟩
    · split_ifs
      · rw [findObjectByName_set _ _ _ _ ho, List.getElem?_set_ne (Ne.symm hidx)]
        exact ho'
      · exact ho'
    · rw [hb']
      simp [hg]

theorem record_expected (s : SGR) (indicesCount : String → Nat) (n : Nat) :
    ∀ (l : List SgrObjectInstance) (objects : List SgrObject) (bound : List String),
      (∀ inst ∈ l, inst.needToDraw = true → Recordable s indicesCount objects bound inst) →
      ∃ objects', buildDrawingCommands.record s n l objects
        = some (.sgrOK, objects',
            expectedCommands indicesCount n (l.filter (·.needToDraw)) bound) := by
  intro l
  induction l with
  | nil => intro objects bound _; exact ⟨objects, rfl⟩
  | cons inst rest ih =>
    intro objects bound h
    have hrest : ∀ i ∈ rest, i.needToDraw = true → Recordable s indicesCount objects bound i :=
      fun i hi => h i (List.mem_cons_of_mem _ hi)
    cases hdraw : inst.needToDraw with
    | false =>
      obtain ⟨objects', hrec⟩ := ih objects bound hrest
      refine ⟨objects', ?_⟩
      unfold buildDrawingCommands.record
      simp only [hdraw, Bool.not_false, if_true, ite_self, Bool.false_eq_true, not_false_eq_true,
        List.filter_cons_of_neg]
      exact hrec
    | true =>
      obtain ⟨h1, h2, h3, o, ho, hn, he, hc, hb⟩ := h inst (List.mem_cons_self _ _) hdraw
      have hrest' := fun i hi hd => Recordable.step ho hn (hrest i hi hd)
      obtain ⟨objects', hrec⟩ := ih _ _ hrest'
      refine ⟨objects', ?_⟩
      have e1 : (inst.name == "empty") = false := by simpa using h1
      have e2 : (o.name == "empty") = false := by simpa using he
      have e3 : ((getPipelineByName s.pipelines inst.geometry).name == "empty") = false := by
        simpa using h2
      have e4 : ((s.getDescriptorSetsByName inst.name).name == "empty") = false := by
        simpa using h3
      unfold buildDrawingCommands.record
      simp only [e1, hdraw, ho, e2, e3, e4, Bool.not_true, Bool.false_eq_true, if_false,
        List.filter_cons_of_pos, expectedCommands]
      rw [hrec, hc]
      simp only [Option.some.injEq, Prod.mk.injEq, true_and, List.append_assoc,
        List.append_cancel_right_eq]
      cases hflag : o.meshDataAndPiplineBinded with
      | false =>
        have : inst.geometry ∉ bound := fun hm => by
          have := hb.mpr hm
          rw [hflag] at this
          cases this
        simp [this]
      | true =>
        have : inst.geometry ∈ bound := hb.mp hflag
        simp [this]

/-- The clearing loop keeps every object in place with its name and `indicesCount`,
and never sets a bound flag. -/
theorem clear_keeps :
    ∀ (l : List SgrObjectInstance) (objects objects' : List SgrObject) (code : SgrErrCode),
      buildDrawingCommands.clear l objects = some (code, objects') →
      (∀ name, findObjectByName objects' name = findObjectByName objects name)
        ∧ objects'.length = objects.length
        ∧ ∀ (i : Nat) (o : SgrObject), objects[i]? = some o →
          ∃ o' : SgrObject, objects'[i]? = some o' ∧ o'.name = o.name ∧ o'.indicesCount = o.indicesCount
            ∧ (o.meshDataAndPiplineBinded = false → o'.meshDataAndPiplineBinded = false) := by
  intro l
  induction l with
  | nil =>
    intro objects objects' code h
    simp only [buildDrawingCommands.clear, Option.some.injEq, Prod.mk.injEq] at h
    obtain ⟨_, rfl⟩ := h
    exact ⟨fun _ => rfl, rfl, fun i o ho => ⟨o, ho, rfl, rfl, id⟩⟩
  | cons inst rest ih =>
    intro objects objects' code h
    unfold buildDrawingCommands.clear at h
    split at h
    · exact ih _ _ _ h
    split at h
    · exact ih _ _ _ h
    cases hobj : objects[findObjectByName objects inst.geometry]? with
    | none => rw [hobj] at h; cases h
    | some obj =>
    rw [hobj] at h
    dsimp only at h
    split at h
    · simp only [Option.some.injEq, Prod.mk.injEq] at h
      obtain ⟨_, rfl⟩ := h
      exact ⟨fun _ => rfl, rfl, fun i o ho => ⟨o, ho, rfl, rfl, id⟩⟩
    · obtain ⟨hfind, hlen, hkeep⟩ := ih _ _ _ h
      refine ⟨fun name => ?_, ?_, fun i o ho => ?_⟩
      · rw [hfind, findObjectByName_set _ _ _ _ hobj]
      · rw [hlen, List.length_set]
      · by_cases hi : findObjectByName objects inst.geometry = i
        · subst hi
          rw [hobj] at ho
          cases ho
          obtain ⟨o', ho', h1, h2, h3⟩ := hkeep _ { obj with meshDataAndPiplineBinded := false }
            (by rw [List.getElem?_set_self', hobj]; rfl)
          exact ⟨o', ho', h1, h2, fun _ => h3 rfl⟩
        · exact hkeep i o (by rw [List.getElem?_set_ne hi]; exact ho)

/-- When the clearing loop runs to its end, the object of every instance to draw has
its bound flag cleared. -/
theorem clear_cleared :
    ∀ (l : List SgrObjectInstance) (objects objects' : List SgrObject),
      buildDrawingCommands.clear l objects = some (.sgrOK, objects') →
      ∀ inst ∈ l, inst.name ≠ "empty" → inst.needToDraw = true →
        ∃ o, objects'[findObjectByName objects' inst.geometry]? = some o
          ∧ o.meshDataAndPiplineBinded = false := by
  intro l
  induction l with
  | nil => intro _ _ _ inst hm; cases hm
  | cons head rest ih =>
    intro objects objects' h inst hm hname hdraw
    unfold buildDrawingCommands.clear at h
    have hskip : ∀ objs, buildDrawingCommands.clear rest objs = some (.sgrOK, objects') →
        inst ≠ head → ∃ o, objects'[findObjectByName objects' inst.geometry]? = some o
          ∧ o.meshDataAndPiplineBinded = false := by
      intro objs hc hne
      rcases List.mem_cons.mp hm with rfl | hm'
      · exact absurd rfl hne
      · exact ih _ _ hc inst hm' hname hdraw
    split at h
    · rename_i he
      exact hskip _ h (fun heq => hname (by rw [heq]; simpa using he))
    split at h
    · rename_i _ hd
      exact hskip _ h (fun heq => by rw [heq] at hdraw; simp [hdraw] at hd)
    cases hobj : objects[findObjectByName objects head.geometry]? with
    | none => rw [hobj] at h; cases h
    | some obj =>
    rw [hobj] at h
    dsimp only at h
    split at h
    · cases h
    · rcases List.mem_cons.mp hm with rfl | hm'
      · obtain ⟨hfind, _, hkeep⟩ := clear_keeps _ _ _ _ h
        obtain ⟨o', ho', _, _, h3⟩ := hkeep (findObjectByName objects inst.geometry)
          { obj with meshDataAndPiplineBinded := false }
          (by rw [List.getElem?_set_self', hobj]; rfl)
        refine ⟨o', ?_, h3 rfl⟩
        rw [hfind, findObjectByName_set _ _ _ _ hobj]
        exact ho'
      · exact ih _ _ h inst hm' hname hdraw

/-- With every bound flag already false the clearing loop changes nothing. -/
theorem clear_noop :
    ∀ (l : List SgrObjectInstance) (objects : List SgrObject),
      (∀ (i : Nat) (o : SgrObject), objects[i]? = some o → o.meshDataAndPiplineBinded = false) →
      (∀ inst ∈ l, inst.name ≠ "empty" → inst.needToDraw = true →
        ∃ o, objects[findObjectByName objects inst.geometry]? = some o ∧ o.name ≠ "empty") →
      buildDrawingCommands.clear l objects = some (.sgrOK, objects) := by
  intro l
  induction l with
  | nil => intro _ _ _; rfl
  | cons head rest ih =>
    intro objects hflags hlook
    have hrec := ih objects hflags fun inst hm => hlook inst (List.mem_cons_of_mem _ hm)
    unfold buildDrawingCommands.clear
    split
    · exact hrec
    split
    · exact hrec
    rename_i he hd
    obtain ⟨o, ho, hne⟩ := hlook head (List.mem_cons_self _ _) (by simpa using he)
      (by simpa using hd)
    rw [ho]
    simp only [beq_iff_eq, hne, if_false]
    have : ({ o with meshDataAndPiplineBinded := false } : SgrObject) = o := by
      have := hflags _ o ho
      cases o
      simp_all
    rw [this, set_same _ _ _ ho]
    exact hrec

theorem sampleScene_lookups :
    ∀ inst ∈ sampleScene.instances, inst.needToDraw = true → lookupsSucceed sampleScene inst := by
  intro inst hm hd
  simp only [sampleScene, List.mem_cons, List.mem_singleton, List.not_mem_nil, or_false] at hm
  rcases hm with rfl | rfl | rfl | rfl
  · cases hd
  · exact ⟨by decide, ⟨⟨"G1", 6, false⟩, by decide, by decide, by decide⟩, by decide, by decide⟩
  · exact ⟨by decide, ⟨⟨"G1", 6, false⟩, by decide, by decide, by decide⟩, by decide, by decide⟩
  · exact ⟨by decide, ⟨⟨"G2", 3, false⟩, by decide, by decide, by decide⟩, by decide, by decide⟩

/-- In the expected sequence, the bind of a geometry occurs once when some instance to
draw has the geometry and it was not bound before, and not at all otherwise. -/
theorem expectedCommands_bind_count (indicesCount : String → Nat) (n : Nat) (g : String) :
    ∀ (l : List SgrObjectInstance) (bound : List String),
      (expectedCommands indicesCount n l bound).countP (· == Event.bindPipeline g)
        = if g ∈ bound then 0 else if g ∈ l.map (·.geometry) then 1 else 0 := by
  intro l
  induction l with
  | nil => intro bound; simp [expectedCommands]
  | cons inst rest ih =>
    intro bound
    have hdraw : (drawCommands n inst (indicesCount inst.geometry)).countP
        (· == Event.bindPipeline g) = 0 := by
      rw [List.countP_eq_zero]
      intro e he
      have := drawCommands_isCommand _ _ _ e he
      simp only [drawCommands, List.mem_append, List.mem_map, List.mem_singleton] at he
      rcases he with ⟨i, _, rfl⟩ | rfl <;> simp
    have hbind : ∀ g', (bindCommands g').countP (· == Event.bindPipeline g)
        = if g' = g then 1 else 0 := by
      intro g'
      simp only [bindCommands, List.countP_cons, List.countP_nil, beq_iff_eq,
        Event.bindPipeline.injEq]
      simp
    simp only [expectedCommands, List.countP_append, hdraw, ih, List.map_cons, List.mem_cons]
    by_cases h1 : inst.geometry ∈ bound
    · by_cases h2 : g = inst.geometry
      · subst h2; simp [h1]
      · by_cases h3 : g ∈ bound <;> simp [h1, h2, h3]
    · by_cases h2 : g = inst.geometry
      · subst h2; simp [h1, hbind]
      · have h2' : inst.geometry ≠ g := fun h => h2 h.symm
        by_cases h3 : g ∈ bound <;> simp [h1, h2, h2', h3, hbind]

/-- A `drawFrame` call that got to the rebuild decision carries the calls of
`buildDrawingCommands` that the decision makes. -/
theorem drawFrame_build_called {env : Env} {s : SGR} {out : Outcome}
    (hbegin : env.beginCommandBuffers = .sgrOK)
    (hupd : env.updateDescriptorSets = .sgrOK
      ∨ env.updateDescriptorSets = .sgrDescriptorsSetsUpdated)
    (h : drawFrame env s = some out) :
    ∃ built, drawFrame.build env env.updateDescriptorSets s = some built
      ∧ ∀ r, ((s.commandsBuilded = false
            ∨ env.updateDescriptorSets = .sgrDescriptorsSetsUpdated)
          ∧ r = (env.updateDescriptorSets == .sgrDescriptorsSetsUpdated)) →
        Event.buildDrawingCommands r ∈ out.trace := by
  obtain ⟨built, rest, hb, htr, _, _⟩ := drawFrame_shape h hbegin hupd
  refine ⟨built, hb, fun r hr => ?_⟩
  rw [htr]
  exact List.mem_append_right _ (List.mem_append_left _ (((build_markers hb).1 r).mpr hr))

/-- When the clearing loop runs to its end in a registry where every object with a set
bound flag is the object of an instance to draw, no bound flag is left set. -/
theorem clear_all_cleared {l : List SgrObjectInstance} {objects objects' : List SgrObject}
    (h : buildDrawingCommands.clear l objects = some (.sgrOK, objects'))
    (hcov : ∀ (i : Nat) (o : SgrObject), objects[i]? = some o →
      o.meshDataAndPiplineBinded = true →
      ∃ inst ∈ l, inst.name ≠ "empty" ∧ inst.needToDraw = true
        ∧ findObjectByName objects inst.geometry = i) :
    ∀ o ∈ objects', o.meshDataAndPiplineBinded = false := by
  obtain ⟨hfind, hlen, hkeep⟩ := clear_keeps _ _ _ _ h
  intro o' hmem
  obtain ⟨i, hi, hget⟩ := List.getElem_of_mem hmem
  have hi' : i < objects.length := hlen ▸ hi
  obtain ⟨o1, ho1, _, _, hmono⟩ := hkeep i objects[i] (List.getElem?_eq_getElem hi')
  have ho' : objects'[i]? = some o' := by rw [List.getElem?_eq_getElem hi, hget]
  rw [ho'] at ho1
  cases ho1
  cases hflag : (objects[i]).meshDataAndPiplineBinded with
  | false => exact hmono hflag
  | true =>
    obtain ⟨inst, hm, hname, hdraw, hidx⟩ := hcov i objects[i] (List.getElem?_eq_getElem hi') hflag
    obtain ⟨o2, ho2, hfalse⟩ := clear_cleared _ _ _ h inst hm hname hdraw
    rw [hfind, hidx, ho'] at ho2
    cases ho2
    exact hfalse

/-! ## Object names through the passes -/

theorem firstIndex_map {α β : Type} (f : α → β) (p : β → Bool) :
    ∀ l : List α, firstIndex (fun x => p (f x)) l = firstIndex p (l.map f) := by
  intro l
  induction l with
  | nil => rfl
  | cons x xs ih => simp only [firstIndex, List.map_cons, ih]

/-- What `findObjectByName` gives depends on the names of the objects only. -/
theorem findObjectByName_names {objects objects' : List SgrObject}
    (h : objects'.map (·.name) = objects.map (·.name)) (name : String) :
    findObjectByName objects' name = findObjectByName objects name := by
  unfold findObjectByName
  rw [firstIndex_map (fun o : SgrObject => o.name) (fun n => n == name) objects',
    firstIndex_map (fun o : SgrObject => o.name) (fun n => n == name) objects, h]

theorem getElem_names {objects objects' : List SgrObject}
    (h : objects'.map (·.name) = objects.map (·.name)) {i : Nat} {o : SgrObject}
    (ho : objects[i]? = some o) : ∃ o', objects'[i]? = some o' ∧ o'.name = o.name := by
  have h1 : (objects'.map (·.name))[i]? = some o.name := by
    rw [h, List.getElem?_map, ho]
    rfl
  rw [List.getElem?_map] at h1
  cases ho' : objects'[i]? with
  | none => rw [ho'] at h1; cases h1
  | some o' =>
    rw [ho'] at h1
    simp only [Option.map_some', Option.some.injEq] at h1
    exact ⟨o', rfl, h1⟩

theorem names_set {objects : List SgrObject} {i : Nat} {o : SgrObject} (b : Bool)
    (h : objects[i]? = some o) :
    (objects.set i { o with meshDataAndPiplineBinded := b }).map (·.name)
      = objects.map (·.name) := by
  rw [List.map_set]
  exact set_same _ _ _ (by rw [List.getElem?_map, h]; rfl)

theorem clear_names :
    ∀ (l : List SgrObjectInstance) (objects objects' : List SgrObject) (code : SgrErrCode),
      buildDrawingCommands.clear l objects = some (code, objects') →
      objects'.map (·.name) = objects.map (·.name) := by
  intro l
  induction l with
  | nil =>
    intro objects objects' code h
    simp only [buildDrawingCommands.clear, Option.some.injEq, Prod.mk.injEq] at h
    rw [h.2]
  | cons inst rest ih =>
    intro objects objects' code h
    unfold buildDrawingCommands.clear at h
    split at h
    · exact ih _ _ _ h
    split at h
    · exact ih _ _ _ h
    cases ho : objects[findObjectByName objects inst.geometry]? with
    | none => rw [ho] at h; cases h
    | some o =>
      rw [ho] at h
      simp only at h
      split at h
      · simp only [Option.some.injEq, Prod.mk.injEq] at h
        rw [h.2]
      · rw [ih _ _ _ h, names_set false ho]

theorem record_names (s : SGR) (n : Nat) :
    ∀ (l : List SgrObjectInstance) (objects objects' : List SgrObject) (code : SgrErrCode)
      (commands : List Event),
      buildDrawingCommands.record s n l objects = some (code, objects', commands) →
      objects'.map (·.name) = objects.map (·.name) := by
  intro l
  induction l with
  | nil =>
    intro objects objects' code commands h
    simp only [buildDrawingCommands.record, Option.some.injEq, Prod.mk.injEq] at h
    rw [h.2.1]
  | cons inst rest ih =>
    intro objects objects' code commands h
    unfold buildDrawingCommands.record at h
    split at h
    · exact ih _ _ _ _ h
    split at h
    · exact ih _ _ _ _ h
    cases ho : objects[findObjectByName objects inst.geometry]? with
    | none => rw [ho] at h; cases h
    | some o =>
      rw [ho] at h
      simp only at h
      have hset : (if (!o.meshDataAndPiplineBinded) = true then
            objects.set (findObjectByName objects inst.geometry)
              { o with meshDataAndPiplineBinded := true }
          else objects).map (·.name) = objects.map (·.name) := by
        split_ifs
        · exact names_set true ho
        · rfl
      split at h
      · simp only [Option.some.injEq, Prod.mk.injEq] at h
        rw [h.2.1]
      split at h
      · simp only [Option.some.injEq, Prod.mk.injEq] at h
        rw [h.2.1]
      split at h
      · simp only [Option.some.injEq, Prod.mk.injEq] at h
        rw [← h.2.1]
        exact hset
      · cases hr : buildDrawingCommands.record s n rest
            (if (!o.meshDataAndPiplineBinded) = true then
              objects.set (findObjectByName objects inst.geometry)
                { o with meshDataAndPiplineBinded := true }
            else objects) with
        | none => rw [hr] at h; cases h
        | some r =>
          obtain ⟨code2, objects2, commands2⟩ := r
          rw [hr] at h
          simp only [Option.some.injEq, Prod.mk.injEq] at h
          rw [← h.2.1, ih _ _ _ _ hr]
          exact hset

theorem unbind_names (s : SGR) :
    (unbindAllMeshesAndPiplines s).objects.map (·.name) = s.objects.map (·.name) := by
  unfold unbindAllMeshesAndPiplines
  simp only [List.map_map]
  rfl

theorem present_names {env : Env} {s : SGR} {sem : Nat} {out : Outcome}
    (h : drawFrame.present env s sem = some out) :
    out.state.objects.map (·.name) = s.objects.map (·.name) := by
  rcases present_inv h with ⟨_, _, rfl⟩ | ⟨_, _, _, _, rfl⟩ | ⟨_, _, _, rfl⟩
  · exact unbind_names s
  · rfl
  · rfl

theorem submit_names {env : Env} {s : SGR} {fence wsem : Nat} {out : Outcome}
    (h : drawFrame.submit env s fence wsem = some out) :
    out.state.objects.map (·.name) = s.objects.map (·.name) := by
  obtain ⟨owner, ssem, rest, _, _, _, hc⟩ := submit_trace h
  rcases hc with ⟨_, _, _, hstate⟩ | ⟨_, pres, hp, _, hstate, _⟩
  · rw [hstate]
  · rw [hstate]
    have := present_names hp
    exact this

theorem acquire_names {env : Env} {s : SGR} {out : Outcome}
    (h : drawFrame.acquire env s = some out) :
    out.state.objects.map (·.name) = s.objects.map (·.name) := by
  unfold drawFrame.acquire at h
  split at h
  · dsimp only at h
    split at h
    · split at h
      · simp only [Option.some.injEq] at h
        subst h
        exact unbind_names s
      · obtain ⟨r, hr, rfl⟩ := Outcome.after_eq_some h
        have := submit_names hr
        exact this.trans (unbind_names s)
    · split at h
      · simp only [Option.some.injEq] at h
        subst h
        rfl
      · obtain ⟨r, hr, rfl⟩ := Outcome.after_eq_some h
        have := submit_names hr
        exact this
  · cases h

/-! ## What a frame and the window callbacks keep -/

theorem Kept.refl (s : SGR) : Kept s s :=
  ⟨rfl, rfl, rfl, rfl, rfl, rfl, rfl, rfl, rfl, id, Or.inl rfl⟩

theorem Kept.trans {a b c : SGR} (h1 : Kept a b) (h2 : Kept b c) : Kept a c where
  instances := h2.instances.trans h1.instances
  maxFrameInFlight := h2.maxFrameInFlight.trans h1.maxFrameInFlight
  imageAvailableSemaphores := h2.imageAvailableSemaphores.trans h1.imageAvailableSemaphores
  renderFinishedSemaphores := h2.renderFinishedSemaphores.trans h1.renderFinishedSemaphores
  inFlightFences := h2.inFlightFences.trans h1.inFlightFences
  parrentSgr := h2.parrentSgr.trans h1.parrentSgr
  pipelines := h2.pipelines.trans h1.pipelines
  getDescriptorSetsByName := h2.getDescriptorSetsByName.trans h1.getDescriptorSetsByName
  names := h2.names.trans h1.names
  commandsBuilded := fun h => h2.commandsBuilded (h1.commandsBuilded h)
  currentFrame := by
    rcases h2.currentFrame with h | h
    · rw [h]; exact h1.currentFrame
    · rw [h1.maxFrameInFlight] at h; exact Or.inr h

theorem buildDrawingCommands_kept {env : Env} {rebuild : Bool} {s : SGR} {out : Outcome}
    (h : buildDrawingCommands env rebuild s = some out) : Kept s out.state := by
  have hf := (buildDrawingCommands_frame h).1
  have hnames : out.state.objects.map (·.name) = s.objects.map (·.name)
      ∧ (s.commandsBuilded = true → out.state.commandsBuilded = true) := by
    unfold buildDrawingCommands at h
    split at h
    · cases h
    · rename_i start hstart
      have hs : start.state.objects.map (·.name) = s.objects.map (·.name)
          ∧ start.state.commandsBuilded = s.commandsBuilded := by
        unfold buildDrawingCommands.prologue at hstart
        split_ifs at hstart
        · simp only [Option.some.injEq] at hstart; subst hstart; exact ⟨rfl, rfl⟩
        · simp only [Option.some.injEq] at hstart; subst hstart; exact ⟨rfl, rfl⟩
        · split at hstart
          · cases hstart
          · rename_i code objects hc
            simp only [Option.some.injEq] at hstart; subst hstart
            exact ⟨clear_names _ _ _ _ hc, rfl⟩
        · simp only [Option.some.injEq] at hstart; subst hstart; exact ⟨rfl, rfl⟩
      split_ifs at h with hc
      · simp only [Option.some.injEq] at h
        subst h
        exact ⟨hs.1, fun hb => hs.2.trans hb⟩
      · split at h
        · cases h
        · rename_i code objects commands hrec
          have hn := record_names _ _ _ _ _ _ _ hrec
          split_ifs at h with hc2
          · simp only [Option.some.injEq] at h
            subst h
            exact ⟨hn.trans hs.1, fun hb => hs.2.trans hb⟩
          · simp only [Option.some.injEq] at h
            subst h
            exact ⟨hn.trans hs.1, fun _ => rfl⟩
  exact
    { instances := (by rw [hf])
      maxFrameInFlight := (by rw [hf])
      imageAvailableSemaphores := (by rw [hf])
      renderFinishedSemaphores := (by rw [hf])
      inFlightFences := (by rw [hf])
      parrentSgr := (by rw [hf])
      pipelines := (by rw [hf])
      getDescriptorSetsByName := (by rw [hf])
      names := hnames.1
      commandsBuilded := hnames.2
      currentFrame := Or.inl (by rw [hf]) }

theorem build_kept {env : Env} {res : SgrErrCode} {s : SGR} {built : Outcome}
    (h : drawFrame.build env res s = some built) : Kept s built.state := by
  unfold drawFrame.build at h
  split_ifs at h
  · obtain ⟨r, hr, rfl⟩ := Outcome.after_eq_some h
    have := buildDrawingCommands_kept hr
    exact this
  · simp only [Option.some.injEq] at h
    subst h
    exact Kept.refl s

theorem present_bound {env : Env} {s : SGR} {sem : Nat} {out : Outcome}
    (h : drawFrame.present env s sem = some out) :
    out.state.currentFrame = s.currentFrame ∨ out.state.currentFrame < s.maxFrameInFlight := by
  rcases present_inv h with ⟨_, hF, rfl⟩ | ⟨_, _, _, _, rfl⟩ | ⟨_, _, hF, rfl⟩
  · exact Or.inr (Nat.mod_lt _ (Nat.pos_of_ne_zero hF))
  · exact Or.inl rfl
  · exact Or.inr (Nat.mod_lt _ (Nat.pos_of_ne_zero hF))

theorem submit_bound {env : Env} {s : SGR} {fence wsem : Nat} {out : Outcome}
    (h : drawFrame.submit env s fence wsem = some out) :
    out.state.currentFrame = s.currentFrame ∨ out.state.currentFrame < s.maxFrameInFlight := by
  obtain ⟨owner, ssem, rest, _, _, _, hc⟩ := submit_trace h
  rcases hc with ⟨_, _, _, hstate⟩ | ⟨_, pres, hp, _, hstate, _⟩
  · rw [hstate]
    exact Or.inl rfl
  · rw [hstate]
    have := present_bound hp
    exact this

theorem acquire_bound {env : Env} {s : SGR} {out : Outcome}
    (h : drawFrame.acquire env s = some out) :
    out.state.currentFrame = s.currentFrame ∨ out.state.currentFrame < s.maxFrameInFlight := by
  unfold drawFrame.acquire at h
  split at h
  · dsimp only at h
    split at h
    · split at h
      · simp only [Option.some.injEq] at h
        subst h
        exact Or.inl rfl
      · obtain ⟨r, hr, rfl⟩ := Outcome.after_eq_some h
        have := submit_bound hr
        exact this
    · split at h
      · simp only [Option.some.injEq] at h
        subst h
        exact Or.inl rfl
      · obtain ⟨r, hr, rfl⟩ := Outcome.after_eq_some h
        have := submit_bound hr
        exact this
  · cases h

theorem acquire_kept {env : Env} {s : SGR} {out : Outcome}
    (h : drawFrame.acquire env s = some out) : Kept s out.state := by
  have hf := acquire_frame h
  unfold DeviceFrame at hf
  exact
    { instances := (by rw [hf])
      maxFrameInFlight := (by rw [hf])
      imageAvailableSemaphores := (by rw [hf])
      renderFinishedSemaphores := (by rw [hf])
      inFlightFences := (by rw [hf])
      parrentSgr := (by rw [hf])
      pipelines := (by rw [hf])
      getDescriptorSetsByName := (by rw [hf])
      names := acquire_names h
      commandsBuilded := fun hb => (by rw [hf]; exact hb)
      currentFrame := acquire_bound h }

theorem device_kept {wait : SGR → Option (SGR × List Event)} {env : Env} {s : SGR}
    {dev : Outcome} (hw : ∀ a b t, wait a = some (b, t) → Kept a b)
    (h : drawFrame.device wait env s = some dev) : Kept s dev.state := by
  obtain ⟨waited, events, acq, hm, hacq, rfl⟩ := device_inv h
  have hwk : Kept s waited := by
    rcases minimizedWait_inv hm with ⟨_, rfl, _⟩ | ⟨_, inside, hws, _⟩
    · exact Kept.refl _
    · exact hw _ _ _ hws
  have hak : Kept waited acq.state := acquire_kept hacq
  exact hwk.trans hak

/-- A frame keeps what the wait for window events keeps. -/
theorem run_kept {wait : SGR → Option (SGR × List Event)} {env : Env} {s : SGR}
    {out : Outcome} (hw : ∀ a b t, wait a = some (b, t) → Kept a b)
    (h : drawFrame.run wait env s = some out) : Kept s out.state := by
  rcases run_inv h with ⟨_, rfl⟩ | ⟨_, _, _, rfl⟩ | ⟨_, _, built, hb, h3⟩
  · exact Kept.refl s
  · exact Kept.refl s
  · have hk := build_kept hb
    rcases h3 with ⟨_, rfl⟩ | ⟨_, dev, hdev, rfl⟩
    · exact hk
    · obtain ⟨waited, events, acq, hm, hacq, rfl⟩ := device_inv hdev
      have hwk : Kept built.state waited := by
        rcases minimizedWait_inv hm with ⟨_, rfl, _⟩ | ⟨_, inside, hws, _⟩
        · exact Kept.refl _
        · exact hw _ _ _ hws
      have hak : Kept waited acq.state := acquire_kept hacq
      exact hk.trans (hwk.trans hak)

theorem nested_kept {env : Env} {s : SGR} {out : Outcome}
    (h : drawFrame.nested env s = some out) : Kept s out.state :=
  run_kept (fun _ _ _ hn => by cases hn) h

theorem callbackRedraw_kept {imageCount : Nat} {env : Env} {s next : SGR} {events : List Event}
    (hs : Kept s0 s) (h : callbackRedraw imageCount env s = some (next, events)) :
    Kept s0 next := by
  unfold callbackRedraw at h
  split_ifs at h
  · cases hn : drawFrame.nested env (requestUpdateSwapChain imageCount s).1 with
    | none => rw [hn] at h; cases h
    | some out =>
      rw [hn] at h
      simp only [Option.some.injEq, Prod.mk.injEq] at h
      rw [← h.1]
      have h1 : Kept s (requestUpdateSwapChain imageCount s).1 :=
        ⟨rfl, rfl, rfl, rfl, rfl, rfl, rfl, rfl, rfl, id, Or.inl rfl⟩
      exact hs.trans (h1.trans (nested_kept hn))
  · simp only [Option.some.injEq, Prod.mk.injEq] at h
    rw [← h.1]
    exact hs

theorem windowEvent_kept {event : WindowEvent} {s next : SGR} {events : List Event}
    (h : event.run s = some (next, events)) : Kept s next := by
  have hflags : ∀ a b : Bool, Kept s { s with windowResized := a, windowMinimized := b } :=
    fun _ _ => ⟨rfl, rfl, rfl, rfl, rfl, rfl, rfl, rfl, rfl, id, Or.inl rfl⟩
  cases event with
  | framebufferResize width height imageCount answers =>
    simp only [WindowEvent.run, framebufferResizeCallback] at h
    split_ifs at h
    · simp only [Option.some.injEq, Prod.mk.injEq] at h
      rw [← h.1]
      exact ⟨rfl, rfl, rfl, rfl, rfl, rfl, rfl, rfl, rfl, id, Or.inl rfl⟩
    · exact callbackRedraw_kept (hflags true false) h
  | windowPos imageCount answers =>
    simp only [WindowEvent.run, windowPosCallback] at h
    exact callbackRedraw_kept (hflags true false) h

theorem glfwWaitEvents_kept :
    ∀ (events : List WindowEvent) (s next : SGR) (trace : List Event),
      glfwWaitEvents events s = some (next, trace) → Kept s next := by
  intro events
  induction events with
  | nil =>
    intro s next trace h
    simp only [glfwWaitEvents, Option.some.injEq, Prod.mk.injEq] at h
    rw [← h.1]
    exact Kept.refl s
  | cons event events ih =>
    intro s next trace h
    unfold glfwWaitEvents at h
    cases h1 : event.run s with
    | none => rw [h1] at h; cases h
    | some r1 =>
      obtain ⟨s1, t1⟩ := r1
      rw [h1] at h
      dsimp only at h
      cases h2 : glfwWaitEvents events s1 with
      | none => rw [h2] at h; cases h
      | some r2 =>
        obtain ⟨s2, t2⟩ := r2
        rw [h2] at h
        simp only [Option.some.injEq, Prod.mk.injEq] at h
        rw [← h.1]
        exact (windowEvent_kept h1).trans (ih _ _ _ h2)

theorem envWait_kept {env : Env} {a b : SGR} {t : List Event}
    (h : env.wait a = some (b, t)) : Kept a b := by
  obtain ⟨_, events, hg⟩ := envWait_inv h
  exact glfwWaitEvents_kept _ _ _ _ hg

theorem drawFrame_kept {env : Env} {s : SGR} {out : Outcome}
    (h : drawFrame env s = some out) : Kept s out.state :=
  run_kept (fun _ _ _ hw => envWait_kept hw) h

/-- A call whose window is not minimized leaves it so. -/
theorem run_windowMinimized {wait : SGR → Option (SGR × List Event)} {env : Env} {s : SGR}
    {out : Outcome} (hmin : s.windowMinimized = false)
    (h : drawFrame.run wait env s = some out) : out.state.windowMinimized = false := by
  rcases run_inv h with ⟨_, rfl⟩ | ⟨_, _, _, rfl⟩ | ⟨_, _, built, hb, h3⟩
  · exact hmin
  · exact hmin
  · have hf := (build_frame hb).1
    have hmin' : built.state.windowMinimized = false := by rw [hf]; exact hmin
    rcases h3 with ⟨_, rfl⟩ | ⟨_, dev, hdev, rfl⟩
    · exact hmin'
    · rw [device_direct hmin'] at hdev
      have hd := acquire_frame hdev
      unfold DeviceFrame at hd
      show dev.state.windowMinimized = false
      rw [hd]
      exact hmin'

theorem drawFrames_counter :
    ∀ (envs : List Env) (s final : SGR) (codes : List SgrErrCode),
      s.windowMinimized = false →
      1 ≤ s.maxFrameInFlight → s.currentFrame < s.maxFrameInFlight →
      drawFrames envs s = some (codes, final) →
      final.maxFrameInFlight = s.maxFrameInFlight
        ∧ final.currentFrame < s.maxFrameInFlight
        ∧ ((∀ c ∈ codes, c = SgrErrCode.sgrOK) →
            final.currentFrame = (s.currentFrame + envs.length) % s.maxFrameInFlight) := by
  intro envs
  induction envs with
  | nil =>
    intro s final codes _ _ hc hrun
    simp only [drawFrames, Option.some.injEq, Prod.mk.injEq] at hrun
    obtain ⟨_, rfl⟩ := hrun
    exact ⟨rfl, hc, fun _ => by simp [Nat.mod_eq_of_lt hc]⟩
  | cons env envs ih =>
    intro s final codes hmin hF hc hrun
    unfold drawFrames at hrun
    split at hrun
    · cases hrun
    · rename_i out hout
      split at hrun
      · cases hrun
      · rename_i codes1 final1 hrest
        simp only [Option.some.injEq, Prod.mk.injEq] at hrun
        obtain ⟨rfl, rfl⟩ := hrun
        obtain ⟨hm, hok, hne⟩ := drawFrame_counterStep hmin hout
        have hmin1 : out.state.windowMinimized = false := run_windowMinimized hmin hout
        have hc1 : out.state.currentFrame < out.state.maxFrameInFlight := by
          rw [hm]
          by_cases hcode : out.code = .sgrOK
          · rw [hok hcode]; exact Nat.mod_lt _ hF
          · rw [hne hcode]; exact hc
        obtain ⟨i1, i2, i3⟩ := ih out.state final1 codes1 hmin1 (hm ▸ hF) hc1 hrest
        rw [hm] at i1 i2 i3
        refine ⟨i1, i2, fun hall => ?_⟩
        have hhead : out.code = .sgrOK := hall _ (List.mem_cons_self _ _)
        rw [i3 fun c hcm => hall c (List.mem_cons_of_mem _ hcm), hok hhead]
        simp only [List.length_cons, Nat.mod_add_mod]
        congr 1
        omega

/-- Consecutive calls keep the slot count and leave the frame counter as it was or
below the slot count. -/
theorem drawFrames_bound :
    ∀ (envs : List Env) (s final : SGR) (codes : List SgrErrCode),
      drawFrames envs s = some (codes, final) →
      final.maxFrameInFlight = s.maxFrameInFlight
        ∧ (final.currentFrame = s.currentFrame ∨ final.currentFrame < s.maxFrameInFlight) := by
  intro envs
  induction envs with
  | nil =>
    intro s final codes hrun
    simp only [drawFrames, Option.some.injEq, Prod.mk.injEq] at hrun
    obtain ⟨_, rfl⟩ := hrun
    exact ⟨rfl, Or.inl rfl⟩
  | cons env envs ih =>
    intro s final codes hrun
    unfold drawFrames at hrun
    split at hrun
    · cases hrun
    · rename_i out hout
      split at hrun
      · cases hrun
      · rename_i codes1 final1 hrest
        simp only [Option.some.injEq, Prod.mk.injEq] at hrun
        obtain ⟨_, hfin⟩ := hrun
        subst hfin
        have hk := drawFrame_kept hout
        obtain ⟨i1, i2⟩ := ih out.state _ codes1 hrest
        rw [hk.maxFrameInFlight] at i1 i2
        refine ⟨i1, ?_⟩
        rcases i2 with i2 | i2
        · rw [i2]
          exact hk.currentFrame
        · exact Or.inr i2

/-! ## The state after the wait for window events -/

/-- The steps from the fence wait on never wait for window events. -/
theorem acquire_not_wait {env : Env} {s : SGR} {acq : Outcome}
    (h : drawFrame.acquire env s = some acq) : ∀ e ∈ acq.trace, e ≠ .glfwWaitEvents := by
  have hpres : ∀ (s1 : SGR) (sem : Nat) (pres : Outcome),
      drawFrame.present env s1 sem = some pres → ∀ e ∈ pres.trace, e ≠ .glfwWaitEvents := by
    intro s1 sem pres hp e he
    rcases present_trace hp with h1 | h1 <;> rw [h1] at he <;>
      simp only [List.mem_cons, List.mem_singleton, List.not_mem_nil, or_false] at he
    · subst he; exact fun hc => by cases hc
    · rcases he with rfl | rfl | rfl <;> exact fun hc => by cases hc
  have hsub : ∀ (s1 : SGR) (fence wsem : Nat) (sub : Outcome),
      drawFrame.submit env s1 fence wsem = some sub → ∀ e ∈ sub.trace, e ≠ .glfwWaitEvents := by
    intro s1 fence wsem sub hs e he
    obtain ⟨owner, ssem, rest, _, _, htr, hc⟩ := submit_trace hs
    rw [htr] at he
    simp only [List.mem_append, List.mem_cons, List.mem_singleton, List.not_mem_nil,
      or_false] at he
    rcases he with (he | rfl | rfl) | he
    · rw [ownerWait_isDevice owner e he]
      exact fun hc => by cases hc
    · exact fun hc => by cases hc
    · exact fun hc => by cases hc
    · rcases hc with ⟨_, rfl, _⟩ | ⟨_, pres, hp, _, _, rfl⟩
      · cases he
      · exact hpres _ _ _ hp e he
  intro e he
  obtain ⟨fence, wsem, rest, _, _, htr, hc⟩ := acquire_trace h
  rw [htr] at he
  simp only [List.mem_append, List.mem_cons, List.mem_singleton, List.not_mem_nil,
    or_false] at he
  rcases he with (rfl | rfl) | he
  · exact fun hc => by cases hc
  · exact fun hc => by cases hc
  · rcases hc with ⟨_, _, rfl, _⟩ | ⟨_, _, sub, hs, _, _, rfl⟩ | ⟨_, _, _, rfl, _⟩
        | ⟨_, sub, hs, _, _, rfl⟩
    · simp only [List.mem_cons, List.mem_singleton, List.not_mem_nil, or_false] at he
      rcases he with rfl | rfl <;> exact fun hc => by cases hc
    · simp only [List.mem_append, List.mem_cons, List.mem_singleton, List.not_mem_nil,
        or_false] at he
      rcases he with (rfl | rfl) | he
      · exact fun hc => by cases hc
      · exact fun hc => by cases hc
      · exact hsub _ _ _ _ hs e he
    · cases he
    · exact hsub _ _ _ _ hs e he

/-- The events before the acquire step hold no event of the steps after recording. -/
theorem recording_not_device {env : Env} {res : SgrErrCode} {s : SGR} {built : Outcome}
    (hb : drawFrame.build env res s = some built) :
    ∀ e ∈ drawFrame.preamble
        ++ (built.trace ++ [.executeCommands, .uiRender, .endInitCommandBuffers]),
      e.isDevice = false := by
  intro e he
  simp only [List.mem_append] at he
  rcases he with he | he | he
  · simp only [drawFrame.preamble, List.mem_cons, List.mem_singleton, List.not_mem_nil,
      or_false] at he
    rcases he with rfl | rfl | rfl | rfl <;> rfl
  · have := build_isPass hb e he
    cases e <;> simp_all [Event.isDevice, Event.isBuild, Event.isPass, Event.isCommand]
  · simp only [List.mem_cons, List.mem_singleton, List.not_mem_nil, or_false] at he
    rcases he with rfl | rfl | rfl <;> rfl

/-- A `drawFrame` call that issued an event of the steps after recording went through
the wait for window events and on to the acquire step, in the state after the wait. -/
theorem drawFrame_reached_device {env : Env} {s : SGR} {out : Outcome}
    (h : drawFrame env s = some out)
    (hev : Event.endInitCommandBuffers ∈ out.trace ∨ ∃ e ∈ out.trace, e.isDevice = true) :
    ∃ built waited events acq, drawFrame.build env env.updateDescriptorSets s = some built
      ∧ built.code = .sgrOK
      ∧ drawFrame.minimizedWait env.wait built.state = some (waited, events)
      ∧ drawFrame.waited env s = some waited
      ∧ drawFrame.acquire env waited = some acq
      ∧ out = ⟨acq.code, acq.state,
          drawFrame.preamble
            ++ ((built.trace ++ [.executeCommands, .uiRender, .endInitCommandBuffers])
              ++ (events ++ acq.trace))⟩ := by
  have hnot : ∀ e : Event, (e = .endInitCommandBuffers ∨ e.isDevice = true) →
      e ∉ drawFrame.preamble ∧ ¬ (e.isBuild = true ∨ e.isPass = true) := by
    intro e he
    rcases he with rfl | he
    · exact ⟨by decide, by decide⟩
    · cases e <;>
        simp_all [Event.isDevice, Event.isBuild, Event.isPass, Event.isCommand,
          drawFrame.preamble]
  have hev' : ∃ e ∈ out.trace, e = .endInitCommandBuffers ∨ e.isDevice = true := by
    rcases hev with h1 | ⟨e, h1, h2⟩
    · exact ⟨_, h1, Or.inl rfl⟩
    · exact ⟨e, h1, Or.inr h2⟩
  obtain ⟨e, hmem, hclass⟩ := hev'
  obtain ⟨hpre, hpass⟩ := hnot e hclass
  rcases drawFrame_inv h with ⟨_, rfl⟩ | ⟨_, _, _, rfl⟩ | ⟨_, _, built, hb, h3⟩
  · exfalso
    apply hpre
    simp only [drawFrame.preamble, List.mem_cons, List.mem_singleton, List.not_mem_nil,
      or_false] at hmem ⊢
    tauto
  · exact absurd hmem hpre
  · rcases h3 with ⟨_, rfl⟩ | ⟨hok, dev, hdev, rfl⟩
    · exfalso
      rcases List.mem_append.mp hmem with h4 | h4
      · exact hpre h4
      · exact hpass (build_isPass hb e h4)
    · obtain ⟨waited, events, acq, hm, hacq, rfl⟩ := device_inv hdev
      refine ⟨built, waited, events, acq, hb, hok, hm, ?_, hacq, rfl⟩
      unfold drawFrame.waited
      rw [hb]
      simp only [hm, Option.map_some']

/-- The state after the wait for window events keeps what the callbacks keep. -/
theorem waited_kept {env : Env} {res : SgrErrCode} {s waited : SGR} {built : Outcome}
    {events : List Event} (hb : drawFrame.build env res s = some built)
    (hm : drawFrame.minimizedWait env.wait built.state = some (waited, events)) :
    Kept s waited := by
  refine (build_kept hb).trans ?_
  rcases minimizedWait_inv hm with ⟨_, rfl, _⟩ | ⟨_, inside, hws, _⟩
  · exact Kept.refl _
  · exact envWait_kept hws

/-- With a window that is not minimized there is no wait: the fence wait finds the frame
counter, the image table and the resize flag of the call entry. -/
theorem waited_entry {env : Env} {res : SgrErrCode} {s waited : SGR} {built : Outcome}
    {events : List Event} (hb : drawFrame.build env res s = some built)
    (hm : drawFrame.minimizedWait env.wait built.state = some (waited, events))
    (hmin : s.windowMinimized = false) :
    events = [] ∧ waited.currentFrame = s.currentFrame
      ∧ waited.imagesInFlight = s.imagesInFlight ∧ waited.windowResized = s.windowResized
      ∧ waited.imageCount = s.imageCount := by
  have hs := (build_frame hb).1
  have hmin' : built.state.windowMinimized = false := by rw [hs]; exact hmin
  rcases minimizedWait_inv hm with ⟨_, rfl, rfl⟩ | ⟨hc, _⟩
  · refine ⟨rfl, ?_, ?_, ?_, ?_⟩ <;> rw [hs]
  · rw [hmin'] at hc
    cases hc

/-- With a minimized window the call waits once. -/
theorem waited_minimized {env : Env} {res : SgrErrCode} {s waited : SGR} {built : Outcome}
    {events : List Event} (hb : drawFrame.build env res s = some built)
    (hm : drawFrame.minimizedWait env.wait built.state = some (waited, events))
    (hmin : s.windowMinimized = true) : events = [.glfwWaitEvents] := by
  have hs := (build_frame hb).1
  have hmin' : built.state.windowMinimized = true := by rw [hs]; exact hmin
  rcases wait_inv hm with ⟨hc, _⟩ | ⟨_, rfl, _⟩
  · rw [hmin'] at hc
    cases hc
  · rfl

/-- With a window that is not minimized a frame does not wait for window events: what
`glfwWaitEvents` would do makes no difference. In particular the frame that a window
callback draws is an ordinary `drawFrame` call. -/
theorem run_direct (wait wait' : SGR → Option (SGR × List Event)) (env : Env) {s : SGR}
    (hmin : s.windowMinimized = false) :
    drawFrame.run wait env s = drawFrame.run wait' env s := by
  unfold drawFrame.run
  cases hb : drawFrame.build env env.updateDescriptorSets s with
  | none => rfl
  | some built =>
    have hmin' : built.state.windowMinimized = false := by
      rw [(build_frame hb).1]
      exact hmin
    simp only [device_direct hmin']

theorem nested_eq_drawFrame (env : Env) {s : SGR} (hmin : s.windowMinimized = false) :
    drawFrame.nested env s = drawFrame env s :=
  run_direct _ _ env hmin

theorem Outcome.after_result (pre : List Event) (o : Option Outcome) :
    (Outcome.after pre o).map (fun r => (r.code, r.state)) = o.map (fun r => (r.code, r.state)) := by
  cases o <;> rfl

/-- The events of the window callbacks apart, the timeline of a call is the call: it
returns the same code and leaves the same state. -/
theorem timeline_result (env : Env) (s : SGR) :
    (drawFrame.run (glfwWaitEvents env.waitEvents) env s).map (fun r => (r.code, r.state))
      = (drawFrame env s).map (fun r => (r.code, r.state)) := by
  have hdev : ∀ a,
      (drawFrame.device (glfwWaitEvents env.waitEvents) env a).map (fun r => (r.code, r.state))
        = (drawFrame.device env.wait env a).map (fun r => (r.code, r.state)) := by
    intro a
    unfold drawFrame.device drawFrame.minimizedWait Env.wait
    cases hmin : a.windowMinimized with
    | false => rfl
    | true =>
      simp only [if_true]
      cases glfwWaitEvents env.waitEvents a with
      | none => rfl
      | some r =>
        obtain ⟨w, t⟩ := r
        simp only [Option.map_some', Outcome.after_result]
  unfold drawFrame drawFrame.run
  split_ifs
  · rfl
  · rfl
  · rw [Outcome.after_result, Outcome.after_result]
    cases drawFrame.build env env.updateDescriptorSets s with
    | none => rfl
    | some built =>
      simp only
      split_ifs
      · rfl
      · rw [Outcome.after_result, Outcome.after_result]
        exact hdev _

/-! ## The claims -/

/-- The first frame of the sample scene leaves `sceneAfterFirstFrame`. -/
theorem sampleScene_first_frame :
    (drawFrame calmEnv sampleScene).map (fun o => (o.code, o.state))
      = some (.sgrOK, sceneAfterFirstFrame) :=
  rfl

/-- In the minimized scene the window position callback of `restoreEnv` leaves
`restoredScene`: the call waits for the fence of slot `0`. -/
theorem restoreEnv_waited :
    drawFrame.waited restoreEnv minimizedScene = some restoredScene :=
  rfl

/-- C1, the code at the failing input. In the scene after its first frame the
acquisition reports an out-of-date surface and the rebuild succeeds. `drawFrame` does
not return after the rebuild: it goes on to index `imagesInFlight` with the local
`imageIndex` (entry `1` becomes the fence of the slot), resets the fence, submits,
presents and returns `sgrOK`. -/
theorem C1_stale_acquire_goes_on_to_submit :
    staleAcquireEnv.acquire = VK_ERROR_OUT_OF_DATE_KHR
      ∧ drawFrame staleAcquireEnv sceneAfterFirstFrame = some staleAcquireOutcome
      ∧ staleAcquireOutcome.code = .sgrOK
      ∧ staleAcquireOutcome.trace.drop 9
          = [.unbindAllMeshesAndPiplines, .reinitSwapChain, .vkResetFences 32,
              .vkQueueSubmit 1 12 22 32, .vkQueuePresentKHR 1 22]
      ∧ sceneAfterFirstFrame.imagesInFlight = [31, 0]
      ∧ staleAcquireOutcome.state.imagesInFlight = [31, 32] :=
  ⟨rfl, rfl, rfl, rfl, rfl, rfl⟩

/-- C2 as stated fails: in the scene after its first frame, a `drawFrame` call whose
acquisition reports an out-of-date surface returns with `commandsBuilded` still true. -/
theorem C2_commandsBuilded_not_reset :
    staleAcquireEnv.acquire = VK_ERROR_OUT_OF_DATE_KHR
      ∧ (drawFrame staleAcquireEnv sceneAfterFirstFrame).map
          (fun o => (o.trace.any Event.isAcquire, o.state.commandsBuilded))
        = some (true, true) := by
  decide

/-- C2, amended: after a `drawFrame` call in which the image acquisition reports an
out-of-date surface, `commandsBuilded` is true when the call returns. -/
theorem C2_commandsBuilded_true_after_stale_acquire (env : Env) (s : SGR) (out : Outcome)
    (h : drawFrame env s = some out)
    (_hstale : env.acquire = VK_ERROR_OUT_OF_DATE_KHR)
    (hacq : ∃ e ∈ out.trace, e.isAcquire = true) :
    out.state.commandsBuilded = true := by
  obtain ⟨built, acq, hb, hok, ha, rfl⟩ := drawFrame_reached_acquire h (Or.inr hacq)
  exact (device_kept (fun _ _ _ hw => envWait_kept hw) ha).commandsBuilded
    ((build_frame hb).2 hok)

theorem C2_commandsBuilded_true_after_stale_acquire_witness :
    staleAcquireOutcome.state.commandsBuilded = true :=
  C2_commandsBuilded_true_after_stale_acquire staleAcquireEnv sceneAfterFirstFrame
    staleAcquireOutcome rfl rfl (by decide)

/-- C3 as stated fails: with the window minimized `drawFrame` waits for window events
and then acquires an image, submits and presents in the same call. -/
theorem C3_minimized_frame_is_drawn :
    minimizedScene.windowMinimized = true
      ∧ (drawFrame calmEnv minimizedScene).map (fun o => (o.code, o.trace.drop 7))
        = some (.sgrOK,
            [.glfwWaitEvents, .vkWaitForFences 32, .vkAcquireNextImageKHR 12,
              .vkWaitForFences 31, .vkResetFences 32, .vkQueueSubmit 0 12 22 32,
              .vkQueuePresentKHR 0 22]) := by
  decide

/-- C3, amended: in every state in which the window is minimized, a `drawFrame` call
that gets to the end of recording calls `glfwWaitEvents` exactly once and then, in the
same call, waits for the fence of the slot that is current after the wait (the window
callbacks run inside it keep the fences and semaphores but may move the frame counter)
and acquires a swapchain image with the semaphore of that slot; when acquisition,
submit and present succeed the call issues one submit and one present and returns
`sgrOK`. -/
theorem C3_minimized_waits_then_acquires (env : Env) (s : SGR) (out : Outcome)
    (hmin : s.windowMinimized = true)
    (h : drawFrame env s = some out)
    (hrec : Event.endInitCommandBuffers ∈ out.trace) :
    ∃ waited pre post fence sem,
      drawFrame.waited env s = some waited
        ∧ waited.inFlightFences = s.inFlightFences
        ∧ waited.imageAvailableSemaphores = s.imageAvailableSemaphores
        ∧ waited.inFlightFences[waited.currentFrame]? = some fence
        ∧ waited.imageAvailableSemaphores[waited.currentFrame]? = some sem
        ∧ out.trace = pre ++ [.endInitCommandBuffers, .glfwWaitEvents, .vkWaitForFences fence,
            .vkAcquireNextImageKHR sem] ++ post
        ∧ out.trace.countP (· == Event.glfwWaitEvents) = 1
        ∧ (env.acquire = VK_SUCCESS → env.submit = VK_SUCCESS → env.present = VK_SUCCESS →
            out.code = .sgrOK ∧ out.trace.countP Event.isSubmit = 1
              ∧ out.trace.countP Event.isPresent = 1) := by
  obtain ⟨built, waited, events, acq, hb, hok, hm, hwaited, ha, rfl⟩ :=
    drawFrame_reached_device h (Or.inl hrec)
  obtain ⟨fence, wsem, rest, hf, hw, htr, _⟩ := acquire_trace ha
  have hk := waited_kept hb hm
  have hev := waited_minimized hb hm hmin
  subst hev
  have hnd := recording_not_device hb
  have hzero : ∀ p : Event → Bool, (∀ e, p e = true → e.isDevice = true) →
      List.countP p (drawFrame.preamble
        ++ ((built.trace ++ [.executeCommands, .uiRender, .endInitCommandBuffers])
          ++ ([Event.glfwWaitEvents] ++ acq.trace)))
        = List.countP p [Event.glfwWaitEvents] + List.countP p acq.trace := by
    intro p hp
    have hz : List.countP p (drawFrame.preamble
        ++ (built.trace ++ [.executeCommands, .uiRender, .endInitCommandBuffers])) = 0 := by
      rw [List.countP_eq_zero]
      intro e he hpe
      have := hnd e he
      rw [hp e hpe] at this
      cases this
    simp only [List.countP_append] at hz ⊢
    omega
  refine ⟨waited, drawFrame.preamble ++ built.trace ++ [.executeCommands, .uiRender], rest,
    fence, wsem, hwaited, hk.inFlightFences, hk.imageAvailableSemaphores, hf, hw, ?_, ?_, ?_⟩
  · simp only [htr]
    simp
  · show List.countP _ (drawFrame.preamble ++ (_ ++ ([Event.glfwWaitEvents] ++ acq.trace))) = 1
    have hacq0 : acq.trace.countP (· == Event.glfwWaitEvents) = 0 := by
      rw [List.countP_eq_zero]
      intro e he hc
      exact acquire_not_wait ha e he (by simpa using hc)
    rw [hzero _ (fun e he => by rw [show e = Event.glfwWaitEvents by simpa using he]; rfl),
      hacq0]
    rfl
  · intro g1 g2 g3
    obtain ⟨k1, k2, k3⟩ := acquire_success g1 g2 g3 ha
    refine ⟨k1, ?_, ?_⟩
    · show List.countP _ (drawFrame.preamble ++ (_ ++ ([Event.glfwWaitEvents] ++ acq.trace))) = 1
      rw [hzero _ (fun e he => by cases e <;> first | rfl | cases he), k2]
      rfl
    · show List.countP _ (drawFrame.preamble ++ (_ ++ ([Event.glfwWaitEvents] ++ acq.trace))) = 1
      rw [hzero _ (fun e he => by cases e <;> first | rfl | cases he), k3]
      rfl

theorem C3_minimized_waits_then_acquires_witness :
    ∃ waited pre post fence sem,
      drawFrame.waited restoreEnv minimizedScene = some waited
        ∧ waited.inFlightFences = minimizedScene.inFlightFences
        ∧ waited.imageAvailableSemaphores = minimizedScene.imageAvailableSemaphores
        ∧ waited.inFlightFences[waited.currentFrame]? = some fence
        ∧ waited.imageAvailableSemaphores[waited.currentFrame]? = some sem
        ∧ restoredOutcome.trace
          = pre ++ [.endInitCommandBuffers, .glfwWaitEvents, .vkWaitForFences fence,
              .vkAcquireNextImageKHR sem] ++ post
        ∧ restoredOutcome.trace.countP (· == Event.glfwWaitEvents) = 1
        ∧ (restoreEnv.acquire = VK_SUCCESS → restoreEnv.submit = VK_SUCCESS →
            restoreEnv.present = VK_SUCCESS →
            restoredOutcome.code = .sgrOK ∧ restoredOutcome.trace.countP Event.isSubmit = 1
              ∧ restoredOutcome.trace.countP Event.isPresent = 1) :=
  C3_minimized_waits_then_acquires restoreEnv minimizedScene restoredOutcome rfl rfl (by decide)

/-- C4 as stated fails: in the scene after its first frame with the window minimized
(two slots, `currentFrame` 1), a `drawFrame` call during whose wait for window events
the window position callback draws a frame returns `sgrOK` and leaves `currentFrame`
at 1, not at `(1 + 1) mod 2`: the counter has done the step of the callback's frame and
the step of the call. -/
theorem C4_counter_steps_twice :
    minimizedScene.maxFrameInFlight = 2 ∧ minimizedScene.currentFrame = 1
      ∧ (drawFrame restoreEnv minimizedScene).map (fun o => (o.code, o.state.currentFrame))
        = some (.sgrOK, 1)
      ∧ (drawFrame.waited restoreEnv minimizedScene).map (·.currentFrame) = some 0 := by
  decide

/-- C4, amended: for every number `F ≥ 1` of frame slots and every state with
`currentFrame < F`, consecutive `drawFrame` calls keep `maxFrameInFlight` and keep
`currentFrame < F`; when the window is not minimized and each of the `k` calls returns
`sgrOK` the counter ends at `(currentFrame + k) mod F`, which is `(currentFrame + 1) mod F`
for one call and `k mod F` from slot `0`. -/
theorem C4_frame_counter (envs : List Env) (s final : SGR) (codes : List SgrErrCode)
    (hF : 1 ≤ s.maxFrameInFlight) (hc : s.currentFrame < s.maxFrameInFlight)
    (hrun : drawFrames envs s = some (codes, final)) :
    final.maxFrameInFlight = s.maxFrameInFlight
      ∧ final.currentFrame < s.maxFrameInFlight
      ∧ (s.windowMinimized = false → (∀ c ∈ codes, c = SgrErrCode.sgrOK) →
          final.currentFrame = (s.currentFrame + envs.length) % s.maxFrameInFlight
            ∧ (envs.length = 1 →
                final.currentFrame = (s.currentFrame + 1) % s.maxFrameInFlight)
            ∧ (s.currentFrame = 0 → final.currentFrame = envs.length % s.maxFrameInFlight)) := by
  obtain ⟨hk1, hk2⟩ := drawFrames_bound envs s final codes hrun
  refine ⟨hk1, ?_, fun hmin hall => ?_⟩
  · rcases hk2 with h1 | h1
    · rw [h1]; exact hc
    · exact h1
  · obtain ⟨_, _, h3⟩ := drawFrames_counter envs s final codes hmin hF hc hrun
    refine ⟨h3 hall, fun hlen => ?_, fun h0 => ?_⟩
    · rw [h3 hall, hlen]
    · rw [h3 hall, h0, Nat.zero_add]

theorem C4_frame_counter_witness :
    sceneAfterFirstFrame.maxFrameInFlight = 2 ∧ sceneAfterFirstFrame.currentFrame = 3 % 2 :=
  have h := C4_frame_counter [calmEnv, calmEnv, calmEnv] sampleScene sceneAfterFirstFrame
    [.sgrOK, .sgrOK, .sgrOK] (by decide) (by decide) rfl
  ⟨h.1, (h.2.2 rfl (by decide)).1⟩

/-- C5: starting from the registry that the constructor creates, every sequence of
`addNewObjectGeometry` and `addObjectInstance` calls runs without undefined behaviour
and leaves the sentinel at index 0 and the instances after it grouped by geometry:
no instance of another geometry lies between two instances of the same geometry.
The grouping extends over the sentinel when no call uses the geometry of the
sentinel. -/
theorem C5_instances_grouped (emptyObject : SgrObject) (emptyInstance : SgrObjectInstance)
    (init : SGR) (calls : List RegistryCall) :
    ∃ final,
      runRegistryCalls emptyObject emptyInstance calls (SGR.ctor emptyObject emptyInstance init)
          = some final
        ∧ final.instances.head? = some { emptyInstance with name := "empty" }
        ∧ Grouped (final.instances.tail.map (·.geometry))
        ∧ ((∀ n g a, RegistryCall.addObjectInstance n g a ∈ calls → g ≠ emptyInstance.geometry) →
            Grouped (final.instances.map (·.geometry))) := by
  obtain ⟨final, hrun, _, rest, hinst, hgr, _⟩ :=
    runRegistryCalls_inv emptyObject emptyInstance calls _
      (ctor_inv emptyObject emptyInstance init fun _ => True) (fun _ _ _ _ => trivial)
  refine ⟨final, hrun, by rw [hinst]; rfl, by rw [hinst]; exact hgr, fun hne => ?_⟩
  obtain ⟨final', hrun', _, rest', hinst', hgr', hall'⟩ :=
    runRegistryCalls_inv emptyObject emptyInstance calls _
      (ctor_inv emptyObject emptyInstance init fun g => g ≠ emptyInstance.geometry) hne
  rw [hrun] at hrun'
  cases hrun'
  rw [hinst']
  simp only [List.map_cons]
  apply Grouped.cons_new hgr'
  intro hmem
  obtain ⟨inst, hin, hgeo⟩ := List.mem_map.mp hmem
  exact hall' inst hin hgeo

/-- C6: in every registry whose objects all have the bound flag false and in which the
lookups of every instance with `needToDraw` succeed, one `buildDrawingCommands` pass
runs to its end, sets `commandsBuilded` and records, after the three calls that a
rebuild makes first, exactly the expected sequence over the instances with `needToDraw`
in registry order: the pipeline/vertex/index bind of a geometry immediately before the
first such instance of that geometry, and the draw of each instance. The bind of the
geometry of every drawn instance is recorded exactly once. -/
theorem C6_one_bind_per_geometry (env : Env) (rebuild : Bool) (s : SGR)
    (hflags : ∀ o ∈ s.objects, o.meshDataAndPiplineBinded = false)
    (hlook : ∀ inst ∈ s.instances, inst.needToDraw = true → lookupsSucceed s inst)
    (hre : rebuild = true →
      env.initCommandBuffers = .sgrOK ∧ env.rebuildBeginCommandBuffers = .sgrOK) :
    ∃ out, buildDrawingCommands env rebuild s = some out
      ∧ out.code = .sgrOK
      ∧ out.state.commandsBuilded = true
      ∧ out.trace
          = (if rebuild then
              [.freeCommandBuffers, .initCommandBuffers, .beginCommandBuffers] else [])
            ++ expectedCommands (indicesCountOf s.objects) env.commandBuffersSize
                (s.instances.filter (·.needToDraw)) []
      ∧ ∀ inst ∈ s.instances, inst.needToDraw = true →
          out.trace.countP (· == Event.bindPipeline inst.geometry) = 1 := by
  have hflags' : ∀ (i : Nat) (o : SgrObject), s.objects[i]? = some o →
      o.meshDataAndPiplineBinded = false :=
    fun i o ho => hflags o (List.getElem?_mem ho)
  -- the part before the recording loop leaves the state as it is
  have hpro : buildDrawingCommands.prologue env rebuild s
      = some ⟨.sgrOK, s,
          if rebuild then
            [.freeCommandBuffers, .initCommandBuffers, .beginCommandBuffers] else []⟩ := by
    unfold buildDrawingCommands.prologue
    cases rebuild with
    | false => rfl
    | true =>
      obtain ⟨h1, h2⟩ := hre rfl
      have hclear := clear_noop s.instances s.objects hflags' fun inst hm _ hd => by
        obtain ⟨_, ⟨o, ho, _, hne⟩, _⟩ := hlook inst hm hd
        exact ⟨o, ho, hne⟩
      simp only [h1, h2, hclear, if_true, ne_eq, not_true_eq_false, if_false]
  have hrec := record_expected s (indicesCountOf s.objects) env.commandBuffersSize s.instances
    s.objects [] fun inst hm hd => by
      obtain ⟨h1, ⟨o, ho, hn, hne⟩, h2, h3⟩ := hlook inst hm hd
      refine ⟨h1, h2, h3, o, ho, hn, hne, ?_, ?_⟩
      · simp [indicesCountOf, ho]
      · simp [hflags' _ o ho]
  obtain ⟨objects', hrec⟩ := hrec
  refine ⟨⟨.sgrOK, { s with objects := objects', commandsBuilded := true }, _⟩, ?_, rfl, rfl, rfl,
    ?_⟩
  · unfold buildDrawingCommands
    rw [hpro]
    simp only [ne_eq, not_true_eq_false, if_false, hrec]
  · intro inst hm hd
    have hz : (if rebuild then
        [Event.freeCommandBuffers, Event.initCommandBuffers, Event.beginCommandBuffers]
        else []).countP (· == Event.bindPipeline inst.geometry) = 0 := by
      cases rebuild <;> simp
    simp only [List.countP_append, hz, expectedCommands_bind_count, List.not_mem_nil, if_false,
      Nat.zero_add]
    rw [if_pos]
    exact List.mem_map.mpr ⟨inst, List.mem_filter.mpr ⟨hm, by simpa using hd⟩, rfl⟩

theorem C6_one_bind_per_geometry_witness :
    (buildDrawingCommands calmEnv false sampleScene).map (fun o => (o.code, o.trace))
      = some (.sgrOK,
          bindCommands "G1" ++ drawCommands 2 ⟨"A", "G1", 0, true⟩ 6
            ++ drawCommands 2 ⟨"B", "G1", 64, true⟩ 6
            ++ bindCommands "G2" ++ drawCommands 2 ⟨"C", "G2", 128, true⟩ 3) := by
  obtain ⟨out, h1, h2, _, h4, _⟩ :=
    C6_one_bind_per_geometry calmEnv false sampleScene (by decide) sampleScene_lookups
      (fun h => by cases h)
  rw [h1, Option.map_some', h2, h4]
  decide

/-- C7: a `drawFrame` call that gets to the rebuild decision calls
`buildDrawingCommands` exactly when `commandsBuilded` is false or the descriptor update
returned `sgrDescriptorsSetsUpdated`, at most once, and with `rebuild` true exactly when
the result was `sgrDescriptorsSetsUpdated`. With `commandsBuilded` true and a descriptor
result `sgrOK` there is no record pass and no recorded command, and when acquisition,
submit and present succeed the call issues one submit and one present and returns
`sgrOK`. -/
theorem C7_rebuild_decision (env : Env) (s : SGR) (out : Outcome)
    (hbegin : env.beginCommandBuffers = .sgrOK)
    (hupd : env.updateDescriptorSets = .sgrOK
      ∨ env.updateDescriptorSets = .sgrDescriptorsSetsUpdated)
    (h : drawFrame env s = some out) :
    ((∃ r, Event.buildDrawingCommands r ∈ out.trace)
        ↔ (s.commandsBuilded = false ∨ env.updateDescriptorSets = .sgrDescriptorsSetsUpdated))
      ∧ (∀ r, Event.buildDrawingCommands r ∈ out.trace →
          (r = true ↔ env.updateDescriptorSets = .sgrDescriptorsSetsUpdated))
      ∧ out.trace.countP Event.isBuild ≤ 1
      ∧ (s.commandsBuilded = true → env.updateDescriptorSets = .sgrOK →
          out.trace.countP Event.isBuild = 0 ∧ out.trace.countP Event.isCommand = 0
            ∧ (env.acquire = VK_SUCCESS → env.submit = VK_SUCCESS → env.present = VK_SUCCESS →
                out.code = .sgrOK ∧ out.trace.countP Event.isSubmit = 1
                  ∧ out.trace.countP Event.isPresent = 1)) := by
  obtain ⟨built, rest, hb, htr, hrest, hcases⟩ := drawFrame_shape h hbegin hupd
  obtain ⟨hm, hcount, hnone⟩ := build_markers hb
  have hmem : ∀ r, Event.buildDrawingCommands r ∈ out.trace
      ↔ Event.buildDrawingCommands r ∈ built.trace := by
    intro r
    rw [htr]
    simp only [List.mem_append]
    constructor
    · rintro (h1 | h1 | h1)
      · simp [drawFrame.preamble] at h1
      · exact h1
      · have := (hrest _ h1).1
        simp [Event.isBuild] at this
    · exact fun h1 => Or.inr (Or.inl h1)
  have hcnt : ∀ p : Event → Bool, (∀ e ∈ drawFrame.preamble, p e = false) →
      (∀ e ∈ rest, p e = false) → out.trace.countP p = built.trace.countP p := by
    intro p hp hr
    have z1 : drawFrame.preamble.countP p = 0 :=
      List.countP_eq_zero.mpr (fun e he => by simp [hp e he])
    have z2 : rest.countP p = 0 :=
      List.countP_eq_zero.mpr (fun e he => by simp [hr e he])
    rw [htr, List.countP_append, List.countP_append, z1, z2]
    simp
  have hpreB : ∀ e ∈ drawFrame.preamble, e.isBuild = false := by decide
  have hpreC : ∀ e ∈ drawFrame.preamble, e.isCommand = false := by decide
  refine ⟨?_, ?_, ?_, ?_⟩
  · constructor
    · rintro ⟨r, hr⟩
      exact ((hm r).mp ((hmem r).mp hr)).1
    · intro hc
      exact ⟨_, (hmem _).mpr ((hm _).mpr ⟨hc, rfl⟩)⟩
  · intro r hr
    have := ((hm r).mp ((hmem r).mp hr)).2
    rw [this]
    simp
  · rw [hcnt _ hpreB fun e he => (hrest e he).1]
    exact hcount
  · intro hbuilt hok
    have hcond : ¬ (s.commandsBuilded = false ∨ env.updateDescriptorSets = .sgrDescriptorsSetsUpdated) := by
      rw [hbuilt, hok]
      simp
    obtain ⟨htrace, hcode, hstate⟩ := hnone hcond
    refine ⟨?_, ?_, ?_⟩
    · rw [hcnt _ hpreB fun e he => (hrest e he).1, htrace]; rfl
    · rw [hcnt _ hpreC fun e he => (hrest e he).2, htrace]; rfl
    · intro ha hs hp
      rcases hcases with ⟨_, hne, _⟩ | ⟨_, acq, hacq, hrest', hcode'⟩
      · exact absurd hcode hne
      · obtain ⟨k1, k2, k3⟩ := device_success ha hs hp hacq
        refine ⟨hcode'.1.trans k1, ?_, ?_⟩
        · rw [htr, htrace, hrest']
          simp only [List.countP_append, k2]
          rfl
        · rw [htr, htrace, hrest']
          simp only [List.countP_append, k3]
          rfl

theorem C7_rebuild_decision_witness :
    secondFrameOutcome.trace.countP Event.isBuild = 0
      ∧ secondFrameOutcome.trace.countP Event.isSubmit = 1
      ∧ secondFrameOutcome.trace.countP Event.isPresent = 1 :=
  have h := C7_rebuild_decision calmEnv sceneAfterFirstFrame secondFrameOutcome rfl
    (Or.inl rfl) rfl
  ⟨(h.2.2.2 rfl rfl).1, ((h.2.2.2 rfl rfl).2.2 rfl rfl rfl).2⟩

/-- C9, the code at the failing input. In the scene after its first frame (the objects
`G1` and `G2` bound) the framebuffer resize callback rebuilds the swapchain through
`requestUpdateSwapChain`, which leaves the objects as they are, and draws a frame:
no `unbindAllMeshesAndPiplines` follows the rebuild, the frame is submitted, and both
bound flags are still set when the callback returns. -/
theorem C9_callback_rebuild_keeps_bound_flags :
    (requestUpdateSwapChain 2 sceneAfterFirstFrame).1.objects = sceneAfterFirstFrame.objects
      ∧ (framebufferResizeCallback 2 calmEnv 800 600 sceneAfterFirstFrame).map
          (fun r => (r.2, r.1.objects))
        = some
          ([.reinitSwapChain,
            .drawDataUpdate, .vkQueueWaitIdle, .beginCommandBuffers, .updateDescriptorSets,
            .executeCommands, .uiRender, .endInitCommandBuffers,
            .vkWaitForFences 32, .vkAcquireNextImageKHR 12, .vkWaitForFences 31,
            .vkResetFences 32, .vkQueueSubmit 0 12 22 32, .vkQueuePresentKHR 0 22],
           [⟨"empty", 0, false⟩, ⟨"G1", 6, true⟩, ⟨"G2", 3, true⟩])
      ∧ (windowPosCallback 2 calmEnv sceneAfterFirstFrame).map (fun r => r.1.objects)
        = some [⟨"empty", 0, false⟩, ⟨"G1", 6, true⟩, ⟨"G2", 3, true⟩] := by
  decide

/-- C10, the code at the failing input. In the scene after its first frame (two
images) the present reports an out-of-date surface and the rebuilt swapchain has three
images: `drawFrame` returns `sgrOK` with `imageCount` 3 and `imagesInFlight` still of
length 2. On the acquire path the same rebuild resizes `imagesInFlight` to length 3. -/
theorem C10_present_rebuild_keeps_imagesInFlight :
    (drawFrame stalePresentEnv sceneAfterFirstFrame).map
        (fun o => (o.code, o.state.imageCount, o.state.imagesInFlight,
          decide (Event.reinitSwapChain ∈ o.trace)))
      = some (.sgrOK, 3, [32, 0], true)
      ∧ (drawFrame { staleAcquireEnv with acquireReinitImageCount := 3 } sceneAfterFirstFrame).map
          (fun o => (o.code, o.state.imageCount, o.state.imagesInFlight))
        = some (.sgrOK, 3, [31, 32, 0]) := by
  decide

/-! ## The submit and what precedes it -/

/-- The acquire step of a call that issued a submit, in full. -/
theorem acquire_submitted {env : Env} {s : SGR} {acq : Outcome}
    (h : drawFrame.acquire env s = some acq) (hsub : ∃ e ∈ acq.trace, e.isSubmit = true) :
    ∃ fence wsem ssem owner rest,
      s.inFlightFences[s.currentFrame]? = some fence
        ∧ s.imageAvailableSemaphores[s.currentFrame]? = some wsem
        ∧ s.renderFinishedSemaphores[s.currentFrame]? = some ssem
        ∧ (claimState env s).imagesInFlight[env.imageIndex]? = some owner
        ∧ (env.acquire = VK_ERROR_OUT_OF_DATE_KHR ∨ env.acquire = VK_SUCCESS
            ∨ env.acquire = VK_SUBOPTIMAL_KHR)
        ∧ acq.trace = [.vkWaitForFences fence, .vkAcquireNextImageKHR wsem]
            ++ (rebuildEvents env
              ++ (drawFrame.ownerWait owner
                ++ [.vkResetFences fence, .vkQueueSubmit env.imageIndex wsem ssem fence]
                ++ rest))
        ∧ ((env.submit ≠ VK_SUCCESS ∧ rest = [] ∧ acq.code = .sgrQueueSubmitFailed
              ∧ acq.state = { claimState env s with
                  imagesInFlight := (claimState env s).imagesInFlight.set env.imageIndex fence })
          ∨ (env.submit = VK_SUCCESS
            ∧ ∃ pres,
              drawFrame.present env
                { claimState env s with
                  imagesInFlight := (claimState env s).imagesInFlight.set env.imageIndex fence }
                ssem = some pres
              ∧ acq.code = pres.code ∧ acq.state = pres.state ∧ rest = pres.trace)) := by
  obtain ⟨fence, wsem, rest0, hf, hw, htr, hcases⟩ := acquire_trace h
  have hnosub : ∀ e ∈ [Event.vkWaitForFences fence, Event.vkAcquireNextImageKHR wsem],
      e.isSubmit = false := by
    intro e he
    simp only [List.mem_cons, List.mem_singleton, List.not_mem_nil, or_false] at he
    rcases he with rfl | rfl <;> rfl
  have hsub0 : ∃ e ∈ rest0, e.isSubmit = true := by
    obtain ⟨e, he, hs⟩ := hsub
    rw [htr] at he
    rcases List.mem_append.mp he with he | he
    · rw [hnosub e he] at hs; cases hs
    · exact ⟨e, he, hs⟩
  rcases hcases with ⟨_, _, rfl, _⟩ | ⟨hood, hre, sub, hs, hcode, hstate, rfl⟩
      | ⟨_, _, _, rfl, _⟩ | ⟨hok, sub, hs, hcode, hstate, rfl⟩
  · obtain ⟨e, he, hs⟩ := hsub0
    simp only [List.mem_cons, List.mem_singleton, List.not_mem_nil, or_false] at he
    rcases he with rfl | rfl <;> cases hs
  · obtain ⟨owner, ssem, rest, ho, hss, htr2, hc2⟩ := submit_trace hs
    have hcs : claimState env s = { unbindAllMeshesAndPiplines s with
        imageCount := env.acquireReinitImageCount
        imagesInFlight := resize s.imagesInFlight env.acquireReinitImageCount VK_NULL_HANDLE } := by
      simp [claimState, hood]
    have hre' : rebuildEvents env = [.unbindAllMeshesAndPiplines, .reinitSwapChain] := by
      simp [rebuildEvents, hood]
    refine ⟨fence, wsem, ssem, owner, rest, hf, hw, hss, by rw [hcs]; exact ho, Or.inl hood, ?_, ?_⟩
    · rw [htr, htr2, hre']
    · rw [hcs]
      rcases hc2 with ⟨h1, h2, h3, h4⟩ | ⟨h1, pres, h2, h3, h4, h5⟩
      · exact Or.inl ⟨h1, h2, hcode.trans h3, hstate.trans h4⟩
      · exact Or.inr ⟨h1, pres, h2, hcode.trans h3, hstate.trans h4, h5⟩
  · obtain ⟨e, he, _⟩ := hsub0
    cases he
  · obtain ⟨owner, ssem, rest, ho, hss, htr2, hc2⟩ := submit_trace hs
    have hne : env.acquire ≠ VK_ERROR_OUT_OF_DATE_KHR := by
      rcases hok with h1 | h1 <;> rw [h1] <;> decide
    have hcs : claimState env s = s := by simp [claimState, hne]
    have hre' : rebuildEvents env = [] := by simp [rebuildEvents, hne]
    refine ⟨fence, wsem, ssem, owner, rest, hf, hw, hss, by rw [hcs]; exact ho, Or.inr hok, ?_, ?_⟩
    · rw [htr, htr2, hre']
      simp
    · rw [hcs]
      rcases hc2 with ⟨h1, h2, h3, h4⟩ | ⟨h1, pres, h2, h3, h4, h5⟩
      · exact Or.inl ⟨h1, h2, hcode.trans h3, hstate.trans h4⟩
      · exact Or.inr ⟨h1, pres, h2, hcode.trans h3, hstate.trans h4, h5⟩

theorem isDevice_of_isSubmit {e : Event} (h : e.isSubmit = true) : e.isDevice = true := by
  cases e <;> first | rfl | cases h

theorem not_sync_of_not_device {e : Event} (h : e.isDevice = false) :
    e.isReset = false ∧ e.isSubmit = false ∧ e.isFenceWait = false := by
  cases e <;> first | exact ⟨rfl, rfl, rfl⟩ | cases h

/-- The events of the steps from the fence wait on, when they include a submit: the
wait for the fence of the slot, later the reset of that fence immediately before the
submit that signals it, and no other reset or submit. -/
theorem acquire_submit_shape {env : Env} {s : SGR} {acq : Outcome}
    (h : drawFrame.acquire env s = some acq) (hsub : ∃ e ∈ acq.trace, e.isSubmit = true) :
    ∃ fence wsem ssem B C,
      s.inFlightFences[s.currentFrame]? = some fence
        ∧ acq.trace = [.vkWaitForFences fence] ++ B
            ++ [.vkResetFences fence, .vkQueueSubmit env.imageIndex wsem ssem fence] ++ C
        ∧ (∀ e ∈ B, e.isReset = false ∧ e.isSubmit = false)
        ∧ (∀ e ∈ C, e.isReset = false ∧ e.isSubmit = false ∧ e.isFenceWait = false) := by
  obtain ⟨fence, wsem, ssem, owner, rest, hf, _, _, _, _, htr, hc⟩ := acquire_submitted h hsub
  refine ⟨fence, wsem, ssem,
    [.vkAcquireNextImageKHR wsem] ++ rebuildEvents env ++ drawFrame.ownerWait owner, rest,
    hf, ?_, ?_, ?_⟩
  · rw [htr]
    simp only [List.append_assoc, List.cons_append, List.nil_append, List.singleton_append]
  · intro e he
    simp only [List.mem_append, List.mem_singleton] at he
    rcases he with (rfl | he) | he
    · exact ⟨rfl, rfl⟩
    · unfold rebuildEvents at he
      split_ifs at he
      · simp only [List.mem_cons, List.mem_singleton, List.not_mem_nil, or_false] at he
        rcases he with rfl | rfl <;> exact ⟨rfl, rfl⟩
      · cases he
    · rw [ownerWait_isDevice _ e he]
      exact ⟨rfl, rfl⟩
  · intro e he
    rcases hc with ⟨_, rfl, _⟩ | ⟨_, pres, hp, _, _, rfl⟩
    · cases he
    · rcases present_trace hp with h1 | h1 <;> rw [h1] at he <;>
        simp only [List.mem_cons, List.mem_singleton, List.not_mem_nil, or_false] at he
      · subst he; exact ⟨rfl, rfl, rfl⟩
      · rcases he with rfl | rfl | rfl <;> exact ⟨rfl, rfl, rfl⟩

/-- A submit among the events of a call is a submit of its steps from the fence wait
on. -/
theorem submit_in_acquire {env : Env} {res : SgrErrCode} {s waited : SGR} {built acq : Outcome}
    {events : List Event} {p : Event → Bool} (hp : ∀ e, p e = true → e.isDevice = true)
    (hg : p .glfwWaitEvents = false)
    (hb : drawFrame.build env res s = some built)
    (hm : drawFrame.minimizedWait env.wait built.state = some (waited, events))
    (hsub : ∃ e ∈ drawFrame.preamble
        ++ ((built.trace ++ [.executeCommands, .uiRender, .endInitCommandBuffers])
          ++ (events ++ acq.trace)), p e = true) :
    ∃ e ∈ acq.trace, p e = true := by
  obtain ⟨e, he, hs⟩ := hsub
  simp only [← List.append_assoc] at he
  rcases List.mem_append.mp he with he | he
  · rcases List.mem_append.mp he with he | he
    · have h1 := recording_not_device hb e (by simpa using he)
      rw [hp e hs] at h1
      cases h1
    · rw [minimizedWait_isDevice hm e he, hg] at hs
      cases hs
  · exact ⟨e, he, hs⟩

/-- The events of a `drawFrame` call that issued a submit: the wait for the fence of
the slot that is current after the wait for window events, later the reset of that
fence immediately before the submit that signals it, and no other reset or submit. -/
theorem drawFrame_submit_shape {env : Env} {s : SGR} {out : Outcome}
    (h : drawFrame env s = some out) (hsub : ∃ e ∈ out.trace, e.isSubmit = true) :
    ∃ waited fence wsem ssem A B C,
      drawFrame.waited env s = some waited
        ∧ waited.inFlightFences = s.inFlightFences
        ∧ (s.windowMinimized = false → waited.currentFrame = s.currentFrame)
        ∧ waited.inFlightFences[waited.currentFrame]? = some fence
        ∧ out.trace = A ++ [.vkWaitForFences fence] ++ B
            ++ [.vkResetFences fence, .vkQueueSubmit env.imageIndex wsem ssem fence] ++ C
        ∧ (∀ e ∈ A, e.isReset = false ∧ e.isSubmit = false ∧ e.isFenceWait = false)
        ∧ (∀ e ∈ B, e.isReset = false ∧ e.isSubmit = false)
        ∧ (∀ e ∈ C, e.isReset = false ∧ e.isSubmit = false ∧ e.isFenceWait = false) := by
  have hdev : ∃ e ∈ out.trace, e.isDevice = true := by
    obtain ⟨e, he, hs⟩ := hsub
    exact ⟨e, he, isDevice_of_isSubmit hs⟩
  obtain ⟨built, waited, events, acq, hb, _, hm, hwaited, ha, rfl⟩ :=
    drawFrame_reached_device h (Or.inr hdev)
  have hnd := recording_not_device hb
  have hsub' := submit_in_acquire (fun e he => isDevice_of_isSubmit he) rfl hb hm hsub
  obtain ⟨fence, wsem, ssem, B, C, hf, htr, hB, hC⟩ := acquire_submit_shape ha hsub'
  refine ⟨waited, fence, wsem, ssem,
    drawFrame.preamble ++ (built.trace ++ [.executeCommands, .uiRender, .endInitCommandBuffers])
      ++ events,
    B, C, hwaited, (waited_kept hb hm).inFlightFences,
    fun hmin => (waited_entry hb hm hmin).2.1, hf, ?_, ?_, hB, hC⟩
  · show drawFrame.preamble ++ _ = _
    rw [htr]
    simp only [List.append_assoc, List.cons_append, List.nil_append, List.singleton_append]
  · intro e he
    rcases List.mem_append.mp he with he | he
    · exact not_sync_of_not_device (hnd e he)
    · rw [minimizedWait_isDevice hm e he]
      exact ⟨rfl, rfl, rfl⟩

/-! ## Outstanding frames -/

theorem outstandingFences_append (l1 l2 : List Event) :
    ∀ p, outstandingFences (l1 ++ l2) p = outstandingFences l2 (outstandingFences l1 p) := by
  induction l1 with
  | nil => intro p; rfl
  | cons e es ih =>
    intro p
    cases e <;> (simp only [List.cons_append, outstandingFences]; exact ih _)

theorem outstandingFences_sublist (l : List Event) (hl : ∀ e ∈ l, e.isSubmit = false) :
    ∀ p, (outstandingFences l p).Sublist p := by
  induction l with
  | nil => intro p; exact List.Sublist.refl _
  | cons e es ih =>
    intro p
    have ih' := ih fun x hx => hl x (List.mem_cons_of_mem _ hx)
    have he := hl e (List.mem_cons_self _ _)
    cases e <;> simp only [outstandingFences] <;>
      first
      | exact ih' _
      | exact (ih' _).trans (List.filter_sublist _)
      | (simp [Event.isSubmit] at he)

theorem FencesKept.append {t1 t2 : List Event} {fences : List Nat}
    (h1 : FencesKept t1 fences) (h2 : FencesKept t2 fences) : FencesKept (t1 ++ t2) fences := by
  intro p hnd hp
  rw [outstandingFences_append]
  obtain ⟨a, b⟩ := h1 p hnd hp
  exact h2 _ a b

theorem FencesKept.of_no_submit {t : List Event} {fences : List Nat}
    (h : ∀ e ∈ t, e.isSubmit = false) : FencesKept t fences := by
  intro p hnd hp
  have sub := outstandingFences_sublist t h p
  exact ⟨sub.nodup hnd, fun f hm => hp f (sub.subset hm)⟩

theorem FencesKept.of_not_device {t : List Event} {fences : List Nat}
    (h : ∀ e ∈ t, e.isDevice = false) : FencesKept t fences :=
  FencesKept.of_no_submit fun e he => (not_sync_of_not_device (h e he)).2.1

/-- Events with one submit, whose fence is waited for before and reset right before
the submit, keep the outstanding fences in order. -/
theorem FencesKept.of_shape {A B C : List Event} {fence i wsem ssem : Nat} {fences : List Nat}
    (hA : ∀ e ∈ A, e.isSubmit = false) (hB : ∀ e ∈ B, e.isSubmit = false)
    (hC : ∀ e ∈ C, e.isSubmit = false) (hf : fence ∈ fences) :
    FencesKept (A ++ [.vkWaitForFences fence] ++ B
      ++ [.vkResetFences fence, .vkQueueSubmit i wsem ssem fence] ++ C) fences := by
  intro p hnd hp
  have sA := outstandingFences_sublist A hA p
  have sB := outstandingFences_sublist B hB ((outstandingFences A p).filter (· ≠ fence))
  have sC := outstandingFences_sublist C hC
    (fence :: outstandingFences B ((outstandingFences A p).filter (· ≠ fence)))
  have hfilter : ((outstandingFences A p).filter (· ≠ fence)).Sublist p :=
    (List.filter_sublist _).trans sA
  have hnot : fence ∉ outstandingFences B ((outstandingFences A p).filter (· ≠ fence)) := by
    intro hm
    have := sB.subset hm
    simp at this
  have hnd3 : (fence :: outstandingFences B
      ((outstandingFences A p).filter (· ≠ fence))).Nodup :=
    List.nodup_cons.mpr ⟨hnot, (sB.trans hfilter).nodup hnd⟩
  have hres : outstandingFences (A ++ [.vkWaitForFences fence] ++ B
      ++ [.vkResetFences fence, .vkQueueSubmit i wsem ssem fence] ++ C) p
      = outstandingFences C (fence :: outstandingFences B
          ((outstandingFences A p).filter (· ≠ fence))) := by
    simp only [outstandingFences_append, outstandingFences]
  rw [hres]
  refine ⟨sC.nodup hnd3, fun f hm => ?_⟩
  rcases List.mem_cons.mp (sC.subset hm) with rfl | hm
  · exact hf
  · exact hp f ((sB.trans hfilter).subset hm)

/-- The steps from the fence wait on keep the outstanding fences in order. -/
theorem acquire_fencesKept {env : Env} {s : SGR} {acq : Outcome}
    (h : drawFrame.acquire env s = some acq) : FencesKept acq.trace s.inFlightFences := by
  by_cases hsub : ∃ e ∈ acq.trace, e.isSubmit = true
  · obtain ⟨fence, wsem, ssem, B, C, hf, htr, hB, hC⟩ := acquire_submit_shape h hsub
    rw [htr]
    have := @FencesKept.of_shape [] B C fence env.imageIndex wsem ssem s.inFlightFences
      (fun e he => by cases he) (fun e he => (hB e he).2) (fun e he => (hC e he).2.1)
      (List.getElem?_mem hf)
    simpa using this
  · refine FencesKept.of_no_submit fun e he => ?_
    cases hs : e.isSubmit
    · rfl
    · exact absurd ⟨e, he, hs⟩ hsub

/-- A frame keeps the outstanding fences in order when what runs inside its wait for
window events does. -/
theorem run_fencesKept {wait : SGR → Option (SGR × List Event)} {env : Env} {s : SGR}
    {out : Outcome}
    (hw : ∀ a b t, wait a = some (b, t) → Kept a b ∧ FencesKept t a.inFlightFences)
    (h : drawFrame.run wait env s = some out) : FencesKept out.trace s.inFlightFences := by
  rcases run_inv h with ⟨_, rfl⟩ | ⟨_, _, _, rfl⟩ | ⟨_, _, built, hb, h3⟩
  · exact @FencesKept.of_not_device
      [Event.drawDataUpdate, Event.vkQueueWaitIdle, Event.beginCommandBuffers] _ (by decide)
  · exact @FencesKept.of_not_device drawFrame.preamble _ (by decide)
  · have hnd := recording_not_device hb
    have hfen : built.state.inFlightFences = s.inFlightFences := (build_kept hb).inFlightFences
    rcases h3 with ⟨_, rfl⟩ | ⟨_, dev, hdev, rfl⟩
    · exact FencesKept.of_not_device fun e he =>
        hnd e (by
          rcases List.mem_append.mp he with he | he
          · exact List.mem_append_left _ he
          · exact List.mem_append_right _ (List.mem_append_left _ he))
    · obtain ⟨waited, events, acq, hm, hacq, rfl⟩ := device_inv hdev
      show FencesKept (drawFrame.preamble ++ (_ ++ (events ++ acq.trace))) _
      rw [← List.append_assoc]
      refine (FencesKept.of_not_device hnd).append (FencesKept.append ?_ ?_)
      · rcases minimizedWait_inv hm with ⟨_, _, rfl⟩ | ⟨_, inside, hws, rfl⟩
        · exact FencesKept.of_no_submit fun e he => by cases he
        · have := (hw _ _ _ hws).2
          rw [hfen] at this
          exact FencesKept.append
            (@FencesKept.of_no_submit [Event.glfwWaitEvents] _ (by decide)) this
      · have hwf : waited.inFlightFences = s.inFlightFences := by
          rcases minimizedWait_inv hm with ⟨_, rfl, _⟩ | ⟨_, inside, hws, _⟩
          · exact hfen
          · rw [(hw _ _ _ hws).1.inFlightFences, hfen]
        have := acquire_fencesKept hacq
        rw [hwf] at this
        exact this

theorem windowEvent_fencesKept {event : WindowEvent} {s next : SGR} {events : List Event}
    (h : event.run s = some (next, events)) : FencesKept events s.inFlightFences := by
  have hredraw : ∀ (imageCount : Nat) (env : Env) (a : SGR),
      callbackRedraw imageCount env a = some (next, events) →
      FencesKept events a.inFlightFences := by
    intro imageCount env a hc
    unfold callbackRedraw at hc
    split_ifs at hc
    · cases hn : drawFrame.nested env (requestUpdateSwapChain imageCount a).1 with
      | none => rw [hn] at hc; cases hc
      | some out =>
        rw [hn] at hc
        simp only [Option.some.injEq, Prod.mk.injEq] at hc
        rw [← hc.2]
        refine FencesKept.append
          (@FencesKept.of_no_submit [Event.reinitSwapChain] _ (by decide)) ?_
        have := run_fencesKept (fun _ _ _ hnone => by cases hnone) hn
        exact this
    · simp only [Option.some.injEq, Prod.mk.injEq] at hc
      rw [← hc.2]
      exact FencesKept.of_no_submit fun e he => by cases he
  cases event with
  | framebufferResize width height imageCount answers =>
    simp only [WindowEvent.run, framebufferResizeCallback] at h
    split_ifs at h
    · simp only [Option.some.injEq, Prod.mk.injEq] at h
      rw [← h.2]
      exact FencesKept.of_no_submit fun e he => by cases he
    · exact hredraw imageCount { toFrameAnswers := answers }
        { s with windowResized := true, windowMinimized := false } h
  | windowPos imageCount answers =>
    simp only [WindowEvent.run, windowPosCallback] at h
    exact hredraw imageCount { toFrameAnswers := answers }
      { s with windowResized := true, windowMinimized := false } h

theorem glfwWaitEvents_fencesKept :
    ∀ (events : List WindowEvent) (s next : SGR) (trace : List Event),
      glfwWaitEvents events s = some (next, trace) → FencesKept trace s.inFlightFences := by
  intro events
  induction events with
  | nil =>
    intro s next trace h
    simp only [glfwWaitEvents, Option.some.injEq, Prod.mk.injEq] at h
    rw [← h.2]
    exact FencesKept.of_no_submit fun e he => by cases he
  | cons event events ih =>
    intro s next trace h
    unfold glfwWaitEvents at h
    cases h1 : event.run s with
    | none => rw [h1] at h; cases h
    | some r1 =>
      obtain ⟨s1, t1⟩ := r1
      rw [h1] at h
      dsimp only at h
      cases h2 : glfwWaitEvents events s1 with
      | none => rw [h2] at h; cases h
      | some r2 =>
        obtain ⟨s2, t2⟩ := r2
        rw [h2] at h
        simp only [Option.some.injEq, Prod.mk.injEq] at h
        rw [← h.2]
        have hrest := ih _ _ _ h2
        rw [(windowEvent_kept h1).inFlightFences] at hrest
        exact (windowEvent_fencesKept h1).append hrest

/-- Over consecutive `drawFrame` calls, the frames drawn by window callbacks inside
`glfwWaitEvents` included, the outstanding fences stay in order. -/
theorem drawFramesTrace_outstanding :
    ∀ (envs : List Env) (s : SGR) (events : List Event),
      drawFramesTrace envs s = some events → FencesKept events s.inFlightFences := by
  intro envs
  induction envs with
  | nil =>
    intro s events hrun
    simp only [drawFramesTrace, Option.some.injEq] at hrun
    subst hrun
    exact FencesKept.of_no_submit fun e he => by cases he
  | cons env envs ih =>
    intro s events hrun
    unfold drawFramesTrace at hrun
    cases hout : drawFrame.run (glfwWaitEvents env.waitEvents) env s with
    | none => rw [hout] at hrun; cases hrun
    | some out =>
      rw [hout] at hrun
      dsimp only at hrun
      cases hrest : drawFramesTrace envs out.state with
      | none => rw [hrest] at hrun; cases hrun
      | some events' =>
        rw [hrest] at hrun
        simp only [Option.some.injEq] at hrun
        subst hrun
        have hw : ∀ a b t, glfwWaitEvents env.waitEvents a = some (b, t) →
            Kept a b ∧ FencesKept t a.inFlightFences :=
          fun a b t hg => ⟨glfwWaitEvents_kept _ _ _ _ hg, glfwWaitEvents_fencesKept _ _ _ _ hg⟩
        have hk := (run_kept (fun a b t hg => (hw a b t hg).1) hout).inFlightFences
        have hrest' := ih out.state events' hrest
        rw [hk] at hrest'
        exact (run_fencesKept hw hout).append hrest'

/-- C11: in every `drawFrame` call that issues a queue submit, the events of the call are
the wait on the fence of the current slot, later the reset of that fence immediately
followed by the submit that signals it, with no other reset or submit in the call (so
no reset before the wait). The current slot is the one `currentFrame` names when the
call waits for the fence: the slot of the call entry when the window is not minimized,
the slot after the wait for window events otherwise (the fences are the same).
Consequently, over consecutive calls, the frames that window callbacks draw inside
`glfwWaitEvents` included, the fences of outstanding frames (submitted, not yet waited
for) never repeat and are fences of the slots: with one fence for each of the `F` slots
at most `F` frames are outstanding. -/
theorem C11_wait_reset_submit :
    (∀ (env : Env) (s : SGR) (out : Outcome), drawFrame env s = some out →
        (∃ e ∈ out.trace, e.isSubmit = true) →
        ∃ waited fence wsem ssem A B C,
          drawFrame.waited env s = some waited
            ∧ waited.inFlightFences = s.inFlightFences
            ∧ (s.windowMinimized = false → waited.currentFrame = s.currentFrame)
            ∧ waited.inFlightFences[waited.currentFrame]? = some fence
            ∧ out.trace = A ++ [.vkWaitForFences fence] ++ B
                ++ [.vkResetFences fence, .vkQueueSubmit env.imageIndex wsem ssem fence] ++ C
            ∧ (∀ e ∈ A, e.isReset = false ∧ e.isSubmit = false ∧ e.isFenceWait = false)
            ∧ (∀ e ∈ B, e.isReset = false ∧ e.isSubmit = false)
            ∧ (∀ e ∈ C, e.isReset = false ∧ e.isSubmit = false ∧ e.isFenceWait = false))
      ∧ (∀ (envs : List Env) (s : SGR) (events : List Event),
          s.inFlightFences.length = s.maxFrameInFlight →
          drawFramesTrace envs s = some events →
          (outstandingFences events []).Nodup
            ∧ (∀ f ∈ outstandingFences events [], f ∈ s.inFlightFences)
            ∧ (outstandingFences events []).length ≤ s.maxFrameInFlight) := by
  refine ⟨fun env s out h hsub => drawFrame_submit_shape h hsub, fun envs s events hlen hrun => ?_⟩
  obtain ⟨h1, h2⟩ := drawFramesTrace_outstanding envs s events hrun [] List.nodup_nil
    (fun f hf => by cases hf)
  refine ⟨h1, h2, ?_⟩
  rw [← hlen]
  exact (List.subperm_of_subset h1 h2).length_le

theorem C11_wait_reset_submit_witness :
    ∃ events, drawFramesTrace [restoreEnv, calmEnv] minimizedScene = some events
      ∧ (outstandingFences events []).length ≤ 2 := by
  cases h : drawFramesTrace [restoreEnv, calmEnv] minimizedScene with
  | none => exact absurd h (by decide)
  | some events => exact ⟨events, rfl, (C11_wait_reset_submit.2 _ _ _ rfl h).2.2⟩

theorem present_keeps_images {env : Env} {s : SGR} {sem : Nat} {pres : Outcome}
    (h : drawFrame.present env s sem = some pres) :
    pres.state.imagesInFlight = s.imagesInFlight := by
  rcases present_inv h with ⟨_, _, rfl⟩ | ⟨_, _, _, _, rfl⟩ | ⟨_, _, _, rfl⟩ <;> rfl

theorem claimState_keeps (env : Env) (s : SGR) :
    (claimState env s).windowResized = s.windowResized
      ∧ (claimState env s).currentFrame = s.currentFrame
      ∧ (claimState env s).maxFrameInFlight = s.maxFrameInFlight := by
  unfold claimState
  split_ifs <;> exact ⟨rfl, rfl, rfl⟩

/-- C12: in a `drawFrame` call that acquired an image (the acquisition reports success
or suboptimal) and issues a submit, the owner of the image is read from
`imagesInFlight[imageIndex]`; when it is a fence (not `VK_NULL_HANDLE`) the wait on
it stands right before the fence reset and the submit; the table that the call leaves
(nothing after the claim writes it, so it is the table at the submit) holds the fence
of the current slot at `imageIndex` and every other entry as it was before the claim.
The table before the claim and the current slot are those of the state in which the
call waits for the fence of its slot: the state of the call entry when the window is
not minimized, the state after the wait for window events otherwise. -/
theorem C12_image_claim (env : Env) (s : SGR) (out : Outcome)
    (hacq : env.acquire = VK_SUCCESS ∨ env.acquire = VK_SUBOPTIMAL_KHR)
    (h : drawFrame env s = some out)
    (hsub : ∃ e ∈ out.trace, e.isSubmit = true) :
    ∃ waited fence owner wsem ssem A C,
      drawFrame.waited env s = some waited
        ∧ waited.inFlightFences = s.inFlightFences
        ∧ (s.windowMinimized = false →
            waited.currentFrame = s.currentFrame ∧ waited.imagesInFlight = s.imagesInFlight)
        ∧ waited.inFlightFences[waited.currentFrame]? = some fence
        ∧ waited.imagesInFlight[env.imageIndex]? = some owner
        ∧ out.trace = A ++ drawFrame.ownerWait owner
            ++ [.vkResetFences fence, .vkQueueSubmit env.imageIndex wsem ssem fence] ++ C
        ∧ (owner ≠ VK_NULL_HANDLE → drawFrame.ownerWait owner = [.vkWaitForFences owner])
        ∧ (owner = VK_NULL_HANDLE → drawFrame.ownerWait owner = [])
        ∧ out.state.imagesInFlight = waited.imagesInFlight.set env.imageIndex fence
        ∧ out.state.imagesInFlight[env.imageIndex]? = some fence
        ∧ ∀ j, j ≠ env.imageIndex →
          out.state.imagesInFlight[j]? = waited.imagesInFlight[j]? := by
  obtain ⟨built, waited, events, acq, hb, _, hm, hwaited, ha, rfl⟩ :=
    drawFrame_reached_device h
      (Or.inr (hsub.imp fun e he => ⟨he.1, isDevice_of_isSubmit he.2⟩))
  have hsub' := submit_in_acquire (fun e he => isDevice_of_isSubmit he) rfl hb hm hsub
  obtain ⟨fence, wsem, ssem, owner, rest, hf, _, _, ho, _, htr, hc⟩ := acquire_submitted ha hsub'
  have hne : env.acquire ≠ VK_ERROR_OUT_OF_DATE_KHR := by
    rcases hacq with h1 | h1 <;> rw [h1] <;> decide
  have hcs : claimState env waited = waited := by simp [claimState, hne]
  have hre : rebuildEvents env = [] := by simp [rebuildEvents, hne]
  rw [hcs] at ho hc
  have hfinal : acq.state.imagesInFlight = waited.imagesInFlight.set env.imageIndex fence := by
    rcases hc with ⟨_, _, _, h4⟩ | ⟨_, pres, hp, _, h4, _⟩
    · rw [h4]
    · rw [h4, present_keeps_images hp]
  have hlt : env.imageIndex < waited.imagesInFlight.length := by
    by_contra hge
    rw [List.getElem?_eq_none (by omega)] at ho
    cases ho
  refine ⟨waited, fence, owner, wsem, ssem,
    drawFrame.preamble ++ (built.trace ++ [.executeCommands, .uiRender, .endInitCommandBuffers])
      ++ events
      ++ [.vkWaitForFences fence, .vkAcquireNextImageKHR wsem],
    rest, hwaited, (waited_kept hb hm).inFlightFences,
    fun hmin => ⟨(waited_entry hb hm hmin).2.1, (waited_entry hb hm hmin).2.2.1⟩,
    hf, ho, ?_, ?_, ?_, hfinal, ?_, ?_⟩
  · show drawFrame.preamble ++ _ = _
    rw [htr, hre]
    simp only [List.append_assoc, List.cons_append, List.nil_append, List.singleton_append]
  · intro hn
    simp [drawFrame.ownerWait, hn]
  · intro hn
    simp [drawFrame.ownerWait, hn]
  · show acq.state.imagesInFlight[env.imageIndex]? = some fence
    rw [hfinal, List.getElem?_set_self hlt]
  · intro j hj
    show acq.state.imagesInFlight[j]? = _
    rw [hfinal, List.getElem?_set_ne (Ne.symm hj)]

theorem C12_image_claim_witness :
    ∃ waited fence owner wsem ssem A C,
      drawFrame.waited restoreEnv minimizedScene = some waited
        ∧ waited.inFlightFences = minimizedScene.inFlightFences
        ∧ (minimizedScene.windowMinimized = false →
            waited.currentFrame = minimizedScene.currentFrame
              ∧ waited.imagesInFlight = minimizedScene.imagesInFlight)
        ∧ waited.inFlightFences[waited.currentFrame]? = some fence
        ∧ waited.imagesInFlight[restoreEnv.imageIndex]? = some owner
        ∧ restoredOutcome.trace = A ++ drawFrame.ownerWait owner
            ++ [.vkResetFences fence, .vkQueueSubmit restoreEnv.imageIndex wsem ssem fence] ++ C
        ∧ (owner ≠ VK_NULL_HANDLE → drawFrame.ownerWait owner = [.vkWaitForFences owner])
        ∧ (owner = VK_NULL_HANDLE → drawFrame.ownerWait owner = [])
        ∧ restoredOutcome.state.imagesInFlight
          = waited.imagesInFlight.set restoreEnv.imageIndex fence
        ∧ restoredOutcome.state.imagesInFlight[restoreEnv.imageIndex]? = some fence
        ∧ ∀ j, j ≠ restoreEnv.imageIndex →
          restoredOutcome.state.imagesInFlight[j]? = waited.imagesInFlight[j]? :=
  C12_image_claim restoreEnv minimizedScene restoredOutcome (Or.inl rfl) rfl (by decide)

/-! ## Classification of the acquire and present results -/

theorem isDevice_of_isPresent {e : Event} (h : e.isPresent = true) : e.isDevice = true := by
  cases e <;> first | rfl | cases h

theorem submit_env_acquire (env : Env) (a : VkResult) (s : SGR) (fence wsem : Nat) :
    drawFrame.submit { env with acquire := a } s fence wsem = drawFrame.submit env s fence wsem :=
  rfl

/-- A suboptimal acquisition is handled as a successful one. -/
theorem drawFrame_suboptimal (env : Env) (s : SGR) :
    drawFrame { env with acquire := VK_SUBOPTIMAL_KHR } s
      = drawFrame { env with acquire := VK_SUCCESS } s := by
  have hacq : ∀ s' : SGR, drawFrame.acquire { env with acquire := VK_SUBOPTIMAL_KHR } s'
      = drawFrame.acquire { env with acquire := VK_SUCCESS } s' := by
    intro s'
    have h1 : VK_SUBOPTIMAL_KHR ≠ VK_ERROR_OUT_OF_DATE_KHR := by decide
    have h2 : VK_SUCCESS ≠ VK_ERROR_OUT_OF_DATE_KHR := by decide
    unfold drawFrame.acquire
    simp only [h1, h2, if_false, ne_eq, not_true_eq_false, and_false, false_and,
      submit_env_acquire]
  unfold drawFrame drawFrame.run drawFrame.device
  simp only [hacq]
  rfl

/-- C13 as stated fails: in the scene after its first frame with the window minimized
(`currentFrame` 1, `imagesInFlight` `[31, 0]`), a `drawFrame` call during whose wait for
window events the window position callback rebuilds the swapchain and draws a frame,
and whose own acquisition then fails with `VK_ERROR_DEVICE_LOST`, returns
`sgrFailedToAcquireImage` with `currentFrame` 0 and `imagesInFlight` `[32, 0]`; between
its entry and its return one swapchain rebuild, one submit and one present happened. -/
theorem C13_fatal_acquire_after_callback :
    minimizedScene.currentFrame = 1 ∧ minimizedScene.imagesInFlight = [31, 0]
      ∧ fatalRestoreEnv.acquire = -4
      ∧ (drawFrame fatalRestoreEnv minimizedScene).map
          (fun o => (o.code, o.state.currentFrame, o.state.imagesInFlight))
        = some (.sgrFailedToAcquireImage, 0, [32, 0])
      ∧ (drawFrame.timeline fatalRestoreEnv minimizedScene).map
          (fun events => (events.countP Event.isRebuild, events.countP Event.isSubmit,
            events.countP Event.isPresent))
        = some (1, 1, 1) := by
  decide

/-- C13, amended: in a `drawFrame` call that calls the acquisition, a result other than
success, suboptimal and out-of-date makes the call return `sgrFailedToAcquireImage`;
the call itself issues no submit, no present and no swapchain rebuild, and it leaves
`currentFrame` and `imagesInFlight` as they are in the state in which it waits for the
fence of its slot: the state of the call entry when the window is not minimized, the
state that the window callbacks run inside `glfwWaitEvents` leave otherwise. A
suboptimal result is handled as success: the call does what it does for `VK_SUCCESS`
and submits the frame with the acquired image. -/
theorem C13_acquire_classification (env : Env) (s : SGR) (out : Outcome)
    (h : drawFrame env s = some out)
    (hacq : ∃ e ∈ out.trace, e.isAcquire = true) :
    ∃ waited, drawFrame.waited env s = some waited
      ∧ (s.windowMinimized = false →
          waited.currentFrame = s.currentFrame ∧ waited.imagesInFlight = s.imagesInFlight)
      ∧ (env.acquire ≠ VK_SUCCESS → env.acquire ≠ VK_SUBOPTIMAL_KHR →
          env.acquire ≠ VK_ERROR_OUT_OF_DATE_KHR →
          out.code = .sgrFailedToAcquireImage
            ∧ out.trace.countP Event.isSubmit = 0
            ∧ out.trace.countP Event.isPresent = 0
            ∧ out.trace.countP Event.isRebuild = 0
            ∧ out.state.currentFrame = waited.currentFrame
            ∧ out.state.imagesInFlight = waited.imagesInFlight)
      ∧ (env.acquire = VK_SUBOPTIMAL_KHR →
          drawFrame { env with acquire := VK_SUCCESS } s = some out
            ∧ ∃ wsem ssem fence,
              Event.vkQueueSubmit env.imageIndex wsem ssem fence ∈ out.trace) := by
  obtain ⟨built, waited, events, acq, hb, _, hm, hwaited, ha, rfl⟩ :=
    drawFrame_reached_device h (Or.inr (hacq.imp fun e he =>
      ⟨he.1, by cases e <;> first | rfl | cases he.2⟩))
  have hnd := recording_not_device hb
  obtain ⟨fence, wsem, rest, hf, hw, htr, hcases⟩ := acquire_trace ha
  refine ⟨waited, hwaited,
    fun hmin => ⟨(waited_entry hb hm hmin).2.1, (waited_entry hb hm hmin).2.2.1⟩, ?_, ?_⟩
  · intro h1 h2 h3
    rcases hcases with ⟨h4, _⟩ | ⟨h4, _⟩ | ⟨_, _, _, rfl, hcode, hstate⟩ | ⟨h4, _⟩
    · exact absurd h4 h3
    · exact absurd h4 h3
    · have hcount : ∀ p : Event → Bool, (∀ e, p e = true → e.isDevice = true) →
          p .glfwWaitEvents = false → (∀ f, p (.vkWaitForFences f) = false) →
          (∀ w, p (.vkAcquireNextImageKHR w) = false) →
          List.countP p (drawFrame.preamble
            ++ ((built.trace ++ [.executeCommands, .uiRender, .endInitCommandBuffers])
              ++ (events ++ acq.trace))) = 0 := by
        intro p hp g1 g2 g3
        rw [List.countP_eq_zero]
        intro e he
        rw [← List.append_assoc] at he
        rcases List.mem_append.mp he with he | he
        · intro hpe
          have := hnd e he
          rw [hp e hpe] at this
          cases this
        · rw [htr] at he
          simp only [List.append_nil, List.mem_append, List.mem_cons, List.mem_singleton,
            List.not_mem_nil, or_false] at he
          rcases he with he | rfl | rfl
          · rw [minimizedWait_isDevice hm e he, g1]; simp
          · rw [g2]; simp
          · rw [g3]; simp
      refine ⟨hcode, hcount _ (fun e he => isDevice_of_isSubmit he) rfl (fun _ => rfl)
        (fun _ => rfl), hcount _ (fun e he => ?_) rfl (fun _ => rfl) (fun _ => rfl),
        hcount _ (fun e he => ?_) rfl (fun _ => rfl) (fun _ => rfl), ?_, ?_⟩
      · cases e <;> first | rfl | cases he
      · cases e <;> first | rfl | cases he
      · show acq.state.currentFrame = _
        rw [hstate]
      · show acq.state.imagesInFlight = _
        rw [hstate]
    · rcases h4 with h4 | h4
      · exact absurd h4 h1
      · exact absurd h4 h2
  · intro hsubopt
    have henv : env = { env with acquire := VK_SUBOPTIMAL_KHR } := by
      rw [← hsubopt]
    refine ⟨?_, ?_⟩
    · rw [← drawFrame_suboptimal, ← henv]
      exact h
    · rcases hcases with ⟨h4, _⟩ | ⟨h4, _⟩ | ⟨_, _, h4, _⟩ | ⟨_, sub, hsubm, _, _, rfl⟩
      · rw [hsubopt] at h4; exact absurd h4 (by decide)
      · rw [hsubopt] at h4; exact absurd h4 (by decide)
      · exact absurd hsubopt h4
      · obtain ⟨owner, ssem, rest2, _, _, htr2, _⟩ := submit_trace hsubm
        refine ⟨wsem, ssem, fence, ?_⟩
        show _ ∈ drawFrame.preamble ++ _
        rw [htr, htr2]
        simp

theorem C13_acquire_classification_witness :
    ∃ waited, drawFrame.waited fatalAcquireEnv sceneAfterFirstFrame = some waited
      ∧ fatalAcquireOutcome.code = .sgrFailedToAcquireImage
      ∧ fatalAcquireOutcome.trace.countP Event.isSubmit = 0
      ∧ fatalAcquireOutcome.trace.countP Event.isPresent = 0
      ∧ fatalAcquireOutcome.state.currentFrame = sceneAfterFirstFrame.currentFrame :=
  (C13_acquire_classification fatalAcquireEnv sceneAfterFirstFrame fatalAcquireOutcome
      rfl (by decide)).imp fun _ hx =>
    ⟨hx.1, (hx.2.2.1 (by decide) (by decide) (by decide)).1,
      (hx.2.2.1 (by decide) (by decide) (by decide)).2.1,
      (hx.2.2.1 (by decide) (by decide) (by decide)).2.2.1,
      ((hx.2.2.1 (by decide) (by decide) (by decide)).2.2.2.2.1).trans (hx.2.1 rfl).1⟩

theorem rebuildEvents_not_present (env : Env) :
    ∀ e ∈ rebuildEvents env, e.isPresent = false := by
  intro e he
  unfold rebuildEvents at he
  split_ifs at he
  · simp only [List.mem_cons, List.mem_singleton, List.not_mem_nil, or_false] at he
    rcases he with rfl | rfl <;> rfl
  · cases he

theorem acquire_submit_of_present {env : Env} {s : SGR} {acq : Outcome}
    (h : drawFrame.acquire env s = some acq) (hp : ∃ e ∈ acq.trace, e.isPresent = true) :
    ∃ e ∈ acq.trace, e.isSubmit = true := by
  obtain ⟨fence, wsem, rest, _, _, htr, hcases⟩ := acquire_trace h
  have hfront : ∀ e ∈ [Event.vkWaitForFences fence, Event.vkAcquireNextImageKHR wsem],
      e.isPresent = false := by
    intro e he
    simp only [List.mem_cons, List.mem_singleton, List.not_mem_nil, or_false] at he
    rcases he with rfl | rfl <;> rfl
  have hsubmit : ∀ (s1 : SGR) (sub : Outcome), drawFrame.submit env s1 fence wsem = some sub →
      ∃ e ∈ sub.trace, e.isSubmit = true := by
    intro s1 sub hsub
    obtain ⟨owner, ssem, rest2, _, _, htr2, _⟩ := submit_trace hsub
    exact ⟨.vkQueueSubmit env.imageIndex wsem ssem fence, by rw [htr2]; simp, rfl⟩
  obtain ⟨e, he, hpe⟩ := hp
  rw [htr] at he
  rcases List.mem_append.mp he with he | he
  · rw [hfront e he] at hpe; cases hpe
  rcases hcases with ⟨_, _, rfl, _⟩ | ⟨_, _, sub, hs, _, _, rfl⟩
      | ⟨_, _, _, rfl, _⟩ | ⟨_, sub, hs, _, _, rfl⟩
  · simp only [List.mem_cons, List.mem_singleton, List.not_mem_nil, or_false] at he
    rcases he with rfl | rfl <;> cases hpe
  · obtain ⟨e2, he2, hs2⟩ := hsubmit _ sub hs
    exact ⟨e2, by rw [htr]; simp [he2], hs2⟩
  · cases he
  · obtain ⟨e2, he2, hs2⟩ := hsubmit _ sub hs
    exact ⟨e2, by rw [htr]; simp [he2], hs2⟩

/-- C14 as stated fails: in the scene after its first frame with the window minimized
(`currentFrame` 1), a `drawFrame` call during whose wait for window events the window
position callback rebuilds the swapchain and draws a frame, and whose own present then
fails with `VK_ERROR_DEVICE_LOST`, returns `sgrFailedPresentImage` with `currentFrame`
0: between its entry and its return the swapchain was rebuilt once and the frame
counter advanced. -/
theorem C14_failed_present_after_callback :
    minimizedScene.currentFrame = 1 ∧ minimizedScene.windowResized = false
      ∧ failedPresentRestoreEnv.present = -4
      ∧ (drawFrame failedPresentRestoreEnv minimizedScene).map
          (fun o => (o.code, o.state.currentFrame))
        = some (.sgrFailedPresentImage, 0)
      ∧ (drawFrame.timeline failedPresentRestoreEnv minimizedScene).map
          (fun events => events.countP Event.isRebuild)
        = some 1 := by
  decide

/-- C14, amended: in a `drawFrame` call that issues the present, when the present
reports out-of-date or suboptimal, or a resize is pending, the call unbinds, rebuilds
the swapchain, clears `windowResized`, advances the frame counter and returns `sgrOK`;
otherwise, when the present reports a result other than success, the call returns
`sgrFailedPresentImage` with the present as its last event (no rebuild follows) and
with `currentFrame` not advanced. The pending resize and the frame counter before the
step are those of the state in which the call waits for the fence of its slot: the
state of the call entry when the window is not minimized, the state that the window
callbacks run inside `glfwWaitEvents` leave otherwise. -/
theorem C14_present_classification (env : Env) (s : SGR) (out : Outcome)
    (h : drawFrame env s = some out)
    (hpres : ∃ e ∈ out.trace, e.isPresent = true) :
    ∃ waited pre sem,
      drawFrame.waited env s = some waited
        ∧ (s.windowMinimized = false →
            waited.currentFrame = s.currentFrame ∧ waited.windowResized = s.windowResized)
        ∧ (∀ e ∈ pre, e.isPresent = false)
        ∧ ((env.present = VK_ERROR_OUT_OF_DATE_KHR ∨ env.present = VK_SUBOPTIMAL_KHR
              ∨ waited.windowResized = true) →
            out.code = .sgrOK
              ∧ out.trace = pre ++ [.vkQueuePresentKHR env.imageIndex sem,
                  .unbindAllMeshesAndPiplines, .reinitSwapChain]
              ∧ out.state.windowResized = false
              ∧ out.state.imageCount = env.presentReinitImageCount
              ∧ out.state.currentFrame = (waited.currentFrame + 1) % s.maxFrameInFlight)
        ∧ (env.present ≠ VK_ERROR_OUT_OF_DATE_KHR → env.present ≠ VK_SUBOPTIMAL_KHR →
            waited.windowResized = false → env.present ≠ VK_SUCCESS →
            out.code = .sgrFailedPresentImage
              ∧ out.trace = pre ++ [.vkQueuePresentKHR env.imageIndex sem]
              ∧ out.state.currentFrame = waited.currentFrame) := by
  have hdev : ∃ e ∈ out.trace, e.isDevice = true :=
    hpres.imp fun e he => ⟨he.1, isDevice_of_isPresent he.2⟩
  obtain ⟨built, waited, events, acq, hb, _, hm, hwaited, ha, rfl⟩ :=
    drawFrame_reached_device h (Or.inr hdev)
  have hnd := recording_not_device hb
  have hpres' := submit_in_acquire (fun e he => isDevice_of_isPresent he) rfl hb hm hpres
  obtain ⟨fence, wsem, ssem, owner, rest, hf, _, _, _, _, htr, hc⟩ :=
    acquire_submitted ha (acquire_submit_of_present ha hpres')
  have hfront : ∀ e ∈ [Event.vkWaitForFences fence, Event.vkAcquireNextImageKHR wsem]
      ++ (rebuildEvents env ++ (drawFrame.ownerWait owner
        ++ [Event.vkResetFences fence, Event.vkQueueSubmit env.imageIndex wsem ssem fence])),
      e.isPresent = false := by
    intro e he
    simp only [List.mem_append, List.mem_cons, List.mem_singleton, List.not_mem_nil,
      or_false] at he
    rcases he with (rfl | rfl) | he | he | rfl | rfl
    · rfl
    · rfl
    · exact rebuildEvents_not_present env e he
    · rw [ownerWait_isDevice _ e he]; rfl
    · rfl
    · rfl
  have hkeep := claimState_keeps env waited
  have hwr : (claimState env waited).windowResized = waited.windowResized := hkeep.1
  have hcf : (claimState env waited).currentFrame = waited.currentFrame := hkeep.2.1
  have hmf : (claimState env waited).maxFrameInFlight = s.maxFrameInFlight := by
    rw [hkeep.2.2, (waited_kept hb hm).maxFrameInFlight]
  refine ⟨waited, drawFrame.preamble
      ++ (built.trace ++ [.executeCommands, .uiRender, .endInitCommandBuffers])
      ++ (events ++ ([Event.vkWaitForFences fence, Event.vkAcquireNextImageKHR wsem]
        ++ (rebuildEvents env ++ (drawFrame.ownerWait owner
          ++ [Event.vkResetFences fence, Event.vkQueueSubmit env.imageIndex wsem ssem fence])))),
    ssem, hwaited,
    fun hmin => ⟨(waited_entry hb hm hmin).2.1, (waited_entry hb hm hmin).2.2.2.1⟩, ?_, ?_⟩
  · intro e he
    rcases List.mem_append.mp he with he | he
    · have h1 := hnd e he
      cases hp : e.isPresent
      · rfl
      · rw [isDevice_of_isPresent hp] at h1
        cases h1
    · rcases List.mem_append.mp he with he | he
      · rw [minimizedWait_isDevice hm e he]; rfl
      · exact hfront e he
  rcases hc with ⟨_, rfl, _, _⟩ | ⟨_, pres, hp, hcode, hstate, rfl⟩
  · exfalso
    obtain ⟨e, he, hpe⟩ := hpres'
    rw [htr] at he
    simp only [List.append_nil] at he
    rw [hfront e he] at hpe
    cases hpe
  · rcases present_inv hp with ⟨hcond, _, rfl⟩ | ⟨h1, h2, h3, h4, rfl⟩ | ⟨h1, h2, _, rfl⟩
    · refine ⟨fun _ => ⟨hcode, ?_, ?_, ?_, ?_⟩, fun g1 g2 g3 _ => ?_⟩
      · show drawFrame.preamble ++ _ = _
        rw [htr]
        simp only [List.append_assoc]
      · show acq.state.windowResized = false
        rw [hstate]
      · show acq.state.imageCount = _
        rw [hstate]
      · show acq.state.currentFrame = _
        rw [hstate]
        show ((claimState env waited).currentFrame + 1)
          % (claimState env waited).maxFrameInFlight = _
        rw [hcf, hmf]
      · exfalso
        rcases hcond with hcond | hcond | hcond
        · exact g1 hcond
        · exact g2 hcond
        · have : (claimState env waited).windowResized = true := hcond
          rw [hwr, g3] at this
          cases this
    · refine ⟨fun hcond => ?_, fun _ _ _ _ => ⟨hcode, ?_, ?_⟩⟩
      · exfalso
        rcases hcond with hcond | hcond | hcond
        · exact h1 hcond
        · exact h2 hcond
        · have : (claimState env waited).windowResized = false := h3
          rw [hwr, hcond] at this
          cases this
      · show drawFrame.preamble ++ _ = _
        rw [htr]
        simp only [List.append_assoc]
      · show acq.state.currentFrame = _
        rw [hstate]
        exact hcf
    · refine ⟨fun hcond => ?_, fun _ _ _ g4 => absurd h1 g4⟩
      exfalso
      rcases hcond with hcond | hcond | hcond
      · rw [h1] at hcond; exact absurd hcond (by decide)
      · rw [h1] at hcond; exact absurd hcond (by decide)
      · have : (claimState env waited).windowResized = false := h2
        rw [hwr, hcond] at this
        cases this

theorem C14_present_classification_witness :
    ∃ waited pre sem,
      drawFrame.waited stalePresentEnv sceneAfterFirstFrame = some waited
        ∧ stalePresentOutcome.code = .sgrOK
        ∧ stalePresentOutcome.trace = pre ++ [.vkQueuePresentKHR 0 sem,
            .unbindAllMeshesAndPiplines, .reinitSwapChain]
        ∧ stalePresentOutcome.state.windowResized = false :=
  (C14_present_classification stalePresentEnv sceneAfterFirstFrame stalePresentOutcome rfl
    (by decide)).imp fun _ hx => hx.imp fun _ hy => hy.imp fun _ hz =>
      ⟨hz.1, (hz.2.2.2.1 (Or.inl rfl)).1, (hz.2.2.2.1 (Or.inl rfl)).2.1,
        (hz.2.2.2.1 (Or.inl rfl)).2.2.1⟩

/-! ## A missing descriptor set -/

theorem lookup_set_flag {objects : List SgrObject} {i : Nat} {o : SgrObject} (b : Bool)
    (h : objects[i]? = some o) (g : String)
    (hl : ∃ o1, objects[findObjectByName objects g]? = some o1 ∧ o1.name ≠ "empty") :
    ∃ o1, (objects.set i { o with meshDataAndPiplineBinded := b })[
        findObjectByName (objects.set i { o with meshDataAndPiplineBinded := b }) g]? = some o1
      ∧ o1.name ≠ "empty" := by
  rw [findObjectByName_set objects i o b h g]
  obtain ⟨o1, ho1, hn⟩ := hl
  by_cases hi : i = findObjectByName objects g
  · rw [← hi] at ho1 ⊢
    rw [h] at ho1
    cases ho1
    refine ⟨{ o with meshDataAndPiplineBinded := b }, ?_, hn⟩
    rw [List.getElem?_set_self', h]
    rfl
  · exact ⟨o1, by rw [List.getElem?_set_ne hi]; exact ho1, hn⟩

/-- With the object of every instance to draw in the registry, the clearing loop runs
to its end. -/
theorem clear_ok :
    ∀ (l : List SgrObjectInstance) (objects : List SgrObject),
      (∀ inst ∈ l, inst.name ≠ "empty" → inst.needToDraw = true →
        ∃ o, objects[findObjectByName objects inst.geometry]? = some o ∧ o.name ≠ "empty") →
      ∃ objects', buildDrawingCommands.clear l objects = some (.sgrOK, objects') := by
  intro l
  induction l with
  | nil => intro objects _; exact ⟨objects, rfl⟩
  | cons head rest ih =>
    intro objects hlook
    have hrec := ih objects fun inst hm => hlook inst (List.mem_cons_of_mem _ hm)
    unfold buildDrawingCommands.clear
    split
    · exact hrec
    split
    · exact hrec
    rename_i he hd
    obtain ⟨o, ho, hne⟩ := hlook head (List.mem_cons_self _ _) (by simpa using he)
      (by simpa using hd)
    rw [ho]
    simp only [beq_iff_eq, hne, if_false]
    exact ih _ fun inst hm h1 h2 =>
      lookup_set_flag false ho inst.geometry (hlook inst (List.mem_cons_of_mem _ hm) h1 h2)

/-- The recording loop stops with `sgrMissingDescriptorSets` when the object and the
pipeline of every instance to draw are found and some instance to draw has no sets. -/
theorem record_missing_sets (s : SGR) (n : Nat) :
    ∀ (l : List SgrObjectInstance) (objects : List SgrObject),
      (∀ inst ∈ l, inst.name ≠ "empty" → inst.needToDraw = true →
        ∃ o, objects[findObjectByName objects inst.geometry]? = some o ∧ o.name ≠ "empty") →
      (∀ inst ∈ l, inst.name ≠ "empty" → inst.needToDraw = true →
        (getPipelineByName s.pipelines inst.geometry).name ≠ "empty") →
      (∃ inst ∈ l, inst.name ≠ "empty" ∧ inst.needToDraw = true
        ∧ (s.getDescriptorSetsByName inst.name).name = "empty") →
      ∃ objects' commands, buildDrawingCommands.record s n l objects
        = some (.sgrMissingDescriptorSets, objects', commands) := by
  intro l
  induction l with
  | nil => intro objects _ _ hmiss; obtain ⟨_, hm, _⟩ := hmiss; cases hm
  | cons head rest ih =>
    intro objects hlook hpipe hmiss
    have hrec : ∀ objects1 : List SgrObject,
        (∀ inst ∈ rest, inst.name ≠ "empty" → inst.needToDraw = true →
          ∃ o, objects1[findObjectByName objects1 inst.geometry]? = some o ∧ o.name ≠ "empty") →
        (∃ inst ∈ rest, inst.name ≠ "empty" ∧ inst.needToDraw = true
          ∧ (s.getDescriptorSetsByName inst.name).name = "empty") →
        ∃ objects' commands, buildDrawingCommands.record s n rest objects1
          = some (.sgrMissingDescriptorSets, objects', commands) :=
      fun objects1 h1 h2 =>
        ih objects1 h1 (fun inst hm => hpipe inst (List.mem_cons_of_mem _ hm)) h2
    have hlook' : ∀ inst ∈ rest, inst.name ≠ "empty" → inst.needToDraw = true →
        ∃ o, objects[findObjectByName objects inst.geometry]? = some o ∧ o.name ≠ "empty" :=
      fun inst hm => hlook inst (List.mem_cons_of_mem _ hm)
    have hskip : (head.name = "empty" ∨ head.needToDraw = false
          ∨ (s.getDescriptorSetsByName head.name).name ≠ "empty") →
        ∃ inst ∈ rest, inst.name ≠ "empty" ∧ inst.needToDraw = true
          ∧ (s.getDescriptorSetsByName inst.name).name = "empty" := by
      intro hc
      obtain ⟨inst, hm, h1, h2, h3⟩ := hmiss
      rcases List.mem_cons.mp hm with rfl | hm'
      · rcases hc with hc | hc | hc
        · exact absurd hc h1
        · rw [h2] at hc; cases hc
        · exact absurd h3 hc
      · exact ⟨inst, hm', h1, h2, h3⟩
    unfold buildDrawingCommands.record
    split
    · rename_i he
      exact hrec objects hlook' (hskip (Or.inl (by simpa using he)))
    split
    · rename_i he hd
      exact hrec objects hlook' (hskip (Or.inr (Or.inl (by simpa using hd))))
    rename_i he hd
    have hname : head.name ≠ "empty" := by simpa using he
    have hdraw : head.needToDraw = true := by simpa using hd
    obtain ⟨o, ho, hne⟩ := hlook head (List.mem_cons_self _ _) hname hdraw
    have hp := hpipe head (List.mem_cons_self _ _) hname hdraw
    rw [ho]
    simp only [beq_iff_eq, hne, hp, if_false]
    by_cases hsets : (s.getDescriptorSetsByName head.name).name = "empty"
    · simp only [hsets, if_true]
      exact ⟨_, _, rfl⟩
    · simp only [hsets, if_false]
      have hlook1 : ∀ inst ∈ rest, inst.name ≠ "empty" → inst.needToDraw = true →
          ∃ o1, (if (!o.meshDataAndPiplineBinded) = true then
                objects.set (findObjectByName objects head.geometry)
                  { o with meshDataAndPiplineBinded := true }
              else objects)[findObjectByName
                (if (!o.meshDataAndPiplineBinded) = true then
                  objects.set (findObjectByName objects head.geometry)
                    { o with meshDataAndPiplineBinded := true }
                else objects) inst.geometry]? = some o1 ∧ o1.name ≠ "empty" := by
        intro inst hm h1 h2
        split_ifs
        · exact lookup_set_flag true ho inst.geometry (hlook' inst hm h1 h2)
        · exact hlook' inst hm h1 h2
      obtain ⟨objects', commands, hr⟩ := hrec _ hlook1 (hskip (Or.inr (Or.inr hsets)))
      rw [hr]
      exact ⟨_, _, rfl⟩

theorem buildDrawingCommands_missing_sets (env : Env) (rebuild : Bool) (s : SGR)
    (hgeo : ∀ inst ∈ s.instances, inst.name ≠ "empty" → inst.needToDraw = true →
      ∃ o, s.objects[findObjectByName s.objects inst.geometry]? = some o ∧ o.name ≠ "empty")
    (hpipe : ∀ inst ∈ s.instances, inst.name ≠ "empty" → inst.needToDraw = true →
      (getPipelineByName s.pipelines inst.geometry).name ≠ "empty")
    (hmiss : ∃ inst ∈ s.instances, inst.name ≠ "empty" ∧ inst.needToDraw = true
      ∧ (s.getDescriptorSetsByName inst.name).name = "empty")
    (hpro : rebuild = true →
      env.initCommandBuffers = .sgrOK ∧ env.rebuildBeginCommandBuffers = .sgrOK) :
    ∃ out, buildDrawingCommands env rebuild s = some out
      ∧ out.code = .sgrMissingDescriptorSets
      ∧ out.state.commandsBuilded = s.commandsBuilded := by
  cases rebuild with
  | false =>
    obtain ⟨objects', commands, hr⟩ :=
      record_missing_sets s env.commandBuffersSize s.instances s.objects hgeo hpipe hmiss
    refine ⟨⟨.sgrMissingDescriptorSets, { s with objects := objects' }, [] ++ commands⟩, ?_,
      rfl, rfl⟩
    unfold buildDrawingCommands buildDrawingCommands.prologue
    simp only [Bool.false_eq_true, if_false, ne_eq, not_true_eq_false]
    rw [hr]
    simp
  | true =>
    obtain ⟨hinit, hbegin⟩ := hpro rfl
    obtain ⟨cleared, hc⟩ := clear_ok s.instances s.objects hgeo
    obtain ⟨hfind, _, hkeep⟩ := clear_keeps _ _ _ _ hc
    have hgeo' : ∀ inst ∈ s.instances, inst.name ≠ "empty" → inst.needToDraw = true →
        ∃ o, cleared[findObjectByName cleared inst.geometry]? = some o ∧ o.name ≠ "empty" := by
      intro inst hm h1 h2
      obtain ⟨o, ho, hne⟩ := hgeo inst hm h1 h2
      obtain ⟨o', ho', hn', _⟩ := hkeep _ o ho
      exact ⟨o', by rw [hfind]; exact ho', by rw [hn']; exact hne⟩
    obtain ⟨objects', commands, hr⟩ :=
      record_missing_sets { s with objects := cleared } env.commandBuffersSize s.instances
        cleared hgeo' hpipe hmiss
    refine ⟨⟨.sgrMissingDescriptorSets, { s with objects := objects' },
      [.freeCommandBuffers, .initCommandBuffers, .beginCommandBuffers] ++ commands⟩, ?_,
      rfl, rfl⟩
    unfold buildDrawingCommands buildDrawingCommands.prologue
    simp only [if_true, hinit, hbegin, ne_eq, not_true_eq_false, if_false, hc]
    rw [hr]
    simp

/-- C15: in a registry in which every instance to draw (not the sentinel, with
`needToDraw` set) has its object and its pipeline while one of them has no descriptor
sets, `buildDrawingCommands` (on a rebuild: once the command buffers are set up again)
returns `sgrMissingDescriptorSets` and leaves `commandsBuilded` as it was, and a
`drawFrame` call that runs the pass returns the same code with no acquisition, no
submit and no present. -/
theorem C15_missing_descriptor_sets (env : Env) (rebuild : Bool) (s : SGR)
    (hgeo : ∀ inst ∈ s.instances, inst.name ≠ "empty" → inst.needToDraw = true →
      ∃ o, s.objects[findObjectByName s.objects inst.geometry]? = some o ∧ o.name ≠ "empty")
    (hpipe : ∀ inst ∈ s.instances, inst.name ≠ "empty" → inst.needToDraw = true →
      (getPipelineByName s.pipelines inst.geometry).name ≠ "empty")
    (hmiss : ∃ inst ∈ s.instances, inst.name ≠ "empty" ∧ inst.needToDraw = true
      ∧ (s.getDescriptorSetsByName inst.name).name = "empty")
    (hinit : env.initCommandBuffers = .sgrOK)
    (hbegin : env.rebuildBeginCommandBuffers = .sgrOK) :
    (∃ out, buildDrawingCommands env rebuild s = some out
        ∧ out.code = .sgrMissingDescriptorSets
        ∧ out.state.commandsBuilded = s.commandsBuilded)
      ∧ (env.beginCommandBuffers = .sgrOK →
          (env.updateDescriptorSets = .sgrOK ∧ s.commandsBuilded = false
            ∨ env.updateDescriptorSets = .sgrDescriptorsSetsUpdated) →
          ∃ out, drawFrame env s = some out
            ∧ out.code = .sgrMissingDescriptorSets
            ∧ out.state.commandsBuilded = s.commandsBuilded
            ∧ (∃ r, Event.buildDrawingCommands r ∈ out.trace)
            ∧ ∀ e ∈ out.trace, e.isAcquire = false ∧ e.isSubmit = false
              ∧ e.isPresent = false) := by
  refine ⟨buildDrawingCommands_missing_sets env rebuild s hgeo hpipe hmiss
    fun _ => ⟨hinit, hbegin⟩, fun hb hupd => ?_⟩
  obtain ⟨out, hout, hcode, hflag⟩ :=
    buildDrawingCommands_missing_sets env (env.updateDescriptorSets == .sgrDescriptorsSetsUpdated)
      s hgeo hpipe hmiss fun _ => ⟨hinit, hbegin⟩
  have hpass := buildDrawingCommands_isPass hout
  have hbuild : drawFrame.build env env.updateDescriptorSets s
      = some { out with trace :=
          [.buildDrawingCommands (env.updateDescriptorSets == .sgrDescriptorsSetsUpdated)]
            ++ out.trace } := by
    unfold drawFrame.build
    have hcond : (!s.commandsBuilded || env.updateDescriptorSets == .sgrDescriptorsSetsUpdated)
        = true := by
      rcases hupd with ⟨_, h2⟩ | h2
      · rw [h2]; rfl
      · rw [h2]; simp
    rw [if_pos hcond, hout]
    rfl
  refine ⟨⟨.sgrMissingDescriptorSets, out.state,
    drawFrame.preamble
      ++ ([.buildDrawingCommands (env.updateDescriptorSets == .sgrDescriptorsSetsUpdated)]
        ++ out.trace)⟩, ?_, rfl, hflag,
    ⟨env.updateDescriptorSets == .sgrDescriptorsSetsUpdated,
      List.mem_append_right _ (List.mem_append_left _ (List.mem_singleton.mpr rfl))⟩, ?_⟩
  · unfold drawFrame drawFrame.run
    have hne : ¬ (env.updateDescriptorSets ≠ .sgrOK
        ∧ env.updateDescriptorSets ≠ .sgrDescriptorsSetsUpdated) := by
      rcases hupd with ⟨h1, _⟩ | h2
      · exact fun h => h.1 h1
      · exact fun h => h.2 h2
    rw [if_neg (not_not.mpr hb), if_neg hne, hbuild]
    simp only [hcode, ne_eq, reduceCtorEq, not_false_eq_true, if_true]
    rfl
  · intro e he
    simp only [drawFrame.preamble, List.mem_append, List.mem_cons, List.mem_singleton,
      List.not_mem_nil, or_false] at he
    rcases he with (rfl | rfl | rfl | rfl) | rfl | he
    · exact ⟨rfl, rfl, rfl⟩
    · exact ⟨rfl, rfl, rfl⟩
    · exact ⟨rfl, rfl, rfl⟩
    · exact ⟨rfl, rfl, rfl⟩
    · exact ⟨rfl, rfl, rfl⟩
    · have := hpass e he
      cases e <;> first | exact ⟨rfl, rfl, rfl⟩ | cases this

theorem C15_missing_descriptor_sets_witness :
    ∃ out, drawFrame calmEnv missingSetsScene = some out
      ∧ out.code = .sgrMissingDescriptorSets
      ∧ out.state.commandsBuilded = false :=
  ((C15_missing_descriptor_sets calmEnv false missingSetsScene
      (by
        intro inst hm _ hd
        simp only [missingSetsScene, sampleScene, List.mem_cons, List.mem_singleton,
          List.not_mem_nil, or_false] at hm
        rcases hm with rfl | rfl | rfl | rfl
        · cases hd
        · exact ⟨⟨"G1", 6, false⟩, by decide, by decide⟩
        · exact ⟨⟨"G1", 6, false⟩, by decide, by decide⟩
        · exact ⟨⟨"G2", 3, false⟩, by decide, by decide⟩)
      (by
        intro inst hm _ hd
        simp only [missingSetsScene, sampleScene, List.mem_cons, List.mem_singleton,
          List.not_mem_nil, or_false] at hm
        rcases hm with rfl | rfl | rfl | rfl
        · cases hd
        · decide
        · decide
        · decide)
      ⟨⟨"B", "G1", 64, true⟩, by decide, by decide, rfl, by decide⟩ rfl rfl).2 rfl
    (Or.inl ⟨rfl, rfl⟩)).imp fun _ h => ⟨h.1, h.2.1, h.2.2.1⟩

/-! ## Synchronisation objects -/

theorem resize_length (l : List Nat) (n value : Nat) : (resize l n value).length = n := by
  unfold resize
  simp only [List.length_append, List.length_take, List.length_replicate]
  omega

theorem resize_null (l : List Nat) (n : Nat) (h : ∀ f ∈ l, f = VK_NULL_HANDLE) :
    ∀ f ∈ resize l n VK_NULL_HANDLE, f = VK_NULL_HANDLE := by
  intro f hf
  unfold resize at hf
  rcases List.mem_append.mp hf with hf | hf
  · exact h f (List.mem_of_mem_take hf)
  · exact (List.mem_replicate.mp hf).2

/-- What the creation loop keeps and how its result relates to the calls it made. -/
theorem create_spec (env : SyncEnv) :
    ∀ (slots : List Nat) (s : SGR),
      ((initSyncObjects.create env slots s).2.1.imageAvailableSemaphores.length
          = s.imageAvailableSemaphores.length
        ∧ (initSyncObjects.create env slots s).2.1.renderFinishedSemaphores.length
          = s.renderFinishedSemaphores.length
        ∧ (initSyncObjects.create env slots s).2.1.inFlightFences.length
          = s.inFlightFences.length
        ∧ (initSyncObjects.create env slots s).2.1.imagesInFlight = s.imagesInFlight)
      ∧ (∀ e ∈ (initSyncObjects.create env slots s).2.2,
          e.signaled = decide (e.target = .inFlightFences))
      ∧ ((initSyncObjects.create env slots s).1 = .sgrOK
          ∨ (initSyncObjects.create env slots s).1 = .sgrInitSyncObjectsError)
      ∧ ((initSyncObjects.create env slots s).1 = .sgrInitSyncObjectsError
          ↔ ∃ e ∈ (initSyncObjects.create env slots s).2.2, e.result ≠ VK_SUCCESS)
      ∧ ((initSyncObjects.create env slots s).1 = .sgrInitSyncObjectsError
          ↔ ∃ i ∈ slots, (env.createImageAvailable i).1 ≠ VK_SUCCESS
            ∨ (env.createRenderFinished i).1 ≠ VK_SUCCESS
            ∨ (env.createFence i).1 ≠ VK_SUCCESS)
      ∧ (∀ A e B, (initSyncObjects.create env slots s).2.2 = A ++ e :: B →
          e.result ≠ VK_SUCCESS → B = [])
      ∧ ((initSyncObjects.create env slots s).1 = .sgrOK →
          (initSyncObjects.create env slots s).2.2.length = 3 * slots.length) := by
  intro slots
  induction slots with
  | nil =>
    intro s
    simp [initSyncObjects.create]
  | cons i slots ih =>
    intro s
    have hsingle : ∀ (x : SyncEvent) (A : List SyncEvent) (e : SyncEvent) (B : List SyncEvent),
        [x] = A ++ e :: B → e.result ≠ VK_SUCCESS → B = [] := by
      intro x A e B h _
      cases A with
      | nil => simp only [List.nil_append, List.cons.injEq] at h; exact h.2.symm
      | cons a A =>
        simp only [List.cons_append, List.cons.injEq] at h
        cases A <;> cases h.2
    have hcons : ∀ (x : SyncEvent) (t : List SyncEvent), x.result = VK_SUCCESS →
        (∀ A e B, t = A ++ e :: B → e.result ≠ VK_SUCCESS → B = []) →
        ∀ A e B, x :: t = A ++ e :: B → e.result ≠ VK_SUCCESS → B = [] := by
      intro x t hx ht A e B h hne
      cases A with
      | nil =>
        simp only [List.nil_append, List.cons.injEq] at h
        rw [← h.1] at hne
        exact absurd hx hne
      | cons a A =>
        simp only [List.cons_append, List.cons.injEq] at h
        exact ht A e B h.2 hne
    by_cases h1 : (env.createImageAvailable i).1 = VK_SUCCESS
    · by_cases h2 : (env.createRenderFinished i).1 = VK_SUCCESS
      · by_cases h3 : (env.createFence i).1 = VK_SUCCESS
        · obtain ⟨⟨k1, k2, k3, k4⟩, ksig, kcode, kev, kor, kstop, klen⟩ := ih
            { s with
              imageAvailableSemaphores :=
                s.imageAvailableSemaphores.set i (env.createImageAvailable i).2
              renderFinishedSemaphores :=
                s.renderFinishedSemaphores.set i (env.createRenderFinished i).2
              inFlightFences := s.inFlightFences.set i (env.createFence i).2 }
          have hcreate : initSyncObjects.create env (i :: slots) s
              = ((initSyncObjects.create env slots
                    { s with
                      imageAvailableSemaphores :=
                        s.imageAvailableSemaphores.set i (env.createImageAvailable i).2
                      renderFinishedSemaphores :=
                        s.renderFinishedSemaphores.set i (env.createRenderFinished i).2
                      inFlightFences := s.inFlightFences.set i (env.createFence i).2 }).1,
                  (initSyncObjects.create env slots
                    { s with
                      imageAvailableSemaphores :=
                        s.imageAvailableSemaphores.set i (env.createImageAvailable i).2
                      renderFinishedSemaphores :=
                        s.renderFinishedSemaphores.set i (env.createRenderFinished i).2
                      inFlightFences := s.inFlightFences.set i (env.createFence i).2 }).2.1,
                  ⟨.imageAvailableSemaphores, i, false, (env.createImageAvailable i).1⟩
                    :: ⟨.renderFinishedSemaphores, i, false, (env.createRenderFinished i).1⟩
                    :: ⟨.inFlightFences, i, true, (env.createFence i).1⟩
                    :: (initSyncObjects.create env slots
                      { s with
                        imageAvailableSemaphores :=
                          s.imageAvailableSemaphores.set i (env.createImageAvailable i).2
                        renderFinishedSemaphores :=
                          s.renderFinishedSemaphores.set i (env.createRenderFinished i).2
                        inFlightFences := s.inFlightFences.set i (env.createFence i).2 }).2.2) := by
            rw [initSyncObjects.create]
            simp only [ne_eq, h1, h2, h3, not_true_eq_false, if_false]
          rw [hcreate]
          refine ⟨⟨?_, ?_, ?_, ?_⟩, ?_, kcode, ?_, ?_, ?_, ?_⟩
          · show (initSyncObjects.create env slots _).2.1.imageAvailableSemaphores.length = _
            rw [k1]; simp
          · show (initSyncObjects.create env slots _).2.1.renderFinishedSemaphores.length = _
            rw [k2]; simp
          · show (initSyncObjects.create env slots _).2.1.inFlightFences.length = _
            rw [k3]; simp
          · show (initSyncObjects.create env slots _).2.1.imagesInFlight = _
            rw [k4]
          · intro e he
            simp only [List.mem_cons] at he
            rcases he with rfl | rfl | rfl | he
            · rfl
            · rfl
            · rfl
            · exact ksig e he
          · show (initSyncObjects.create env slots _).1 = _ ↔ _
            rw [kev]
            constructor
            · rintro ⟨e, he, hne⟩
              exact ⟨e, by simp [he], hne⟩
            · rintro ⟨e, he, hne⟩
              simp only [List.mem_cons] at he
              rcases he with rfl | rfl | rfl | he
              · exact absurd h1 hne
              · exact absurd h2 hne
              · exact absurd h3 hne
              · exact ⟨e, he, hne⟩
          · show (initSyncObjects.create env slots _).1 = _ ↔ _
            rw [kor]
            constructor
            · rintro ⟨j, hj, hne⟩
              exact ⟨j, List.mem_cons_of_mem _ hj, hne⟩
            · rintro ⟨j, hj, hne⟩
              rcases List.mem_cons.mp hj with rfl | hj
              · rcases hne with hne | hne | hne
                · exact absurd h1 hne
                · exact absurd h2 hne
                · exact absurd h3 hne
              · exact ⟨j, hj, hne⟩
          · exact hcons _ _ h1 (hcons _ _ h2 (hcons _ _ h3 kstop))
          · intro hok
            have := klen hok
            simp only [List.length_cons, this]
            omega
        · have hcreate : initSyncObjects.create env (i :: slots) s
              = (.sgrInitSyncObjectsError,
                  { s with
                    imageAvailableSemaphores :=
                      s.imageAvailableSemaphores.set i (env.createImageAvailable i).2
                    renderFinishedSemaphores :=
                      s.renderFinishedSemaphores.set i (env.createRenderFinished i).2 },
                  [⟨.imageAvailableSemaphores, i, false, (env.createImageAvailable i).1⟩,
                    ⟨.renderFinishedSemaphores, i, false, (env.createRenderFinished i).1⟩,
                    ⟨.inFlightFences, i, true, (env.createFence i).1⟩]) := by
            rw [initSyncObjects.create]
            simp only [ne_eq, h1, h2, h3, not_true_eq_false, not_false_eq_true, if_false,
              if_true]
          rw [hcreate]
          refine ⟨⟨by simp, by simp, rfl, rfl⟩, ?_, Or.inr rfl, ?_, ?_, ?_,
            fun h => by cases h⟩
          · intro e he
            simp only [List.mem_cons, List.mem_singleton, List.not_mem_nil, or_false] at he
            rcases he with rfl | rfl | rfl <;> rfl
          · exact ⟨fun _ => ⟨_, List.mem_cons_of_mem _ (List.mem_cons_of_mem _
              (List.mem_singleton.mpr rfl)), h3⟩, fun _ => rfl⟩
          · exact ⟨fun _ => ⟨i, List.mem_cons_self _ _, Or.inr (Or.inr h3)⟩, fun _ => rfl⟩
          · exact hcons _ _ h1 (hcons _ _ h2 (hsingle _))
      · have hcreate : initSyncObjects.create env (i :: slots) s
            = (.sgrInitSyncObjectsError,
                { s with
                  imageAvailableSemaphores :=
                    s.imageAvailableSemaphores.set i (env.createImageAvailable i).2 },
                [⟨.imageAvailableSemaphores, i, false, (env.createImageAvailable i).1⟩,
                  ⟨.renderFinishedSemaphores, i, false, (env.createRenderFinished i).1⟩]) := by
          rw [initSyncObjects.create]
          simp only [ne_eq, h1, h2, not_true_eq_false, not_false_eq_true, if_false, if_true]
        rw [hcreate]
        refine ⟨⟨by simp, rfl, rfl, rfl⟩, ?_, Or.inr rfl, ?_, ?_, ?_, fun h => by cases h⟩
        · intro e he
          simp only [List.mem_cons, List.mem_singleton, List.not_mem_nil, or_false] at he
          rcases he with rfl | rfl <;> rfl
        · exact ⟨fun _ => ⟨_, List.mem_cons_of_mem _ (List.mem_singleton.mpr rfl), h2⟩,
            fun _ => rfl⟩
        · exact ⟨fun _ => ⟨i, List.mem_cons_self _ _, Or.inr (Or.inl h2)⟩, fun _ => rfl⟩
        · exact hcons _ _ h1 (hsingle _)
    · have hcreate : initSyncObjects.create env (i :: slots) s
          = (.sgrInitSyncObjectsError, s,
              [⟨.imageAvailableSemaphores, i, false, (env.createImageAvailable i).1⟩]) := by
        rw [initSyncObjects.create]
        simp only [ne_eq, h1, not_false_eq_true, if_true]
      rw [hcreate]
      refine ⟨⟨rfl, rfl, rfl, rfl⟩, ?_, Or.inr rfl, ?_, ?_, ?_, fun h => by cases h⟩
      · intro e he
        simp only [List.mem_singleton] at he
        subst he
        rfl
      · exact ⟨fun _ => ⟨_, List.mem_singleton.mpr rfl, h1⟩, fun _ => rfl⟩
      · exact ⟨fun _ => ⟨i, List.mem_cons_self _ _, Or.inl h1⟩, fun _ => rfl⟩
      · exact hsingle _

theorem resize_getElem (l : List Nat) (n value : Nat) :
    (∀ j f, j < n → l[j]? = some f → (resize l n value)[j]? = some f)
      ∧ (∀ j, l.length ≤ j → j < n → (resize l n value)[j]? = some value) := by
  unfold resize
  refine ⟨fun j f hj hf => ?_, fun j hlen hj => ?_⟩
  · have hjl : j < l.length := by
      by_contra hcon
      rw [List.getElem?_eq_none (by omega)] at hf
      cases hf
    rw [List.getElem?_append_left (by simp only [List.length_take]; omega),
      List.getElem?_take_of_lt hj]
    exact hf
  · have hlt : (l.take n).length = l.length := by
      simp only [List.length_take]
      omega
    rw [List.getElem?_append_right (by omega), hlt, List.getElem?_replicate]
    simp only [ite_eq_left_iff, not_lt, reduceCtorEq, imp_false, not_le]
    omega

/-- C16 as stated fails: in the scene after its first frame, where image `0` is owned
by the fence `31`, `initSyncObjects` succeeds and leaves `imagesInFlight` as `[31, 0]`:
`resize` keeps the entries the vector already has, so not every entry is
`VK_NULL_HANDLE`. -/
theorem C16_owner_entries_kept :
    sceneAfterFirstFrame.imagesInFlight = [31, 0] ∧ sceneAfterFirstFrame.imageCount = 2
      ∧ (initSyncObjects calmSyncEnv sceneAfterFirstFrame).1 = .sgrOK
      ∧ (initSyncObjects calmSyncEnv sceneAfterFirstFrame).2.1.imagesInFlight = [31, 0]
      ∧ ¬ ∀ f ∈ (initSyncObjects calmSyncEnv sceneAfterFirstFrame).2.1.imagesInFlight,
          f = VK_NULL_HANDLE := by
  decide

/-- C16, amended: `initSyncObjects` leaves the three per-slot vectors with
`maxFrameInFlight` entries and `imagesInFlight` with `imageCount` entries: the entries
the vector already has are kept and the new ones are `VK_NULL_HANDLE`, so every entry is
`VK_NULL_HANDLE` when no image has an owner before the call (as in the freshly
constructed engine, whose vectors are empty); every fence creation asks for the
signaled state (and no semaphore creation does); the code is `sgrInitSyncObjectsError`
exactly when one of the creations it made failed, which is exactly when the device
fails some creation of some slot, and `sgrOK` otherwise, with all three creations of
every slot made; a failed creation is the last call made. -/
theorem C16_initSyncObjects (env : SyncEnv) (s : SGR) :
    (initSyncObjects env s).2.1.imageAvailableSemaphores.length = s.maxFrameInFlight
      ∧ (initSyncObjects env s).2.1.renderFinishedSemaphores.length = s.maxFrameInFlight
      ∧ (initSyncObjects env s).2.1.inFlightFences.length = s.maxFrameInFlight
      ∧ (initSyncObjects env s).2.1.imagesInFlight.length = s.imageCount
      ∧ (∀ j f, j < s.imageCount → s.imagesInFlight[j]? = some f →
          (initSyncObjects env s).2.1.imagesInFlight[j]? = some f)
      ∧ (∀ j, s.imagesInFlight.length ≤ j → j < s.imageCount →
          (initSyncObjects env s).2.1.imagesInFlight[j]? = some VK_NULL_HANDLE)
      ∧ ((∀ f ∈ s.imagesInFlight, f = VK_NULL_HANDLE) →
          ∀ f ∈ (initSyncObjects env s).2.1.imagesInFlight, f = VK_NULL_HANDLE)
      ∧ (∀ e ∈ (initSyncObjects env s).2.2,
          e.signaled = decide (e.target = .inFlightFences))
      ∧ ((initSyncObjects env s).1 = .sgrOK
          ∨ (initSyncObjects env s).1 = .sgrInitSyncObjectsError)
      ∧ ((initSyncObjects env s).1 = .sgrInitSyncObjectsError
          ↔ ∃ e ∈ (initSyncObjects env s).2.2, e.result ≠ VK_SUCCESS)
      ∧ ((initSyncObjects env s).1 = .sgrInitSyncObjectsError
          ↔ ∃ i, i < s.maxFrameInFlight ∧ ((env.createImageAvailable i).1 ≠ VK_SUCCESS
            ∨ (env.createRenderFinished i).1 ≠ VK_SUCCESS
            ∨ (env.createFence i).1 ≠ VK_SUCCESS))
      ∧ (∀ A e B, (initSyncObjects env s).2.2 = A ++ e :: B →
          e.result ≠ VK_SUCCESS → B = [])
      ∧ ((initSyncObjects env s).1 = .sgrOK →
          (initSyncObjects env s).2.2.length = 3 * s.maxFrameInFlight) := by
  obtain ⟨⟨k1, k2, k3, k4⟩, ksig, kcode, kev, kor, kstop, klen⟩ :=
    create_spec env (List.range s.maxFrameInFlight)
      { s with
        imageAvailableSemaphores :=
          resize s.imageAvailableSemaphores s.maxFrameInFlight VK_NULL_HANDLE
        renderFinishedSemaphores :=
          resize s.renderFinishedSemaphores s.maxFrameInFlight VK_NULL_HANDLE
        inFlightFences := resize s.inFlightFences s.maxFrameInFlight VK_NULL_HANDLE
        imagesInFlight := resize s.imagesInFlight s.imageCount VK_NULL_HANDLE }
  have himg : (initSyncObjects env s).2.1.imagesInFlight
      = resize s.imagesInFlight s.imageCount VK_NULL_HANDLE := k4
  refine ⟨?_, ?_, ?_, ?_, ?_, ?_, ?_, ksig, kcode, kev, ?_, kstop, ?_⟩
  · exact k1.trans (resize_length _ _ _)
  · exact k2.trans (resize_length _ _ _)
  · exact k3.trans (resize_length _ _ _)
  · rw [himg]
    exact resize_length _ _ _
  · rw [himg]
    exact (resize_getElem _ _ _).1
  · rw [himg]
    exact (resize_getElem _ _ _).2
  · intro hfresh
    rw [himg]
    exact resize_null _ _ hfresh
  · refine kor.trans ⟨?_, ?_⟩
    · rintro ⟨i, hi, h⟩
      exact ⟨i, List.mem_range.mp hi, h⟩
    · rintro ⟨i, hi, h⟩
      exact ⟨i, List.mem_range.mpr hi, h⟩
  · intro hok
    have := klen hok
    rw [List.length_range] at this
    exact this

theorem C16_initSyncObjects_witness :
    initSyncObjects failingSyncEnv freshScene
        = (.sgrInitSyncObjectsError,
            { freshScene with
              imageAvailableSemaphores := [11, 12]
              renderFinishedSemaphores := [21, 0]
              inFlightFences := [31, 0]
              imagesInFlight := [0, 0, 0] },
            [⟨.imageAvailableSemaphores, 0, false, 0⟩, ⟨.renderFinishedSemaphores, 0, false, 0⟩,
              ⟨.inFlightFences, 0, true, 0⟩, ⟨.imageAvailableSemaphores, 1, false, 0⟩,
              ⟨.renderFinishedSemaphores, 1, false, -1⟩])
      ∧ (initSyncObjects failingSyncEnv freshScene).2.1.imagesInFlight.length = 3 :=
  ⟨rfl, (C16_initSyncObjects failingSyncEnv freshScene).2.2.2.1⟩

/-! ## Where a new instance goes -/

/-- The index the search loop stops at is the highest one in its range with the
geometry. -/
theorem search_some_last (l : List SgrObjectInstance) (g : String) :
    ∀ (n i : Nat), addObjectInstance.search l g n = some i →
      ∀ j, i < j → j ≤ n → ∀ inst, l[j]? = some inst → inst.geometry ≠ g := by
  intro n
  induction n with
  | zero => intro i h; cases h
  | succ n ih =>
    intro i h j hij hjn inst hinst
    unfold addObjectInstance.search at h
    by_cases hj : j = n + 1
    · subst hj
      rw [hinst] at h
      simp only at h
      split_ifs at h with hg
      · simp only [Option.some.injEq] at h
        omega
      · simpa using hg
    · have hrec : addObjectInstance.search l g n = some i := by
        split at h
        · split_ifs at h
          · simp only [Option.some.injEq] at h
            omega
          · exact h
        · exact h
      exact ih i hrec j hij (by omega) inst hinst

/-- C18: `addObjectInstance` in a registry whose instances are the sentinel followed by
`rest`: when `findObjectByName` gives an object called "empty" for the geometry, the
result is `sgrUnknownGeometry` with the state as it was; otherwise the result is
`sgrOK`, the instances are the sentinel followed by `a`, the new instance and `b`,
where `rest = a ++ b` (one element more, the others in their order, the sentinel
first), no instance of `b` has the geometry, and `a` ends with an instance of the
geometry, or no instance of `rest` has the geometry and the new one is at the end. -/
theorem C18_addObjectInstance_position (newInstance : SgrObjectInstance)
    (name geometry : String) (alignment : Nat) (s : SGR)
    (sentinel : SgrObjectInstance) (rest : List SgrObjectInstance)
    (hobj : s.objects ≠ []) (hinst : s.instances = sentinel :: rest) :
    ∃ found, s.objects[findObjectByName s.objects geometry]? = some found
      ∧ (found.name = "empty" →
          addObjectInstance newInstance name geometry alignment s
            = some (.sgrUnknownGeometry, s))
      ∧ (found.name ≠ "empty" →
          ∃ a b, rest = a ++ b
            ∧ addObjectInstance newInstance name geometry alignment s
              = some (.sgrOK,
                  { s with
                    instances := sentinel
                      :: (a ++ ⟨name, geometry, alignment, newInstance.needToDraw⟩ :: b) })
            ∧ (sentinel
                :: (a ++ (⟨name, geometry, alignment, newInstance.needToDraw⟩
                  : SgrObjectInstance) :: b)).length = s.instances.length + 1
            ∧ (∀ x ∈ b, x.geometry ≠ geometry)
            ∧ ((∃ last, a.getLast? = some last ∧ last.geometry = geometry)
              ∨ (b = [] ∧ ∀ x ∈ a, x.geometry ≠ geometry))) := by
  obtain ⟨found, hfound⟩ := findObjectByName_lt hobj geometry
  refine ⟨found, hfound, fun hempty => ?_, fun hne => ?_⟩
  · unfold addObjectInstance
    rw [hfound]
    simp only [hempty, beq_self_eq_true, if_true]
  · have hlen : ∀ a b : List SgrObjectInstance, rest = a ++ b →
        (sentinel :: (a ++ (⟨name, geometry, alignment, newInstance.needToDraw⟩
          : SgrObjectInstance) :: b)).length = s.instances.length + 1 := by
      intro a b hab
      rw [hinst, hab]
      simp only [List.length_cons, List.length_append]
      omega
    have hlast : ∃ back, s.instances.getLast? = some back := by
      rw [hinst]
      cases hl : (sentinel :: rest).getLast? with
      | none => simp at hl
      | some b => exact ⟨b, rfl⟩
    obtain ⟨back, hback⟩ := hlast
    unfold addObjectInstance
    rw [hfound]
    simp only [beq_iff_eq, hne, if_false, hback]
    by_cases hsame : back.geometry = geometry
    · simp only [hsame, if_true]
      refine ⟨rest, [], (List.append_nil _).symm, ?_, hlen _ _ (List.append_nil _).symm,
        fun x hx => (by cases hx), ?_⟩
      · rw [hinst]
        rfl
      · cases rest with
        | nil => exact Or.inr ⟨rfl, fun x hx => by cases hx⟩
        | cons r rs =>
          rw [hinst, List.getLast?_cons_cons] at hback
          exact Or.inl ⟨back, hback, hsame⟩
    · simp only [hsame, if_false]
      cases hs : addObjectInstance.search s.instances geometry (s.instances.length - 1) with
      | some i =>
        obtain ⟨hi, inst, hget, hgeo⟩ := search_some _ _ _ _ hs
        have hafter := search_some_last _ _ _ _ hs
        obtain ⟨k, rfl⟩ : ∃ k, i = k + 1 := ⟨i - 1, by omega⟩
        rw [hinst] at hget
        simp only [List.getElem?_cons_succ] at hget
        have ht : rest.take (k + 1) = rest.take k ++ [inst] := by
          rw [List.take_succ, hget]
          rfl
        refine ⟨rest.take (k + 1), rest.drop (k + 1), (List.take_append_drop _ _).symm, ?_,
          hlen _ _ (List.take_append_drop _ _).symm, ?_, Or.inl ⟨inst, ?_, hgeo⟩⟩
        · show some (SgrErrCode.sgrOK,
            { s with instances := s.instances.take (k + 1 + 1) ++ _
                :: s.instances.drop (k + 1 + 1) }) = _
          rw [hinst]
          rfl
        · intro x hx
          obtain ⟨m, hm⟩ := List.mem_iff_getElem?.mp hx
          rw [List.getElem?_drop] at hm
          have hlt : k + 1 + m < rest.length := by
            by_contra hcon
            rw [List.getElem?_eq_none (by omega)] at hm
            cases hm
          exact hafter (k + 1 + m + 1) (by omega) (by rw [hinst]; simp only [List.length_cons]; omega)
            x (by rw [hinst]; simpa using hm)
        · rw [ht]
          simp
      | none =>
        refine ⟨rest, [], (List.append_nil _).symm, ?_, hlen _ _ (List.append_nil _).symm,
          fun x hx => (by cases hx), Or.inr ⟨rfl, ?_⟩⟩
        · show some (SgrErrCode.sgrOK, { s with instances := s.instances ++ _ }) = _
          rw [hinst]
          rfl
        · intro x hx
          obtain ⟨j, hj, hget⟩ := List.getElem_of_mem hx
          exact search_none _ _ _ hs (j + 1) (by omega) (by rw [hinst]; simp; omega) x
            (by rw [hinst]; simp [List.getElem?_eq_getElem hj, hget])

theorem C18_addObjectInstance_position_witness :
    addObjectInstance ⟨"", "", 0, false⟩ "D" "G1" 192 sampleScene
      = some (.sgrOK,
          { sampleScene with
            instances :=
              [⟨"empty", "", 0, false⟩, ⟨"A", "G1", 0, true⟩, ⟨"B", "G1", 64, true⟩,
                ⟨"D", "G1", 192, false⟩, ⟨"C", "G2", 128, true⟩] })
      ∧ ∃ found, sampleScene.objects[findObjectByName sampleScene.objects "G1"]? = some found :=
  ⟨rfl,
    (C18_addObjectInstance_position ⟨"", "", 0, false⟩ "D" "G1" 192 sampleScene
      ⟨"empty", "", 0, false⟩
      [⟨"A", "G1", 0, true⟩, ⟨"B", "G1", 64, true⟩, ⟨"C", "G2", 128, true⟩]
      (by decide) rfl).imp fun _ h => h.1⟩

/-! ## Marking an instance for drawing -/

theorem firstIndex_first {α : Type} (p : α → Bool) :
    ∀ (l : List α) (i : Nat), firstIndex p l = some i →
      ∀ j, j < i → ∀ x, l[j]? = some x → p x = false := by
  intro l
  induction l with
  | nil => intro i h; cases h
  | cons y ys ih =>
    intro i h j hj x hx
    unfold firstIndex at h
    split_ifs at h with hp
    · simp only [Option.some.injEq] at h
      omega
    · cases hrec : firstIndex p ys with
      | none => rw [hrec] at h; cases h
      | some k =>
        rw [hrec] at h
        simp only [Option.map_some', Option.some.injEq] at h
        subst h
        cases j with
        | zero =>
          simp only [List.getElem?_cons_zero, Option.some.injEq] at hx
          subst hx
          simpa using hp
        | succ j =>
          simp only [List.getElem?_cons_succ] at hx
          exact ih k hrec j (by omega) x hx

theorem firstIndex_none {α : Type} (p : α → Bool) :
    ∀ (l : List α), firstIndex p l = none → ∀ x ∈ l, p x = false := by
  intro l
  induction l with
  | nil => intro _ x hx; cases hx
  | cons y ys ih =>
    intro h x hx
    unfold firstIndex at h
    split_ifs at h with hp
    cases hrec : firstIndex p ys with
    | some k => rw [hrec] at h; cases h
    | none =>
      rcases List.mem_cons.mp hx with rfl | hx
      · simpa using hp
      · exact ih hrec x hx

/-- What `findInstanceByName` gives in a registry that starts with the sentinel. -/
theorem findInstanceByName_spec {instances rest : List SgrObjectInstance}
    {sentinel : SgrObjectInstance} (hinst : instances = sentinel :: rest)
    (hsent : sentinel.name = "empty") (name : String) :
    ∃ inst, instances[findInstanceByName instances name]? = some inst
      ∧ (inst.name ≠ "empty" ↔ name ≠ "empty" ∧ ∃ x ∈ instances, x.name = name)
      ∧ (inst.name ≠ "empty" → inst.name = name
          ∧ ∀ j, j < findInstanceByName instances name →
            ∀ x, instances[j]? = some x → x.name ≠ name) := by
  unfold findInstanceByName
  cases hrec : firstIndex (fun i => i.name == name) instances with
  | none =>
    have hnone := firstIndex_none _ _ hrec
    refine ⟨sentinel, by rw [hinst]; simp, ?_, fun h => absurd hsent h⟩
    constructor
    · intro h; exact absurd hsent h
    · rintro ⟨_, x, hx, hname⟩
      have := hnone x hx
      simp [hname] at this
  | some i =>
    obtain ⟨inst, hget, hp⟩ := firstIndex_lt _ _ _ hrec
    have hname : inst.name = name := by simpa using hp
    have hfirst := firstIndex_first _ _ _ hrec
    refine ⟨inst, hget, ?_, fun _ => ⟨hname, fun j hj x hx => ?_⟩⟩
    · rw [hname]
      constructor
      · intro h
        exact ⟨h, inst, List.getElem?_mem hget, hname⟩
      · exact fun h => h.1
    · have := hfirst j hj x hx
      simpa using this

/-- C19: `drawObject` in a registry whose instances start with the sentinel "empty" and
whose objects are not empty. `inst` is what `findInstanceByName` gives: it is not the
sentinel exactly when the name is not "empty" and some instance has it, and then it is
the first instance with the name. The result is `sgrOK`, with `needToDraw` set on that
instance, exactly when the instance, its object, its pipeline and its descriptor sets
are found; otherwise the code is the one of the first lookup that fails, in the order
instance, object, pipeline, descriptor sets, and the state is as it was. In every case
the objects, `commandsBuilded` and the other instances are as before. -/
theorem C19_drawObject (instanceName : String) (s : SGR)
    (sentinel : SgrObjectInstance) (rest : List SgrObjectInstance)
    (hobj : s.objects ≠ []) (hinst : s.instances = sentinel :: rest)
    (hsent : sentinel.name = "empty") :
    ∃ inst obj r,
      s.instances[findInstanceByName s.instances instanceName]? = some inst
        ∧ s.objects[findObjectByName s.objects inst.geometry]? = some obj
        ∧ drawObject instanceName s = some r
        ∧ (inst.name ≠ "empty" ↔ instanceName ≠ "empty" ∧ ∃ x ∈ s.instances, x.name = instanceName)
        ∧ (inst.name ≠ "empty" → inst.name = instanceName
            ∧ ∀ j, j < findInstanceByName s.instances instanceName →
              ∀ x, s.instances[j]? = some x → x.name ≠ instanceName)
        ∧ (r.1 = .sgrOK ↔ inst.name ≠ "empty" ∧ obj.name ≠ "empty"
            ∧ (getPipelineByName s.pipelines inst.geometry).name ≠ "empty"
            ∧ (s.getDescriptorSetsByName instanceName).name ≠ "empty")
        ∧ (r.1 = .sgrOK →
            r.2 = { s with
              instances :=
                s.instances.set (findInstanceByName s.instances instanceName)
                  { inst with needToDraw := true } })
        ∧ (inst.name = "empty" → r = (.sgrMissingInstance, s))
        ∧ (inst.name ≠ "empty" → obj.name = "empty" → r = (.sgrMissingObject, s))
        ∧ (inst.name ≠ "empty" → obj.name ≠ "empty" →
            (getPipelineByName s.pipelines inst.geometry).name = "empty" →
            r = (.sgrMissingPipeline, s))
        ∧ (inst.name ≠ "empty" → obj.name ≠ "empty" →
            (getPipelineByName s.pipelines inst.geometry).name ≠ "empty" →
            (s.getDescriptorSetsByName instanceName).name = "empty" →
            r = (.sgrMissingDescriptorSets, s))
        ∧ r.2.objects = s.objects
        ∧ r.2.commandsBuilded = s.commandsBuilded
        ∧ r.2.instances.length = s.instances.length
        ∧ (∀ j, j ≠ findInstanceByName s.instances instanceName →
            r.2.instances[j]? = s.instances[j]?)
        ∧ (∀ j x, r.2.instances[j]? = some x → x.needToDraw = true →
            j = findInstanceByName s.instances instanceName ∧ r.1 = .sgrOK
              ∨ s.instances[j]? = some x) := by
  obtain ⟨inst, hget, hiff, hfirst⟩ := findInstanceByName_spec hinst hsent instanceName
  obtain ⟨obj, hobjget⟩ := findObjectByName_lt hobj inst.geometry
  have hsame : ∀ code : SgrErrCode, code ≠ .sgrOK →
      drawObject instanceName s = some (code, s) →
      ∃ r, drawObject instanceName s = some r ∧ r = (code, s) ∧ r.1 ≠ .sgrOK
        ∧ r.2.objects = s.objects ∧ r.2.commandsBuilded = s.commandsBuilded
        ∧ r.2.instances.length = s.instances.length
        ∧ (∀ j, j ≠ findInstanceByName s.instances instanceName →
            r.2.instances[j]? = s.instances[j]?)
        ∧ (∀ j x, r.2.instances[j]? = some x → x.needToDraw = true →
            j = findInstanceByName s.instances instanceName ∧ r.1 = .sgrOK
              ∨ s.instances[j]? = some x) :=
    fun code hcode h => ⟨_, h, rfl, hcode, rfl, rfl, rfl, fun _ _ => rfl,
      fun _ _ hx _ => Or.inr hx⟩
  by_cases h1 : inst.name = "empty"
  · obtain ⟨r, hr, rfl, hne, k1, k2, k3, k4, k5⟩ := hsame .sgrMissingInstance (by decide) (by
      unfold drawObject
      rw [hget]
      simp only [h1, beq_self_eq_true, if_true])
    exact ⟨inst, obj, _, hget, hobjget, hr, hiff, hfirst,
      ⟨fun h => absurd h hne, fun h => absurd h1 h.1⟩, fun h => absurd h hne, fun _ => rfl,
      fun h => absurd h1 h, fun h => absurd h1 h, fun h => absurd h1 h, k1, k2, k3, k4, k5⟩
  by_cases h2 : obj.name = "empty"
  · obtain ⟨r, hr, rfl, hne, k1, k2, k3, k4, k5⟩ := hsame .sgrMissingObject (by decide) (by
      unfold drawObject
      rw [hget]
      simp only [beq_iff_eq, h1, if_false, hobjget, h2, if_true])
    exact ⟨inst, obj, _, hget, hobjget, hr, hiff, hfirst,
      ⟨fun h => absurd h hne, fun h => absurd h2 h.2.1⟩, fun h => absurd h hne,
      fun h => absurd h h1, fun _ _ => rfl, fun _ h => absurd h2 h, fun _ h => absurd h2 h,
      k1, k2, k3, k4, k5⟩
  by_cases h3 : (getPipelineByName s.pipelines inst.geometry).name = "empty"
  · obtain ⟨r, hr, rfl, hne, k1, k2, k3, k4, k5⟩ := hsame .sgrMissingPipeline (by decide) (by
      unfold drawObject
      rw [hget]
      simp only [beq_iff_eq, h1, if_false, hobjget, h2, h3, if_true])
    exact ⟨inst, obj, _, hget, hobjget, hr, hiff, hfirst,
      ⟨fun h => absurd h hne, fun h => absurd h3 h.2.2.1⟩, fun h => absurd h hne,
      fun h => absurd h h1, fun _ h => absurd h h2, fun _ _ _ => rfl,
      fun _ _ h => absurd h3 h, k1, k2, k3, k4, k5⟩
  by_cases h4 : (s.getDescriptorSetsByName instanceName).name = "empty"
  · obtain ⟨r, hr, rfl, hne, k1, k2, k3, k4, k5⟩ :=
      hsame .sgrMissingDescriptorSets (by decide) (by
        unfold drawObject
        rw [hget]
        simp only [beq_iff_eq, h1, if_false, hobjget, h2, h3, h4, if_true])
    exact ⟨inst, obj, _, hget, hobjget, hr, hiff, hfirst,
      ⟨fun h => absurd h hne, fun h => absurd h4 h.2.2.2⟩, fun h => absurd h hne,
      fun h => absurd h h1, fun _ h => absurd h h2, fun _ _ h => absurd h h3,
      fun _ _ _ _ => rfl, k1, k2, k3, k4, k5⟩
  · have hr : drawObject instanceName s
        = some (.sgrOK,
            { s with
              instances :=
                s.instances.set (findInstanceByName s.instances instanceName)
                  { inst with needToDraw := true } }) := by
      unfold drawObject
      rw [hget]
      simp only [beq_iff_eq, h1, if_false, hobjget, h2, h3, h4]
    refine ⟨inst, obj, _, hget, hobjget, hr, hiff, hfirst,
      ⟨fun _ => ⟨h1, h2, h3, h4⟩, fun _ => rfl⟩, fun _ => rfl, fun h => absurd h h1,
      fun _ h => absurd h h2, fun _ _ h => absurd h h3, fun _ _ _ h => absurd h h4,
      rfl, rfl, ?_, ?_, ?_⟩
    · simp
    · intro j hj
      exact List.getElem?_set_ne (Ne.symm hj)
    · intro j x hx _
      by_cases hj : j = findInstanceByName s.instances instanceName
      · exact Or.inl ⟨hj, rfl⟩
      · right
        rw [← hx]
        exact (List.getElem?_set_ne (Ne.symm hj)).symm

theorem C19_drawObject_witness :
    drawObject "B" unmarkedScene
        = some (.sgrOK,
            { unmarkedScene with
              instances :=
                [⟨"empty", "", 0, false⟩, ⟨"A", "G1", 0, false⟩, ⟨"B", "G1", 64, true⟩,
                  ⟨"C", "G2", 128, false⟩] })
      ∧ drawObject "Z" unmarkedScene = some (.sgrMissingInstance, unmarkedScene)
      ∧ ∃ r, drawObject "B" unmarkedScene = some r ∧ r.2.objects = unmarkedScene.objects :=
  ⟨rfl, rfl,
    (C19_drawObject "B" unmarkedScene ⟨"empty", "", 0, false⟩
      [⟨"A", "G1", 0, false⟩, ⟨"B", "G1", 64, false⟩, ⟨"C", "G2", 128, false⟩]
      (by decide) rfl rfl).elim fun _ h => h.elim fun _ h => h.imp fun _ h =>
        ⟨h.2.2.1, h.2.2.2.2.2.2.2.2.2.2.2.1⟩⟩

/-! ## Required instance extensions -/

theorem isSupported_iff (reqExt : String) :
    ∀ supported : List String,
      checkRequiredExtensionsSupport.isSupported reqExt supported = true ↔ reqExt ∈ supported := by
  intro supported
  induction supported with
  | nil => simp [checkRequiredExtensionsSupport.isSupported]
  | cons x xs ih =>
    unfold checkRequiredExtensionsSupport.isSupported
    by_cases h : reqExt = x
    · simp [h]
    · simp [h, ih]

/-- Without overflow `founded` grows by the number of required entries that are matched. -/
theorem count_eq (supported : List String) :
    ∀ (required : List String) (founded : Nat),
      founded + required.length < 4294967296 →
      checkRequiredExtensionsSupport.count supported required founded
        = founded + (required.filter
            (fun r => checkRequiredExtensionsSupport.isSupported r supported)).length := by
  intro required
  induction required with
  | nil => intro founded _; rfl
  | cons r rs ih =>
    intro founded h
    simp only [List.length_cons] at h
    unfold checkRequiredExtensionsSupport.count
    by_cases hm : checkRequiredExtensionsSupport.isSupported r supported = true
    · have hmod : (founded + 1) % 4294967296 = founded + 1 := Nat.mod_eq_of_lt (by omega)
      simp only [hm, if_true, hmod, List.filter_cons_of_pos, List.length_cons]
      rw [ih (founded + 1) (by omega)]
      omega
    · simp only [hm, Bool.false_eq_true, if_false]
      rw [ih founded (by omega)]
      have hneg : List.filter (fun r => checkRequiredExtensionsSupport.isSupported r supported)
          (r :: rs)
          = List.filter (fun r => checkRequiredExtensionsSupport.isSupported r supported) rs :=
        List.filter_cons_of_neg hm
      rw [hneg]

theorem filter_length_all {α : Type} (p : α → Bool) :
    ∀ l : List α, (l.filter p).length = l.length ↔ ∀ x ∈ l, p x = true := by
  intro l
  induction l with
  | nil => simp
  | cons x xs ih =>
    by_cases hp : p x = true
    · simp only [List.filter_cons_of_pos hp, List.length_cons, Nat.add_right_cancel_iff, ih,
        List.mem_cons, forall_eq_or_imp, hp, true_and]
    · rw [List.filter_cons_of_neg hp]
      have hle := List.length_filter_le p xs
      constructor
      · intro h
        simp only [List.length_cons] at h
        omega
      · intro h
        exact absurd (h x (List.mem_cons_self _ _)) hp

/-- C20: with fewer than 2^32 required entries, `checkRequiredExtensionsSupport` returns
`sgrOK` exactly when the first enumeration call returns `VK_SUCCESS` with a count
above zero and every entry of the required list is the name of an entry of the vector
of supported extensions; in every other case it returns `sgrExtensionNotSupport`, so
also for an empty required list when the count is zero. -/
theorem C20_required_extensions (env : ExtensionEnv) (required : List String)
    (hlen : required.length < 4294967296) :
    (checkRequiredExtensionsSupport env required = .sgrOK
        ↔ env.countResult = VK_SUCCESS ∧ 0 < env.count
          ∧ ∀ r ∈ required, r ∈ supportedExtensions env)
      ∧ (checkRequiredExtensionsSupport env required ≠ .sgrOK →
          checkRequiredExtensionsSupport env required = .sgrExtensionNotSupport)
      ∧ (env.count = 0 → checkRequiredExtensionsSupport env [] = .sgrExtensionNotSupport)
      ∧ (env.names.length = env.count → supportedExtensions env = env.names) := by
  have hcount := count_eq (supportedExtensions env) required 0 (by omega)
  have hall := filter_length_all
    (fun r => checkRequiredExtensionsSupport.isSupported r (supportedExtensions env)) required
  refine ⟨?_, ?_, ?_, ?_⟩
  · unfold checkRequiredExtensionsSupport
    by_cases h1 : env.countResult ≠ VK_SUCCESS ∨ env.count ≤ 0
    · rw [if_pos h1]
      constructor
      · intro h; cases h
      · rintro ⟨h2, h3, _⟩
        rcases h1 with h1 | h1
        · exact absurd h2 h1
        · omega
    · rw [if_neg h1, hcount, Nat.zero_add]
      have h1' : env.countResult = VK_SUCCESS ∧ 0 < env.count := by
        constructor
        · by_contra hc; exact h1 (Or.inl hc)
        · by_contra hc; exact h1 (Or.inr (by omega))
      constructor
      · intro h
        split_ifs at h with hf
        refine ⟨h1'.1, h1'.2, fun r hr => ?_⟩
        exact (isSupported_iff r _).mp (hall.mp hf r hr)
      · rintro ⟨_, _, h⟩
        rw [if_pos (hall.mpr fun r hr => (isSupported_iff r _).mpr (h r hr))]
  · intro h
    unfold checkRequiredExtensionsSupport at h ⊢
    split_ifs at h ⊢ <;> first | rfl | exact absurd rfl h
  · intro h
    unfold checkRequiredExtensionsSupport
    rw [if_pos (Or.inr (by omega))]
  · intro h
    unfold supportedExtensions
    rw [← h, List.take_length, Nat.sub_self]
    simp

theorem C20_required_extensions_witness :
    checkRequiredExtensionsSupport sampleExtensionEnv
        ["VK_KHR_surface", "VK_EXT_debug_utils", "VK_KHR_surface"] = .sgrOK
      ∧ checkRequiredExtensionsSupport sampleExtensionEnv ["VK_KHR_surface", "VK_KHR_win32"]
        = .sgrExtensionNotSupport :=
  ⟨(C20_required_extensions sampleExtensionEnv
      ["VK_KHR_surface", "VK_EXT_debug_utils", "VK_KHR_surface"] (by decide)).1.mpr
      ⟨rfl, by decide, by decide⟩,
    by decide⟩

/-! ## The passes of reachable states -/

/-- A pass in a registry where the lookups of every instance to draw succeed and, when
the pass does not clear the flags itself, no object to draw has its flag set: either it
stops before the loops with the state as it was, or it runs to its end and records the
expected sequence. -/
theorem pass_runs {env : Env} {rebuild : Bool} {s : SGR} {out : Outcome}
    (hlook : ∀ inst ∈ s.instances, inst.needToDraw = true → lookupsSucceed s inst)
    (hflags : rebuild = false →
      ∀ o ∈ s.objects, o.name ≠ "empty" → o.meshDataAndPiplineBinded = false)
    (h : buildDrawingCommands env rebuild s = some out) :
    (out.code ≠ .sgrOK ∧ out.state = s ∧ ∀ e ∈ out.trace, e.isCommand = false)
      ∨ (out.code = .sgrOK ∧ out.state.commandsBuilded = true
        ∧ out.state.objects.map (·.name) = s.objects.map (·.name)
        ∧ ∃ pre, (∀ e ∈ pre, e.isCommand = false)
          ∧ out.trace = pre ++ expectedCommands (indicesCountOf s.objects)
              env.commandBuffersSize (s.instances.filter (·.needToDraw)) []) := by
  have hthree : ∀ e ∈ [Event.freeCommandBuffers, Event.initCommandBuffers,
      Event.beginCommandBuffers], e.isCommand = false := by
    intro e he
    simp only [List.mem_cons, List.mem_singleton, List.not_mem_nil, or_false] at he
    rcases he with rfl | rfl | rfl <;> rfl
  cases rebuild with
  | false =>
    obtain ⟨objects', hrec⟩ := record_expected s (indicesCountOf s.objects)
      env.commandBuffersSize s.instances s.objects [] fun inst hm hd => by
        obtain ⟨h1, ⟨o, ho, hn, hne⟩, h2, h3⟩ := hlook inst hm hd
        refine ⟨h1, h2, h3, o, ho, hn, hne, ?_, ?_⟩
        · simp [indicesCountOf, ho]
        · simp [hflags rfl o (List.getElem?_mem ho) hne]
    right
    unfold buildDrawingCommands buildDrawingCommands.prologue at h
    simp only [Bool.false_eq_true, if_false, ne_eq, not_true_eq_false, hrec,
      Option.some.injEq] at h
    subst h
    exact ⟨rfl, rfl, record_names _ _ _ _ _ _ _ hrec, [], fun _ he => (by cases he), rfl⟩
  | true =>
    by_cases hinit : env.initCommandBuffers = .sgrOK
    · by_cases hbegin : env.rebuildBeginCommandBuffers = .sgrOK
      · obtain ⟨cleared, hc⟩ := clear_ok s.instances s.objects fun inst hm _ hd => by
          obtain ⟨_, ⟨o, ho, _, hne⟩, _⟩ := hlook inst hm hd
          exact ⟨o, ho, hne⟩
        obtain ⟨hfind, _, hkeep⟩ := clear_keeps _ _ _ _ hc
        have hcleared := clear_cleared _ _ _ hc
        obtain ⟨objects', hrec⟩ := record_expected { s with objects := cleared }
          (indicesCountOf s.objects) env.commandBuffersSize s.instances cleared []
          fun inst hm hd => by
            obtain ⟨h1, ⟨o, ho, hn, hne⟩, h2, h3⟩ := hlook inst hm hd
            obtain ⟨o', ho', hn', hi', _⟩ := hkeep _ o ho
            obtain ⟨o2, ho2, hf2⟩ := hcleared inst hm h1 hd
            rw [← hfind] at ho'
            rw [ho'] at ho2
            cases ho2
            refine ⟨h1, h2, h3, o', ho', hn'.trans hn, by rw [hn']; exact hne, ?_, ?_⟩
            · rw [hi']
              simp [indicesCountOf, ho]
            · simp [hf2]
        right
        unfold buildDrawingCommands buildDrawingCommands.prologue at h
        simp only [if_true, hinit, hbegin, ne_eq, not_true_eq_false, if_false, hc, hrec,
          Option.some.injEq] at h
        subst h
        refine ⟨rfl, rfl, ?_, _, hthree, rfl⟩
        show objects'.map (·.name) = _
        rw [record_names _ _ _ _ _ _ _ hrec, clear_names _ _ _ _ hc]
      · left
        unfold buildDrawingCommands buildDrawingCommands.prologue at h
        simp only [if_true, hinit, hbegin, ne_eq, not_true_eq_false, if_false,
          not_false_eq_true, Option.some.injEq] at h
        subst h
        exact ⟨hbegin, rfl, hthree⟩
    · left
      unfold buildDrawingCommands buildDrawingCommands.prologue at h
      simp only [if_true, hinit, ne_eq, not_false_eq_true, reduceCtorEq,
        Option.some.injEq] at h
      subst h
      refine ⟨fun hc => (by cases hc), rfl, fun e he => ?_⟩
      simp only [List.mem_cons, List.mem_singleton, List.not_mem_nil, or_false] at he
      rcases he with rfl | rfl <;> rfl

/-! ## What is bound at the draws of the expected sequence -/

theorem bindsAfter_append (A B : List Event) (b : BindState) :
    bindsAfter (A ++ B) b = bindsAfter B (bindsAfter A b) := by
  unfold bindsAfter
  rw [List.foldl_append]

theorem boundAtDraws_append :
    ∀ (A B : List Event) (b : BindState),
      boundAtDraws (A ++ B) b = boundAtDraws A b ++ boundAtDraws B (bindsAfter A b) := by
  intro A
  induction A with
  | nil => intro B b; rfl
  | cons e es ih =>
    intro B b
    cases e <;> first | exact ih B _ | exact congrArg (List.cons b) (ih B b)

theorem isBindOrDraw_of_not_command {e : Event} (h : e.isCommand = false) :
    e.isBindOrDraw = false := by
  cases e <;> first | rfl | cases h

/-- Commands other than the three binds and the draw leave what is bound and add no
draw. -/
theorem boundAtDraws_neutral :
    ∀ (l : List Event) (b : BindState), (∀ e ∈ l, e.isBindOrDraw = false) →
      boundAtDraws l b = [] ∧ bindsAfter l b = b := by
  intro l
  induction l with
  | nil => intro b _; exact ⟨rfl, rfl⟩
  | cons e es ih =>
    intro b h
    have he := h e (List.mem_cons_self _ _)
    have hes := ih b fun x hx => h x (List.mem_cons_of_mem _ hx)
    cases e <;> first | exact hes | cases he

theorem boundAtDraws_drawCommands (n : Nat) (inst : SgrObjectInstance) (count : Nat)
    (b : BindState) :
    boundAtDraws (drawCommands n inst count) b = [b]
      ∧ bindsAfter (drawCommands n inst count) b = b := by
  unfold drawCommands
  obtain ⟨h1, h2⟩ := boundAtDraws_neutral
    ((List.range n).map
      (fun i => Event.bindDescriptorSet (i % 256) inst.name inst.uboDataAlignment)) b
    (by
      intro e he
      obtain ⟨i, _, rfl⟩ := List.mem_map.mp he
      rfl)
  rw [boundAtDraws_append, bindsAfter_append, h1, h2]
  exact ⟨rfl, rfl⟩

theorem grouped_last {pre : List SgrObjectInstance} {inst y : SgrObjectInstance}
    {rest : List SgrObjectInstance}
    (hg : Grouped ((pre ++ inst :: rest).map (·.geometry)))
    (hlast : pre.getLast? = some y) (hmem : inst.geometry ∈ pre.map (·.geometry)) :
    y.geometry = inst.geometry := by
  obtain ⟨pre0, rfl⟩ := List.getLast?_eq_some_iff.mp hlast
  simp only [List.map_append, List.map_cons, List.map_nil, List.mem_append,
    List.mem_singleton] at hmem
  rcases hmem with hmem | hmem
  · apply hg inst.geometry y.geometry
    simp only [List.map_append, List.map_cons, List.map_nil, List.append_assoc,
      List.singleton_append]
    have h1 : [inst.geometry].Sublist (pre0.map (·.geometry)) :=
      List.singleton_sublist.mpr hmem
    have h2 : [y.geometry, inst.geometry].Sublist
        (y.geometry :: inst.geometry :: rest.map (·.geometry)) :=
      List.Sublist.cons₂ _ (List.Sublist.cons₂ _ (List.nil_sublist _))
    exact List.Sublist.append h1 h2
  · exact hmem.symm

/-- In the expected sequence over instances grouped by geometry, the geometry of each
instance is bound at its draw. -/
theorem boundAtDraws_expected (indicesCount : String → Nat) (n : Nat) :
    ∀ (l pre : List SgrObjectInstance) (bound : List String) (b : BindState),
      (∀ g, g ∈ bound ↔ g ∈ pre.map (·.geometry)) →
      (∀ y, pre.getLast? = some y → b = BindState.of y.geometry) →
      Grouped ((pre ++ l).map (·.geometry)) →
      boundAtDraws (expectedCommands indicesCount n l bound) b
        = l.map fun inst => BindState.of inst.geometry := by
  intro l
  induction l with
  | nil => intro _ _ _ _ _ _; rfl
  | cons inst rest ih =>
    intro pre bound b hbound hb hg
    have hnext : boundAtDraws
        (expectedCommands indicesCount n rest (inst.geometry :: bound))
        (BindState.of inst.geometry) = rest.map fun i => BindState.of i.geometry := by
      apply ih (pre ++ [inst]) (inst.geometry :: bound) (BindState.of inst.geometry)
      · intro g
        simp only [List.mem_cons, hbound g, List.map_append, List.map_cons, List.map_nil,
          List.mem_append, List.mem_singleton, List.not_mem_nil, or_false]
        exact or_comm
      · intro y hy
        have hlast : (pre ++ [inst]).getLast? = some inst := by simp
        rw [hlast] at hy
        cases hy
        rfl
      · simpa using hg
    unfold expectedCommands
    have d1 := boundAtDraws_drawCommands n inst (indicesCount inst.geometry)
    by_cases hin : inst.geometry ∈ bound
    · have hmem := (hbound _).mp hin
      have hne : pre ≠ [] := by
        intro hnil
        rw [hnil] at hmem
        cases hmem
      obtain ⟨y, hy⟩ : ∃ y, pre.getLast? = some y := by
        cases hl : pre.getLast? with
        | none => exact absurd (List.getLast?_eq_none_iff.mp hl) hne
        | some y => exact ⟨y, rfl⟩
      have hbof : b = BindState.of inst.geometry := by
        rw [hb y hy, grouped_last hg hy hmem]
      simp only [hin, if_true, List.nil_append]
      rw [boundAtDraws_append, (d1 b).1, (d1 b).2, List.map_cons, hbof, hnext]
      rfl
    · simp only [hin, if_false]
      rw [List.append_assoc, boundAtDraws_append, boundAtDraws_append]
      have hbind : boundAtDraws (bindCommands inst.geometry) b = []
          ∧ bindsAfter (bindCommands inst.geometry) b = BindState.of inst.geometry :=
        ⟨rfl, rfl⟩
      rw [hbind.1, hbind.2, (d1 _).1, (d1 _).2, List.map_cons, hnext]
      rfl

/-! ## The reachable states -/

theorem firstIndex_append {α : Type} (p : α → Bool) :
    ∀ (l l' : List α) (i : Nat), firstIndex p l = some i → firstIndex p (l ++ l') = some i := by
  intro l
  induction l with
  | nil => intro _ i h; cases h
  | cons x xs ih =>
    intro l' i h
    simp only [List.cons_append, firstIndex] at h ⊢
    split_ifs at h ⊢ with hp
    · exact h
    · cases hrec : firstIndex p xs with
      | none => rw [hrec] at h; cases h
      | some k =>
        rw [hrec] at h
        have hk := ih l' k hrec
        show Option.map _ (firstIndex p (xs ++ l')) = some i
        rw [hk]
        exact h

/-- An object that is found under its name is still found when objects are added. -/
theorem findObjectByName_append {objects : List SgrObject} {g : String} {o : SgrObject}
    (ho : objects[findObjectByName objects g]? = some o) (hn : o.name = g)
    (more : List SgrObject) :
    (objects ++ more)[findObjectByName (objects ++ more) g]? = some o := by
  unfold findObjectByName at ho ⊢
  cases hrec : firstIndex (fun o => o.name == g) objects with
  | none =>
    have := firstIndex_none _ _ hrec o (List.getElem?_mem ho)
    simp [hn] at this
  | some i =>
    rw [hrec] at ho
    rw [firstIndex_append _ _ more i hrec]
    simp only [Option.getD_some] at ho ⊢
    have hi : i < objects.length := by
      by_contra hcon
      rw [List.getElem?_eq_none (by omega)] at ho
      cases ho
    rw [List.getElem?_append_left hi]
    exact ho

theorem getPipelineByName_append {pipelines : List SgrPipeline} {g : String}
    (h : (getPipelineByName pipelines g).name ≠ "empty") (more : List SgrPipeline) :
    (getPipelineByName (pipelines ++ more) g).name ≠ "empty" := by
  unfold getPipelineByName at h ⊢
  rw [List.find?_append]
  cases hf : pipelines.find? (fun p => p.name == g) with
  | none =>
    rw [hf] at h
    exact absurd rfl h
  | some p =>
    rw [hf] at h
    simpa using h

/-- With the sentinel object in front, an object that is found and is not called
"empty" has the name that was looked up. -/
theorem findObjectByName_name {objects : List SgrObject} {g : String} {o0 o : SgrObject}
    (h0 : objects[0]? = some o0) (hempty : o0.name = "empty")
    (ho : objects[findObjectByName objects g]? = some o) (hne : o.name ≠ "empty") :
    o.name = g := by
  unfold findObjectByName at ho
  cases hrec : firstIndex (fun o => o.name == g) objects with
  | none =>
    rw [hrec] at ho
    simp only [Option.getD_none] at ho
    rw [h0] at ho
    cases ho
    exact absurd hempty hne
  | some i =>
    rw [hrec] at ho
    simp only [Option.getD_some] at ho
    obtain ⟨x, hx, hp⟩ := firstIndex_lt _ _ _ hrec
    rw [hx] at ho
    cases ho
    simpa using hp

theorem lookupsSucceed_names {s s' : SGR} {inst : SgrObjectInstance}
    (hobj : s'.objects.map (·.name) = s.objects.map (·.name))
    (hp : s'.pipelines = s.pipelines)
    (hd : s'.getDescriptorSetsByName = s.getDescriptorSetsByName)
    (h : lookupsSucceed s inst) : lookupsSucceed s' inst := by
  obtain ⟨h1, ⟨o, ho, hn, hne⟩, h2, h3⟩ := h
  obtain ⟨o', ho', hn'⟩ := getElem_names hobj ho
  refine ⟨h1, ⟨o', ?_, hn'.trans hn, by rw [hn']; exact hne⟩, by rw [hp]; exact h2,
    by rw [hd]; exact h3⟩
  rw [findObjectByName_names hobj]
  exact ho'

/-- The invariant carries over to a state with the same instances, pipelines and
descriptor sets and the same object names. -/
theorem DrawInv.transfer {sentinel : SgrObjectInstance} {s s' : SGR}
    (h : DrawInv sentinel s)
    (hobj : s'.objects.map (·.name) = s.objects.map (·.name))
    (hinst : s'.instances = s.instances) (hp : s'.pipelines = s.pipelines)
    (hd : s'.getDescriptorSetsByName = s.getDescriptorSetsByName)
    (hflags : s'.commandsBuilded = false →
      ∀ o ∈ s'.objects, o.name ≠ "empty" → o.meshDataAndPiplineBinded = false) :
    DrawInv sentinel s' := by
  obtain ⟨⟨hne, rest, hrest, hgr, hall⟩, ⟨o0, h0, hempty⟩, hlook, _⟩ := h
  refine ⟨⟨?_, rest, hinst.trans hrest, hgr, hall⟩, ?_, ?_, hflags⟩
  · intro hnil
    rw [hnil] at hobj
    exact hne (List.map_eq_nil_iff.mp hobj.symm)
  · obtain ⟨o', ho', hn'⟩ := getElem_names hobj h0
    exact ⟨o', ho', hn'.trans hempty⟩
  · intro inst hm hd'
    rw [hinst] at hm
    exact lookupsSucceed_names hobj hp hd (hlook inst hm hd')

theorem ctor_drawInv (emptyObject : SgrObject) (emptyInstance : SgrObjectInstance) (init : SGR)
    (hdraw : emptyInstance.needToDraw = false) :
    DrawInv { emptyInstance with name := "empty" } (SGR.ctor emptyObject emptyInstance init) := by
  refine ⟨ctor_inv emptyObject emptyInstance init _, ⟨_, rfl, rfl⟩, ?_, ?_⟩
  · intro inst hm hd
    simp only [SGR.ctor, List.mem_singleton] at hm
    subst hm
    rw [show ({ emptyInstance with name := "empty" } : SgrObjectInstance).needToDraw
      = emptyInstance.needToDraw from rfl, hdraw] at hd
    cases hd
  · intro _ o hm hne
    simp only [SGR.ctor, List.mem_singleton] at hm
    subst hm
    exact absurd rfl hne

theorem addNewObjectGeometry_drawInv {sentinel : SgrObjectInstance} {s : SGR}
    (newObject : SgrObject) (hflag : newObject.meshDataAndPiplineBinded = false)
    (env : GeometryEnv) (name : String) (indices : Nat) (h : DrawInv sentinel s) :
    DrawInv sentinel (addNewObjectGeometry newObject env name indices s).2 := by
  have hreg := addNewObjectGeometry_inv newObject env name indices h.1
  have hcases : (addNewObjectGeometry newObject env name indices s).2 = s
      ∨ ∃ more, (addNewObjectGeometry newObject env name indices s).2
        = { s with
            pipelines := s.pipelines ++ more
            objects := s.objects
              ++ [{ newObject with name := name, indicesCount := indices % 65536 }] } := by
    unfold addNewObjectGeometry
    split_ifs
    · exact Or.inl rfl
    · exact Or.inl rfl
    · exact Or.inl rfl
    · exact Or.inl rfl
    · exact Or.inr ⟨[{ name := name }], rfl⟩
    · exact Or.inr ⟨[], by simp⟩
  rcases hcases with hsame | ⟨more, hnew⟩
  · rw [hsame]
    exact h
  obtain ⟨⟨hne, _⟩, ⟨o0, h0, hempty⟩, hlook, hflags⟩ := h
  refine ⟨hreg, ?_, ?_, ?_⟩
  · rw [hnew]
    refine ⟨o0, ?_, hempty⟩
    show (s.objects ++ _)[0]? = some o0
    rw [List.getElem?_append_left (List.length_pos.mpr hne)]
    exact h0
  · rw [hnew]
    intro inst hm hd
    obtain ⟨h1, ⟨o, ho, hn, hne'⟩, h2, h3⟩ := hlook inst hm hd
    exact ⟨h1, ⟨o, findObjectByName_append ho hn _, hn, hne'⟩,
      getPipelineByName_append h2 more, h3⟩
  · rw [hnew]
    intro hc o hm hno
    rcases List.mem_append.mp hm with hm | hm
    · exact hflags hc o hm hno
    · rw [List.mem_singleton.mp hm]
      exact hflag

theorem addObjectInstance_keeps {newInstance : SgrObjectInstance} {name geometry : String}
    {alignment : Nat} {s next : SGR} {code : SgrErrCode}
    (h : addObjectInstance newInstance name geometry alignment s = some (code, next)) :
    ∃ l, next = { s with instances := l }
      ∧ ∀ x ∈ l, x ∈ s.instances ∨ x.needToDraw = newInstance.needToDraw := by
  have hpush : ∀ x ∈ s.instances
      ++ [(⟨name, geometry, alignment, newInstance.needToDraw⟩ : SgrObjectInstance)],
      x ∈ s.instances ∨ x.needToDraw = newInstance.needToDraw := by
    intro x hx
    rcases List.mem_append.mp hx with hx | hx
    · exact Or.inl hx
    · rw [List.mem_singleton.mp hx]
      exact Or.inr rfl
  unfold addObjectInstance at h
  split at h
  · cases h
  dsimp only at h
  split_ifs at h
  · simp only [Option.some.injEq, Prod.mk.injEq] at h
    exact ⟨s.instances, h.2.symm, fun x hx => Or.inl hx⟩
  split at h
  · cases h
  split_ifs at h
  · simp only [Option.some.injEq, Prod.mk.injEq] at h
    exact ⟨_, h.2.symm, hpush⟩
  split at h
  · simp only [Option.some.injEq, Prod.mk.injEq] at h
    refine ⟨_, h.2.symm, fun x hx => ?_⟩
    rcases mem_insert_after hx with rfl | hx
    · exact Or.inr rfl
    · exact Or.inl hx
  · simp only [Option.some.injEq, Prod.mk.injEq] at h
    exact ⟨_, h.2.symm, hpush⟩

theorem addObjectInstance_drawInv {sentinel : SgrObjectInstance} {s next : SGR}
    {code : SgrErrCode} (newInstance : SgrObjectInstance)
    (hdraw : newInstance.needToDraw = false) (name geometry : String) (alignment : Nat)
    (h : DrawInv sentinel s)
    (hnext : addObjectInstance newInstance name geometry alignment s = some (code, next)) :
    DrawInv sentinel next := by
  obtain ⟨code', next', hsome, hreg⟩ :=
    addObjectInstance_inv newInstance name geometry alignment trivial h.1
  rw [hnext] at hsome
  simp only [Option.some.injEq, Prod.mk.injEq] at hsome
  obtain ⟨_, rfl⟩ := hsome
  obtain ⟨l, rfl, hl⟩ := addObjectInstance_keeps hnext
  obtain ⟨_, h0, hlook, hflags⟩ := h
  refine ⟨hreg, h0, ?_, hflags⟩
  intro inst hm hd
  rcases hl inst hm with hold | hnew
  · exact lookupsSucceed_names rfl rfl rfl (hlook inst hold hd)
  · rw [hnew, hdraw] at hd
    cases hd

theorem drawObject_drawInv {sentinel : SgrObjectInstance} {s next : SGR}
    {code : SgrErrCode} (hsent : sentinel.name = "empty") (instanceName : String)
    (h : DrawInv sentinel s) (hnext : drawObject instanceName s = some (code, next)) :
    DrawInv sentinel next := by
  obtain ⟨⟨hne, rest, hrest, hgr, hall⟩, ⟨o0, h0, hempty⟩, hlook, hflags⟩ := h
  obtain ⟨inst, hget, _, hfirst⟩ := findInstanceByName_spec hrest hsent instanceName
  have hinv : DrawInv sentinel s :=
    ⟨⟨hne, rest, hrest, hgr, hall⟩, ⟨o0, h0, hempty⟩, hlook, hflags⟩
  have hsame : ∀ c : SgrErrCode, some (c, s) = some (code, next) → DrawInv sentinel next := by
    intro c hc
    simp only [Option.some.injEq, Prod.mk.injEq] at hc
    rw [← hc.2]
    exact hinv
  unfold drawObject at hnext
  rw [hget] at hnext
  by_cases hname : inst.name = "empty"
  · simp only [hname, beq_self_eq_true, if_true] at hnext
    exact hsame _ hnext
  cases hobj : s.objects[findObjectByName s.objects inst.geometry]? with
  | none => simp only [beq_iff_eq, hname, if_false, hobj] at hnext; cases hnext
  | some obj =>
    by_cases hobjname : obj.name = "empty"
    · simp only [beq_iff_eq, hname, if_false, hobj, hobjname, if_true] at hnext
      exact hsame _ hnext
    by_cases hpipe : (getPipelineByName s.pipelines inst.geometry).name = "empty"
    · simp only [beq_iff_eq, hname, if_false, hobj, hobjname, hpipe, if_true] at hnext
      exact hsame _ hnext
    by_cases hsets : (s.getDescriptorSetsByName instanceName).name = "empty"
    · simp only [beq_iff_eq, hname, if_false, hobj, hobjname, hpipe, hsets, if_true] at hnext
      exact hsame _ hnext
    · simp only [beq_iff_eq, hname, if_false, hobj, hobjname, hpipe, hsets, Option.some.injEq,
        Prod.mk.injEq] at hnext
      rw [← hnext.2]
      have hidx : findInstanceByName s.instances instanceName ≠ 0 := by
        intro hz
        rw [hz, hrest] at hget
        simp only [List.getElem?_cons_zero, Option.some.injEq] at hget
        rw [← hget] at hname
        exact hname hsent
      obtain ⟨k, hk⟩ : ∃ k, findInstanceByName s.instances instanceName = k + 1 :=
        ⟨_, (Nat.succ_pred_eq_of_ne_zero hidx).symm⟩
      have hgetk : rest[k]? = some inst := by
        rw [hk, hrest] at hget
        simpa using hget
      refine ⟨⟨hne, rest.set k { inst with needToDraw := true }, ?_, ?_, fun _ _ => trivial⟩,
        ⟨o0, h0, hempty⟩, ?_, hflags⟩
      · show s.instances.set _ _ = _
        rw [hk, hrest]
        rfl
      · rw [List.map_set]
        rw [set_same _ _ _ (by rw [List.getElem?_map, hgetk]; rfl)]
        exact hgr
      · intro x hx hd
        rcases List.mem_or_eq_of_mem_set hx with hx | rfl
        · exact lookupsSucceed_names rfl rfl rfl (hlook x hx hd)
        · refine ⟨hname, ⟨obj, hobj, findObjectByName_name h0 hempty hobj hobjname, hobjname⟩,
            hpipe, ?_⟩
          show (s.getDescriptorSetsByName inst.name).name ≠ "empty"
          rw [(hfirst hname).1]
          exact hsets

/-- The rebuild decision in a state with the invariant: the pass, when it is run, is
called with the flags clear or with `rebuild` set, and the state that is left is the
one before or has `commandsBuilded` set and the same object names. -/
theorem build_drawInv {sentinel : SgrObjectInstance} {env : Env} {res : SgrErrCode} {s : SGR}
    {built : Outcome} (h : DrawInv sentinel s)
    (hb : drawFrame.build env res s = some built) :
    (built.trace = []
        ∨ ∃ out, buildDrawingCommands env (res == .sgrDescriptorsSetsUpdated) s = some out
          ∧ ((res == .sgrDescriptorsSetsUpdated) = true ∨ s.commandsBuilded = false)
          ∧ built = { out with
              trace := [.buildDrawingCommands (res == .sgrDescriptorsSetsUpdated)]
                ++ out.trace })
      ∧ (built.state = s
        ∨ (built.code = .sgrOK ∧ built.state.commandsBuilded = true
          ∧ built.state.objects.map (·.name) = s.objects.map (·.name))) := by
  unfold drawFrame.build at hb
  split_ifs at hb with hcond
  · obtain ⟨r, hr, rfl⟩ := Outcome.after_eq_some hb
    have hcall : (res == .sgrDescriptorsSetsUpdated) = true ∨ s.commandsBuilded = false := by
      simp only [Bool.or_eq_true, Bool.not_eq_true'] at hcond
      exact hcond.symm
    refine ⟨Or.inr ⟨r, hr, hcall, rfl⟩, ?_⟩
    have hflags : (res == .sgrDescriptorsSetsUpdated) = false →
        ∀ o ∈ s.objects, o.name ≠ "empty" → o.meshDataAndPiplineBinded = false := by
      intro hfalse
      rcases hcall with hc | hc
      · rw [hc] at hfalse; cases hfalse
      · exact h.2.2.2 hc
    rcases pass_runs h.2.2.1 hflags hr with ⟨_, hstate, _⟩ | ⟨hcode, hcb, hnames, _⟩
    · exact Or.inl hstate
    · exact Or.inr ⟨hcode, hcb, hnames⟩
  · simp only [Option.some.injEq] at hb
    subst hb
    exact ⟨Or.inl rfl, Or.inl rfl⟩

/-- A frame keeps the invariant when what runs inside its wait for window events keeps
what frames keep. -/
theorem run_drawInv {sentinel : SgrObjectInstance}
    {wait : SGR → Option (SGR × List Event)} {env : Env} {s : SGR} {out : Outcome}
    (hw : ∀ a b t, wait a = some (b, t) → Kept a b)
    (h : DrawInv sentinel s) (hout : drawFrame.run wait env s = some out) :
    DrawInv sentinel out.state := by
  have hk := run_kept hw hout
  rcases run_inv hout with ⟨_, rfl⟩ | ⟨_, _, _, rfl⟩ | ⟨_, _, built, hb, h3⟩
  · exact h
  · exact h
  · obtain ⟨_, hstate⟩ := build_drawInv h hb
    have hcb := (build_frame hb).2
    rcases h3 with ⟨hne, rfl⟩ | ⟨hok, dev, hdev, rfl⟩
    · rcases hstate with hsame | ⟨hcode, _⟩
      · show DrawInv sentinel built.state
        rw [hsame]
        exact h
      · exact absurd hcode hne
    · refine DrawInv.transfer h hk.names hk.instances hk.pipelines
        hk.getDescriptorSetsByName ?_
      intro hfalse
      have : dev.state.commandsBuilded = true :=
        (device_kept hw hdev).commandsBuilded (hcb hok)
      rw [this] at hfalse
      cases hfalse

theorem drawFrame_drawInv {sentinel : SgrObjectInstance} {env : Env} {s : SGR} {out : Outcome}
    (h : DrawInv sentinel s) (hout : drawFrame env s = some out) :
    DrawInv sentinel out.state :=
  run_drawInv (fun _ _ _ hw => envWait_kept hw) h hout

/-- The window callbacks keep the invariant. -/
theorem windowEvent_drawInv {sentinel : SgrObjectInstance} {event : WindowEvent}
    {s next : SGR} {events : List Event} (h : DrawInv sentinel s)
    (hrun : event.run s = some (next, events)) : DrawInv sentinel next := by
  have hflags : ∀ a : SGR, a.objects = s.objects → a.instances = s.instances →
      a.pipelines = s.pipelines → a.getDescriptorSetsByName = s.getDescriptorSetsByName →
      a.commandsBuilded = s.commandsBuilded → DrawInv sentinel a := by
    intro a h1 h2 h3 h4 h5
    refine DrawInv.transfer h (by rw [h1]) h2 h3 h4 ?_
    rw [h1, h5]
    exact h.2.2.2
  have hredraw : ∀ (imageCount : Nat) (env : Env) (a : SGR), DrawInv sentinel a →
      callbackRedraw imageCount env a = some (next, events) → DrawInv sentinel next := by
    intro imageCount env a ha hc
    unfold callbackRedraw at hc
    split_ifs at hc
    · cases hn : drawFrame.nested env (requestUpdateSwapChain imageCount a).1 with
      | none => rw [hn] at hc; cases hc
      | some out =>
        rw [hn] at hc
        simp only [Option.some.injEq, Prod.mk.injEq] at hc
        rw [← hc.1]
        have hreq : DrawInv sentinel (requestUpdateSwapChain imageCount a).1 :=
          DrawInv.transfer ha rfl rfl rfl rfl ha.2.2.2
        exact run_drawInv (fun _ _ _ hnone => by cases hnone) hreq hn
    · simp only [Option.some.injEq, Prod.mk.injEq] at hc
      rw [← hc.1]
      exact ha
  cases event with
  | framebufferResize width height imageCount answers =>
    simp only [WindowEvent.run, framebufferResizeCallback] at hrun
    split_ifs at hrun
    · simp only [Option.some.injEq, Prod.mk.injEq] at hrun
      rw [← hrun.1]
      exact hflags _ rfl rfl rfl rfl rfl
    · exact hredraw imageCount { toFrameAnswers := answers }
        { s with windowResized := true, windowMinimized := false }
        (hflags _ rfl rfl rfl rfl rfl) hrun
  | windowPos imageCount answers =>
    simp only [WindowEvent.run, windowPosCallback] at hrun
    exact hredraw imageCount { toFrameAnswers := answers }
      { s with windowResized := true, windowMinimized := false }
      (hflags _ rfl rfl rfl rfl rfl) hrun

/-- Every reachable state has the invariant, when default-constructed objects have the
bound flag clear and default-constructed instances are not marked for drawing. -/
theorem reachable_drawInv {newObject emptyObject : SgrObject}
    {newInstance emptyInstance : SgrObjectInstance} {init s : SGR}
    (hflag : newObject.meshDataAndPiplineBinded = false)
    (hdraw : newInstance.needToDraw = false) (hdraw0 : emptyInstance.needToDraw = false)
    (h : Reachable newObject emptyObject newInstance emptyInstance init s) :
    DrawInv { emptyInstance with name := "empty" } s := by
  induction h with
  | ctor => exact ctor_drawInv emptyObject emptyInstance init hdraw0
  | addGeometry env name indices _ ih =>
    exact addNewObjectGeometry_drawInv newObject hflag env name indices ih
  | addInstance name geometry alignment _ hnext ih =>
    exact addObjectInstance_drawInv newInstance hdraw name geometry alignment ih hnext
  | mark instanceName _ hnext ih => exact drawObject_drawInv rfl instanceName ih hnext
  | frame env _ hout ih => exact drawFrame_drawInv ih hout
  | windowEvent event _ hrun ih => exact windowEvent_drawInv ih hrun

theorem Grouped.sublist {l l' : List String} (h : Grouped l) (hs : l'.Sublist l) : Grouped l' :=
  fun x y hxy => h x y (hxy.trans hs)

/-- The sample scene is reached from the constructor by registering its two geometries
and three instances and marking the instances for drawing. -/
theorem sampleScene_reachable :
    Reachable ⟨"", 0, false⟩ ⟨"", 0, false⟩ ⟨"", "", 0, false⟩ ⟨"", "", 0, false⟩
      { sampleScene with pipelines := [] } sampleScene :=
  Reachable.mark "C"
    (Reachable.mark "B"
      (Reachable.mark "A"
        (Reachable.addInstance "B" "G1" 64
          (Reachable.addInstance "C" "G2" 128
            (Reachable.addInstance "A" "G1" 0
              (Reachable.addGeometry calmGeometryEnv "G2" 3
                (Reachable.addGeometry calmGeometryEnv "G1" 6 Reachable.ctor))
              rfl)
            rfl)
          rfl)
        rfl)
      rfl)
    rfl

/-- C17: in every state reached from the constructor by calls of `addNewObjectGeometry`,
`addObjectInstance`, `drawObject` and `drawFrame` (and by the window callbacks that GLFW
runs between and inside them), when default-constructed objects
have the bound flag clear and default-constructed instances are not marked for drawing,
a `buildDrawingCommands` pass called as `drawFrame` calls it (with `rebuild` set, or
with `commandsBuilded` false) that returns `sgrOK` has recorded the expected sequence
over the instances to draw, and at each of its draws the pipeline, the vertex buffer
and the index buffer bound last in the pass are those of the geometry of the instance
drawn. A pass that returns another code stopped before its loops, with the state as it
was and no command recorded, so no state is left by a pass that stopped part-way. The
last part relates the pass to the rebuild decision of `drawFrame`. -/
theorem C17_draws_follow_their_bind (newObject emptyObject : SgrObject)
    (newInstance emptyInstance : SgrObjectInstance) (init s : SGR)
    (hflag : newObject.meshDataAndPiplineBinded = false)
    (hdraw : newInstance.needToDraw = false) (hdraw0 : emptyInstance.needToDraw = false)
    (hreach : Reachable newObject emptyObject newInstance emptyInstance init s)
    (env : Env) (rebuild : Bool) (out : Outcome)
    (hcall : rebuild = true ∨ s.commandsBuilded = false)
    (hpass : buildDrawingCommands env rebuild s = some out) :
    (out.code = .sgrOK →
        boundAtDraws out.trace BindState.unbound
            = (s.instances.filter (·.needToDraw)).map (fun inst => BindState.of inst.geometry)
          ∧ ∃ pre, (∀ e ∈ pre, e.isCommand = false)
            ∧ out.trace = pre ++ expectedCommands (indicesCountOf s.objects)
                env.commandBuffersSize (s.instances.filter (·.needToDraw)) [])
      ∧ (out.code ≠ .sgrOK → out.state = s ∧ ∀ e ∈ out.trace, e.isCommand = false)
      ∧ (∀ (res : SgrErrCode) (built : Outcome),
          drawFrame.build env res s = some built → built.trace ≠ [] →
          ∃ pass, buildDrawingCommands env (res == .sgrDescriptorsSetsUpdated) s = some pass
            ∧ ((res == .sgrDescriptorsSetsUpdated) = true ∨ s.commandsBuilded = false)
            ∧ built.code = pass.code
            ∧ built.trace
              = .buildDrawingCommands (res == .sgrDescriptorsSetsUpdated) :: pass.trace) := by
  have hinv := reachable_drawInv hflag hdraw hdraw0 hreach
  have hflags : rebuild = false →
      ∀ o ∈ s.objects, o.name ≠ "empty" → o.meshDataAndPiplineBinded = false := by
    intro hfalse
    rcases hcall with hc | hc
    · rw [hc] at hfalse; cases hfalse
    · exact hinv.2.2.2 hc
  refine ⟨fun hok => ?_, fun hne => ?_, fun res built hb hnil => ?_⟩
  · rcases pass_runs hinv.2.2.1 hflags hpass with ⟨hcode, _, _⟩ | ⟨_, _, _, pre, hpre, htrace⟩
    · exact absurd hok hcode
    · refine ⟨?_, pre, hpre, htrace⟩
      obtain ⟨_, rest, hrest, hgr, _⟩ := hinv.1
      obtain ⟨n1, n2⟩ := boundAtDraws_neutral pre BindState.unbound
        fun e he => isBindOrDraw_of_not_command (hpre e he)
      rw [htrace, boundAtDraws_append, n1, n2, List.nil_append]
      apply boundAtDraws_expected _ _ _ [] [] BindState.unbound
      · intro g
        simp
      · intro y hy
        cases hy
      · have hsent : ({ emptyInstance with name := "empty" } : SgrObjectInstance).needToDraw
            = false := hdraw0
        rw [List.nil_append, hrest, List.filter_cons_of_neg (by simp [hdraw0])]
        exact hgr.sublist (List.Sublist.map _ (List.filter_sublist _))
  · rcases pass_runs hinv.2.2.1 hflags hpass with ⟨_, hstate, hcmd⟩ | ⟨hcode, _⟩
    · exact ⟨hstate, hcmd⟩
    · exact absurd hcode hne
  · rcases (build_drawInv hinv hb).1 with hempty | ⟨pass, hp, hc, rfl⟩
    · exact absurd hempty hnil
    · exact ⟨pass, hp, hc, rfl, rfl⟩

theorem C17_draws_follow_their_bind_witness :
    buildDrawingCommands calmEnv false sampleScene = some firstPassOutcome
      ∧ boundAtDraws firstPassOutcome.trace BindState.unbound
        = [BindState.of "G1", BindState.of "G1", BindState.of "G2"] :=
  ⟨rfl,
    ((C17_draws_follow_their_bind ⟨"", 0, false⟩ ⟨"", 0, false⟩ ⟨"", "", 0, false⟩
      ⟨"", "", 0, false⟩ { sampleScene with pipelines := [] } sampleScene rfl rfl rfl
      sampleScene_reachable calmEnv false firstPassOutcome (Or.inr rfl) rfl).1 rfl).1⟩

/-! ## Which objects have their bound flag set -/

theorem Covered.of_clear {instances : List SgrObjectInstance} {objects : List SgrObject}
    (h : ∀ o ∈ objects, o.meshDataAndPiplineBinded = false) : Covered instances objects := by
  intro i o ho hflag
  rw [h o (List.getElem?_mem ho)] at hflag
  cases hflag

/-- Setting the flag of the object of an instance that is drawn, or clearing a flag,
keeps the coverage. -/
theorem Covered.set {instances : List SgrObjectInstance} {objects : List SgrObject}
    {inst : SgrObjectInstance} {o : SgrObject} (b : Bool)
    (h : Covered instances objects)
    (ho : objects[findObjectByName objects inst.geometry]? = some o)
    (hb : b = true → inst ∈ instances ∧ inst.name ≠ "empty" ∧ inst.needToDraw = true) :
    Covered instances
      (objects.set (findObjectByName objects inst.geometry)
        { o with meshDataAndPiplineBinded := b }) := by
  intro i o1 ho1 hflag
  by_cases hi : findObjectByName objects inst.geometry = i
  · have hlt : findObjectByName objects inst.geometry < objects.length := by
      by_contra hcon
      rw [List.getElem?_eq_none (by omega)] at ho
      cases ho
    rw [← hi, List.getElem?_set_self hlt] at ho1
    simp only [Option.some.injEq] at ho1
    rw [← ho1] at hflag
    obtain ⟨hm, hn, hd⟩ := hb hflag
    exact ⟨inst, hm, hn, hd, by rw [findObjectByName_set _ _ _ _ ho]; exact hi⟩
  · rw [List.getElem?_set_ne hi] at ho1
    obtain ⟨x, hm, hn, hd, hidx⟩ := h i o1 ho1 hflag
    exact ⟨x, hm, hn, hd, by rw [findObjectByName_set _ _ _ _ ho]; exact hidx⟩

theorem clear_covered {instances : List SgrObjectInstance} :
    ∀ (l : List SgrObjectInstance) (objects objects' : List SgrObject) (code : SgrErrCode),
      buildDrawingCommands.clear l objects = some (code, objects') →
      Covered instances objects → Covered instances objects' := by
  intro l
  induction l with
  | nil =>
    intro objects objects' code h hc
    simp only [buildDrawingCommands.clear, Option.some.injEq, Prod.mk.injEq] at h
    rw [← h.2]
    exact hc
  | cons inst rest ih =>
    intro objects objects' code h hc
    unfold buildDrawingCommands.clear at h
    split at h
    · exact ih _ _ _ h hc
    split at h
    · exact ih _ _ _ h hc
    cases ho : objects[findObjectByName objects inst.geometry]? with
    | none => rw [ho] at h; cases h
    | some o =>
      rw [ho] at h
      simp only at h
      split at h
      · simp only [Option.some.injEq, Prod.mk.injEq] at h
        rw [← h.2]
        exact hc
      · exact ih _ _ _ h (Covered.set false hc ho fun hfalse => by cases hfalse)

theorem record_covered {instances : List SgrObjectInstance} (s : SGR) (n : Nat) :
    ∀ (l : List SgrObjectInstance) (objects objects' : List SgrObject) (code : SgrErrCode)
      (commands : List Event),
      buildDrawingCommands.record s n l objects = some (code, objects', commands) →
      (∀ x ∈ l, x ∈ instances) → Covered instances objects → Covered instances objects' := by
  intro l
  induction l with
  | nil =>
    intro objects objects' code commands h _ hc
    simp only [buildDrawingCommands.record, Option.some.injEq, Prod.mk.injEq] at h
    rw [← h.2.1]
    exact hc
  | cons inst rest ih =>
    intro objects objects' code commands h hl hc
    have hrest : ∀ x ∈ rest, x ∈ instances := fun x hx => hl x (List.mem_cons_of_mem _ hx)
    unfold buildDrawingCommands.record at h
    split at h
    · exact ih _ _ _ _ h hrest hc
    rename_i hname
    split at h
    · exact ih _ _ _ _ h hrest hc
    rename_i hdraw
    cases ho : objects[findObjectByName objects inst.geometry]? with
    | none => rw [ho] at h; cases h
    | some o =>
      rw [ho] at h
      simp only at h
      have hset : Covered instances (if (!o.meshDataAndPiplineBinded) = true then
            objects.set (findObjectByName objects inst.geometry)
              { o with meshDataAndPiplineBinded := true }
          else objects) := by
        split_ifs
        · exact Covered.set true hc ho fun _ =>
            ⟨hl inst (List.mem_cons_self _ _), by simpa using hname, by simpa using hdraw⟩
        · exact hc
      split at h
      · simp only [Option.some.injEq, Prod.mk.injEq] at h
        rw [← h.2.1]
        exact hc
      split at h
      · simp only [Option.some.injEq, Prod.mk.injEq] at h
        rw [← h.2.1]
        exact hc
      split at h
      · simp only [Option.some.injEq, Prod.mk.injEq] at h
        rw [← h.2.1]
        exact hset
      · cases hr : buildDrawingCommands.record s n rest
            (if (!o.meshDataAndPiplineBinded) = true then
              objects.set (findObjectByName objects inst.geometry)
                { o with meshDataAndPiplineBinded := true }
            else objects) with
        | none => rw [hr] at h; cases h
        | some r =>
          obtain ⟨code2, objects2, commands2⟩ := r
          rw [hr] at h
          simp only [Option.some.injEq, Prod.mk.injEq] at h
          rw [← h.2.1]
          exact ih _ _ _ _ hr hrest hset

theorem prologue_covered {env : Env} {rebuild : Bool} {s : SGR} {start : Outcome}
    (h : buildDrawingCommands.prologue env rebuild s = some start)
    (hc : Covered s.instances s.objects) :
    start.state.instances = s.instances ∧ Covered s.instances start.state.objects := by
  unfold buildDrawingCommands.prologue at h
  split_ifs at h
  · simp only [Option.some.injEq] at h; subst h; exact ⟨rfl, hc⟩
  · simp only [Option.some.injEq] at h; subst h; exact ⟨rfl, hc⟩
  · cases hclear : buildDrawingCommands.clear s.instances s.objects with
    | none => rw [hclear] at h; cases h
    | some r =>
      obtain ⟨code, objects⟩ := r
      rw [hclear] at h
      simp only [Option.some.injEq] at h
      subst h
      exact ⟨rfl, clear_covered _ _ _ _ hclear hc⟩
  · simp only [Option.some.injEq] at h; subst h; exact ⟨rfl, hc⟩

theorem buildDrawingCommands_covered {env : Env} {rebuild : Bool} {s : SGR} {out : Outcome}
    (h : buildDrawingCommands env rebuild s = some out)
    (hc : Covered s.instances s.objects) :
    Covered out.state.instances out.state.objects := by
  unfold buildDrawingCommands at h
  cases hstart : buildDrawingCommands.prologue env rebuild s with
  | none => rw [hstart] at h; cases h
  | some start =>
    rw [hstart] at h
    obtain ⟨hinst, hcov⟩ := prologue_covered hstart hc
    simp only at h
    split_ifs at h with hcode
    · simp only [Option.some.injEq] at h
      subst h
      rw [hinst]
      exact hcov
    · cases hrec : buildDrawingCommands.record start.state env.commandBuffersSize
          start.state.instances start.state.objects with
      | none => rw [hrec] at h; cases h
      | some r =>
        obtain ⟨code, objects, commands⟩ := r
        rw [hrec] at h
        have hcov' : Covered s.instances objects :=
          record_covered _ _ _ _ _ _ _ hrec (fun x hx => hinst ▸ hx) hcov
        simp only at h
        split_ifs at h
        · simp only [Option.some.injEq] at h
          subst h
          show Covered start.state.instances objects
          rw [hinst]
          exact hcov'
        · simp only [Option.some.injEq] at h
          subst h
          show Covered start.state.instances objects
          rw [hinst]
          exact hcov'

theorem build_covered {env : Env} {res : SgrErrCode} {s : SGR} {built : Outcome}
    (h : drawFrame.build env res s = some built) (hc : Covered s.instances s.objects) :
    Covered built.state.instances built.state.objects := by
  unfold drawFrame.build at h
  split_ifs at h
  · obtain ⟨r, hr, rfl⟩ := Outcome.after_eq_some h
    have := buildDrawingCommands_covered hr hc
    exact this
  · simp only [Option.some.injEq] at h
    subst h
    exact hc

theorem unbind_clear (s : SGR) :
    ∀ o ∈ (unbindAllMeshesAndPiplines s).objects, o.meshDataAndPiplineBinded = false := by
  intro o ho
  unfold unbindAllMeshesAndPiplines at ho
  obtain ⟨x, _, rfl⟩ := List.mem_map.mp ho
  rfl

theorem present_objects {env : Env} {s : SGR} {sem : Nat} {out : Outcome}
    (h : drawFrame.present env s sem = some out) :
    out.state.objects = s.objects
      ∨ ∀ o ∈ out.state.objects, o.meshDataAndPiplineBinded = false := by
  rcases present_inv h with ⟨_, _, rfl⟩ | ⟨_, _, _, _, rfl⟩ | ⟨_, _, _, rfl⟩
  · exact Or.inr (unbind_clear s)
  · exact Or.inl rfl
  · exact Or.inl rfl

theorem submit_objects {env : Env} {s : SGR} {fence wsem : Nat} {out : Outcome}
    (h : drawFrame.submit env s fence wsem = some out) :
    out.state.objects = s.objects
      ∨ ∀ o ∈ out.state.objects, o.meshDataAndPiplineBinded = false := by
  obtain ⟨owner, ssem, rest, _, _, _, hc⟩ := submit_trace h
  rcases hc with ⟨_, _, _, hstate⟩ | ⟨_, pres, hp, _, hstate, _⟩
  · rw [hstate]
    exact Or.inl rfl
  · rw [hstate]
    have := present_objects hp
    exact this

theorem acquire_objects {env : Env} {s : SGR} {out : Outcome}
    (h : drawFrame.acquire env s = some out) :
    out.state.objects = s.objects
      ∨ ∀ o ∈ out.state.objects, o.meshDataAndPiplineBinded = false := by
  unfold drawFrame.acquire at h
  split at h
  · dsimp only at h
    split at h
    · split at h
      · simp only [Option.some.injEq] at h
        subst h
        exact Or.inr (unbind_clear s)
      · obtain ⟨r, hr, rfl⟩ := Outcome.after_eq_some h
        right
        rcases submit_objects hr with hsame | hclear
        · intro o ho
          have ho' : o ∈ r.state.objects := ho
          rw [hsame] at ho'
          exact unbind_clear s o ho'
        · exact hclear
    · split at h
      · simp only [Option.some.injEq] at h
        subst h
        exact Or.inl rfl
      · obtain ⟨r, hr, rfl⟩ := Outcome.after_eq_some h
        have := submit_objects hr
        exact this
  · cases h

theorem acquire_covered {env : Env} {s : SGR} {out : Outcome}
    (h : drawFrame.acquire env s = some out) (hc : Covered s.instances s.objects) :
    Covered out.state.instances out.state.objects := by
  rw [(acquire_kept h).instances]
  rcases acquire_objects h with hsame | hclear
  · rw [hsame]
    exact hc
  · exact Covered.of_clear hclear

/-- A frame keeps the coverage when what runs inside its wait for window events does. -/
theorem run_covered {wait : SGR → Option (SGR × List Event)} {env : Env} {s : SGR}
    {out : Outcome}
    (hw : ∀ a b t, wait a = some (b, t) →
      Covered a.instances a.objects → Covered b.instances b.objects)
    (hc : Covered s.instances s.objects) (h : drawFrame.run wait env s = some out) :
    Covered out.state.instances out.state.objects := by
  rcases run_inv h with ⟨_, rfl⟩ | ⟨_, _, _, rfl⟩ | ⟨_, _, built, hb, h3⟩
  · exact hc
  · exact hc
  · have hbc := build_covered hb hc
    rcases h3 with ⟨_, rfl⟩ | ⟨_, dev, hdev, rfl⟩
    · exact hbc
    · obtain ⟨waited, events, acq, hm, hacq, rfl⟩ := device_inv hdev
      have hwc : Covered waited.instances waited.objects := by
        rcases minimizedWait_inv hm with ⟨_, rfl, _⟩ | ⟨_, inside, hws, _⟩
        · exact hbc
        · exact hw _ _ _ hws hbc
      have := acquire_covered hacq hwc
      exact this

theorem windowEvent_covered {event : WindowEvent} {s next : SGR} {events : List Event}
    (hc : Covered s.instances s.objects) (h : event.run s = some (next, events)) :
    Covered next.instances next.objects := by
  have hredraw : ∀ (imageCount : Nat) (env : Env) (a : SGR),
      Covered a.instances a.objects →
      callbackRedraw imageCount env a = some (next, events) →
      Covered next.instances next.objects := by
    intro imageCount env a ha hcb
    unfold callbackRedraw at hcb
    split_ifs at hcb
    · cases hn : drawFrame.nested env (requestUpdateSwapChain imageCount a).1 with
      | none => rw [hn] at hcb; cases hcb
      | some out =>
        rw [hn] at hcb
        simp only [Option.some.injEq, Prod.mk.injEq] at hcb
        rw [← hcb.1]
        have hreq : Covered (requestUpdateSwapChain imageCount a).1.instances
            (requestUpdateSwapChain imageCount a).1.objects := ha
        exact run_covered (fun _ _ _ hnone => by cases hnone) hreq hn
    · simp only [Option.some.injEq, Prod.mk.injEq] at hcb
      rw [← hcb.1]
      exact ha
  cases event with
  | framebufferResize width height imageCount answers =>
    simp only [WindowEvent.run, framebufferResizeCallback] at h
    split_ifs at h
    · simp only [Option.some.injEq, Prod.mk.injEq] at h
      rw [← h.1]
      exact hc
    · exact hredraw imageCount { toFrameAnswers := answers }
        { s with windowResized := true, windowMinimized := false } hc h
  | windowPos imageCount answers =>
    simp only [WindowEvent.run, windowPosCallback] at h
    exact hredraw imageCount { toFrameAnswers := answers }
      { s with windowResized := true, windowMinimized := false } hc h

theorem glfwWaitEvents_covered :
    ∀ (events : List WindowEvent) (s next : SGR) (trace : List Event),
      glfwWaitEvents events s = some (next, trace) →
      Covered s.instances s.objects → Covered next.instances next.objects := by
  intro events
  induction events with
  | nil =>
    intro s next trace h hc
    simp only [glfwWaitEvents, Option.some.injEq, Prod.mk.injEq] at h
    rw [← h.1]
    exact hc
  | cons event events ih =>
    intro s next trace h hc
    unfold glfwWaitEvents at h
    cases h1 : event.run s with
    | none => rw [h1] at h; cases h
    | some r1 =>
      obtain ⟨s1, t1⟩ := r1
      rw [h1] at h
      dsimp only at h
      cases h2 : glfwWaitEvents events s1 with
      | none => rw [h2] at h; cases h
      | some r2 =>
        obtain ⟨s2, t2⟩ := r2
        rw [h2] at h
        simp only [Option.some.injEq, Prod.mk.injEq] at h
        rw [← h.1]
        exact ih _ _ _ h2 (windowEvent_covered hc h1)

theorem drawFrame_covered {env : Env} {s : SGR} {out : Outcome}
    (hc : Covered s.instances s.objects) (h : drawFrame env s = some out) :
    Covered out.state.instances out.state.objects :=
  run_covered (fun _ _ _ hw hca => by
    obtain ⟨_, events, hg⟩ := envWait_inv hw
    exact glfwWaitEvents_covered _ _ _ _ hg hca) hc h

/-- An object that is found under its name is found at the same index when objects are
added. -/
theorem findObjectByName_append_index {objects : List SgrObject} {g : String} {o : SgrObject}
    (ho : objects[findObjectByName objects g]? = some o) (hn : o.name = g)
    (more : List SgrObject) :
    findObjectByName (objects ++ more) g = findObjectByName objects g := by
  unfold findObjectByName at ho ⊢
  cases hrec : firstIndex (fun o => o.name == g) objects with
  | none =>
    have := firstIndex_none _ _ hrec o (List.getElem?_mem ho)
    simp [hn] at this
  | some i => rw [firstIndex_append _ _ more i hrec]

theorem addNewObjectGeometry_covered {sentinel : SgrObjectInstance} {s : SGR}
    (newObject : SgrObject) (hflag : newObject.meshDataAndPiplineBinded = false)
    (env : GeometryEnv) (name : String) (indices : Nat) (h : DrawInv sentinel s)
    (hc : Covered s.instances s.objects) :
    Covered (addNewObjectGeometry newObject env name indices s).2.instances
      (addNewObjectGeometry newObject env name indices s).2.objects := by
  have hcases : (addNewObjectGeometry newObject env name indices s).2 = s
      ∨ ∃ more, (addNewObjectGeometry newObject env name indices s).2
        = { s with
            pipelines := s.pipelines ++ more
            objects := s.objects
              ++ [{ newObject with name := name, indicesCount := indices % 65536 }] } := by
    unfold addNewObjectGeometry
    split_ifs
    · exact Or.inl rfl
    · exact Or.inl rfl
    · exact Or.inl rfl
    · exact Or.inl rfl
    · exact Or.inr ⟨[{ name := name }], rfl⟩
    · exact Or.inr ⟨[], by simp⟩
  rcases hcases with hsame | ⟨more, hnew⟩
  · rw [hsame]
    exact hc
  rw [hnew]
  intro i o ho hset
  have ho' : (s.objects
      ++ [{ newObject with name := name, indicesCount := indices % 65536 }])[i]? = some o := ho
  by_cases hi : i < s.objects.length
  · rw [List.getElem?_append_left hi] at ho'
    obtain ⟨inst, hm, hn, hd, hidx⟩ := hc i o ho' hset
    obtain ⟨_, ⟨o2, ho2, hn2, _⟩, _, _⟩ := h.2.2.1 inst hm hd
    refine ⟨inst, hm, hn, hd, ?_⟩
    show findObjectByName (s.objects ++ _) inst.geometry = i
    rw [findObjectByName_append_index ho2 hn2, hidx]
  · exfalso
    rw [List.getElem?_append_right (by omega)] at ho'
    cases hk : i - s.objects.length with
    | zero =>
      rw [hk] at ho'
      simp only [List.getElem?_cons_zero, Option.some.injEq] at ho'
      rw [← ho'] at hset
      rw [show ({ newObject with name := name, indicesCount := indices % 65536 } :
        SgrObject).meshDataAndPiplineBinded = newObject.meshDataAndPiplineBinded from rfl,
        hflag] at hset
      cases hset
    | succ k =>
      rw [hk] at ho'
      simp at ho'

theorem addObjectInstance_grows {newInstance : SgrObjectInstance} {name geometry : String}
    {alignment : Nat} {s next : SGR} {code : SgrErrCode}
    (h : addObjectInstance newInstance name geometry alignment s = some (code, next)) :
    next.objects = s.objects ∧ ∀ x ∈ s.instances, x ∈ next.instances := by
  unfold addObjectInstance at h
  split at h
  · cases h
  dsimp only at h
  split_ifs at h
  · simp only [Option.some.injEq, Prod.mk.injEq] at h
    rw [← h.2]
    exact ⟨rfl, fun x hx => hx⟩
  split at h
  · cases h
  split_ifs at h
  · simp only [Option.some.injEq, Prod.mk.injEq] at h
    rw [← h.2]
    exact ⟨rfl, fun x hx => List.mem_append_left _ hx⟩
  split at h
  · simp only [Option.some.injEq, Prod.mk.injEq] at h
    rw [← h.2]
    refine ⟨rfl, fun x hx => ?_⟩
    rename_i k _
    show x ∈ s.instances.take (k + 1) ++ _ :: s.instances.drop (k + 1)
    have hx' : x ∈ s.instances.take (k + 1) ++ s.instances.drop (k + 1) := by
      rw [List.take_append_drop]
      exact hx
    rcases List.mem_append.mp hx' with hx' | hx'
    · exact List.mem_append_left _ hx'
    · exact List.mem_append_right _ (List.mem_cons_of_mem _ hx')
  · simp only [Option.some.injEq, Prod.mk.injEq] at h
    rw [← h.2]
    exact ⟨rfl, fun x hx => List.mem_append_left _ hx⟩

theorem addObjectInstance_covered {newInstance : SgrObjectInstance} {name geometry : String}
    {alignment : Nat} {s next : SGR} {code : SgrErrCode}
    (h : addObjectInstance newInstance name geometry alignment s = some (code, next))
    (hc : Covered s.instances s.objects) : Covered next.instances next.objects := by
  obtain ⟨hobj, hgrow⟩ := addObjectInstance_grows h
  rw [hobj]
  intro i o ho hset
  obtain ⟨inst, hm, hn, hd, hidx⟩ := hc i o ho hset
  exact ⟨inst, hgrow inst hm, hn, hd, hidx⟩

/-- What `drawObject` changes: nothing, or `needToDraw` of the instance it finds. -/
theorem drawObject_inv {instanceName : String} {s next : SGR} {code : SgrErrCode}
    (h : drawObject instanceName s = some (code, next)) :
    next = s
      ∨ ∃ inst, s.instances[findInstanceByName s.instances instanceName]? = some inst
        ∧ next = { s with
            instances := s.instances.set (findInstanceByName s.instances instanceName)
              { inst with needToDraw := true } } := by
  unfold drawObject at h
  cases hget : s.instances[findInstanceByName s.instances instanceName]? with
  | none => rw [hget] at h; cases h
  | some inst =>
    rw [hget] at h
    have hsame : ∀ c : SgrErrCode, some (c, s) = some (code, next) → next = s := by
      intro c hc
      simp only [Option.some.injEq, Prod.mk.injEq] at hc
      exact hc.2.symm
    by_cases hname : inst.name = "empty"
    · simp only [hname, beq_self_eq_true, if_true] at h
      exact Or.inl (hsame _ h)
    cases hobj : s.objects[findObjectByName s.objects inst.geometry]? with
    | none => simp only [beq_iff_eq, hname, if_false, hobj] at h; cases h
    | some obj =>
      by_cases hobjname : obj.name = "empty"
      · simp only [beq_iff_eq, hname, if_false, hobj, hobjname, if_true] at h
        exact Or.inl (hsame _ h)
      by_cases hpipe : (getPipelineByName s.pipelines inst.geometry).name = "empty"
      · simp only [beq_iff_eq, hname, if_false, hobj, hobjname, hpipe, if_true] at h
        exact Or.inl (hsame _ h)
      by_cases hsets : (s.getDescriptorSetsByName instanceName).name = "empty"
      · simp only [beq_iff_eq, hname, if_false, hobj, hobjname, hpipe, hsets, if_true] at h
        exact Or.inl (hsame _ h)
      · simp only [beq_iff_eq, hname, if_false, hobj, hobjname, hpipe, hsets,
          Option.some.injEq, Prod.mk.injEq] at h
        exact Or.inr ⟨inst, rfl, h.2.symm⟩

theorem drawObject_covered {instanceName : String} {s next : SGR} {code : SgrErrCode}
    (h : drawObject instanceName s = some (code, next))
    (hc : Covered s.instances s.objects) : Covered next.instances next.objects := by
  rcases drawObject_inv h with rfl | ⟨inst, hget, rfl⟩
  · exact hc
  · intro i o ho hset
    obtain ⟨x, hm, hn, hd, hidx⟩ := hc i o ho hset
    obtain ⟨j, hj⟩ := List.mem_iff_getElem?.mp hm
    by_cases hji : findInstanceByName s.instances instanceName = j
    · rw [← hji, hget] at hj
      simp only [Option.some.injEq] at hj
      subst hj
      have hlt : findInstanceByName s.instances instanceName < s.instances.length := by
        by_contra hcon
        rw [List.getElem?_eq_none (by omega)] at hget
        cases hget
      refine ⟨{ inst with needToDraw := true }, ?_, hn, rfl, hidx⟩
      exact List.getElem?_mem (List.getElem?_set_self hlt)
    · refine ⟨x, ?_, hn, hd, hidx⟩
      apply List.getElem?_mem
      show (s.instances.set _ _)[j]? = some x
      rw [List.getElem?_set_ne hji]
      exact hj

/-- In every reachable state, when default-constructed objects have the bound flag
clear and default-constructed instances are not marked for drawing, every object whose
bound flag is set is the object of an instance to draw. -/
theorem reachable_covered {newObject emptyObject : SgrObject}
    {newInstance emptyInstance : SgrObjectInstance} {init s : SGR}
    (hflag : newObject.meshDataAndPiplineBinded = false)
    (hflag0 : emptyObject.meshDataAndPiplineBinded = false)
    (hdraw : newInstance.needToDraw = false) (hdraw0 : emptyInstance.needToDraw = false)
    (h : Reachable newObject emptyObject newInstance emptyInstance init s) :
    Covered s.instances s.objects := by
  induction h with
  | ctor =>
    apply Covered.of_clear
    intro o ho
    simp only [SGR.ctor, List.mem_singleton] at ho
    rw [ho]
    exact hflag0
  | addGeometry env name indices hreach ih =>
    exact addNewObjectGeometry_covered newObject hflag env name indices
      (reachable_drawInv hflag hdraw hdraw0 hreach) ih
  | addInstance name geometry alignment _ hnext ih => exact addObjectInstance_covered hnext ih
  | mark instanceName _ hnext ih => exact drawObject_covered hnext ih
  | frame env _ hout ih => exact drawFrame_covered ih hout
  | windowEvent event _ hrun ih => exact windowEvent_covered ih hrun

/-- The scene after its first frame is reached from the sample scene by one frame. -/
theorem sceneAfterFirstFrame_reachable :
    Reachable ⟨"", 0, false⟩ ⟨"", 0, false⟩ ⟨"", "", 0, false⟩ ⟨"", "", 0, false⟩
      { sampleScene with pipelines := [] } sceneAfterFirstFrame := by
  have hfirst := sampleScene_first_frame
  cases hout : drawFrame calmEnv sampleScene with
  | none => rw [hout] at hfirst; cases hfirst
  | some out =>
    rw [hout] at hfirst
    simp only [Option.map_some', Option.some.injEq, Prod.mk.injEq] at hfirst
    rw [← hfirst.2]
    exact Reachable.frame calmEnv sampleScene_reachable hout

/-- C8: in every state reached from the constructor by calls of `addNewObjectGeometry`,
`addObjectInstance`, `drawObject` and `drawFrame` and by the window callbacks, when
default-constructed objects have the bound flag clear and default-constructed instances
are not marked for drawing: when the descriptor update in `drawFrame` returns
`sgrDescriptorsSetsUpdated`, `buildDrawingCommands` is called with `rebuild` true, and
when the part of it before the recording loop ends with `sgrOK`, that is before the
first bind or draw of the pass is recorded, the bound flag of every object is false.
That part records no command, and when it ends with another code the pass records
none at all. -/
theorem C8_rebuild_clears_every_flag (newObject emptyObject : SgrObject)
    (newInstance emptyInstance : SgrObjectInstance) (init s : SGR)
    (hflag : newObject.meshDataAndPiplineBinded = false)
    (hflag0 : emptyObject.meshDataAndPiplineBinded = false)
    (hdraw : newInstance.needToDraw = false) (hdraw0 : emptyInstance.needToDraw = false)
    (hreach : Reachable newObject emptyObject newInstance emptyInstance init s)
    (env : Env) (out : Outcome)
    (hbegin : env.beginCommandBuffers = .sgrOK)
    (hupd : env.updateDescriptorSets = .sgrDescriptorsSetsUpdated)
    (h : drawFrame env s = some out) :
    Event.buildDrawingCommands true ∈ out.trace
      ∧ ∃ start pass, buildDrawingCommands.prologue env true s = some start
        ∧ buildDrawingCommands env true s = some pass
        ∧ (∀ e ∈ start.trace, e.isCommand = false)
        ∧ (start.code = .sgrOK →
            ∀ o ∈ start.state.objects, o.meshDataAndPiplineBinded = false)
        ∧ (start.code ≠ .sgrOK → pass = start) := by
  have hcov := reachable_covered hflag hflag0 hdraw hdraw0 hreach
  obtain ⟨built, hb, hmem⟩ := drawFrame_build_called hbegin (Or.inr hupd) h
  refine ⟨hmem _ ⟨Or.inr hupd, by simp [hupd]⟩, ?_⟩
  unfold drawFrame.build at hb
  simp only [hupd, beq_self_eq_true, Bool.or_true, if_true] at hb
  obtain ⟨pass, hpass, _⟩ := Outcome.after_eq_some hb
  have hpass' := hpass
  unfold buildDrawingCommands at hpass'
  cases hstart : buildDrawingCommands.prologue env true s with
  | none => rw [hstart] at hpass'; cases hpass'
  | some start =>
    rw [hstart] at hpass'
    refine ⟨start, pass, rfl, hpass, ?_, ?_, ?_⟩
    · intro e he
      have := (prologue_isPass hstart e he)
      unfold buildDrawingCommands.prologue at hstart
      simp only [if_true] at hstart
      have hthree : start.trace = [.freeCommandBuffers, .initCommandBuffers]
          ∨ start.trace = [.freeCommandBuffers, .initCommandBuffers, .beginCommandBuffers] := by
        split_ifs at hstart
        · cases hstart; exact Or.inl rfl
        · cases hstart; exact Or.inr rfl
        · cases hclear : buildDrawingCommands.clear s.instances s.objects with
          | none => rw [hclear] at hstart; cases hstart
          | some p => rw [hclear] at hstart; cases hstart; exact Or.inr rfl
      rcases hthree with h3 | h3 <;> rw [h3] at he <;>
        simp only [List.mem_cons, List.mem_singleton, List.not_mem_nil, or_false] at he
      · rcases he with rfl | rfl <;> rfl
      · rcases he with rfl | rfl | rfl <;> rfl
    · intro hok
      unfold buildDrawingCommands.prologue at hstart
      simp only [if_true] at hstart
      split_ifs at hstart
      · cases hstart; cases hok
      · cases hstart; exact absurd hok (by assumption)
      · cases hclear : buildDrawingCommands.clear s.instances s.objects with
        | none => rw [hclear] at hstart; cases hstart
        | some p =>
          obtain ⟨code, objects'⟩ := p
          rw [hclear] at hstart
          cases hstart
          simp only at hok
          subst hok
          exact clear_all_cleared hclear hcov
    · intro hne
      simp only [hne, ne_eq, not_false_eq_true, if_true, Option.some.injEq] at hpass'
      exact hpass'.symm

theorem C8_rebuild_clears_every_flag_witness :
    Event.buildDrawingCommands true ∈ updatedOutcome.trace
      ∧ ∃ start pass, buildDrawingCommands.prologue updatedEnv true sceneAfterFirstFrame
          = some start
        ∧ buildDrawingCommands updatedEnv true sceneAfterFirstFrame = some pass
        ∧ (∀ e ∈ start.trace, e.isCommand = false)
        ∧ (start.code = .sgrOK →
            ∀ o ∈ start.state.objects, o.meshDataAndPiplineBinded = false)
        ∧ (start.code ≠ .sgrOK → pass = start) :=
  C8_rebuild_clears_every_flag ⟨"", 0, false⟩ ⟨"", 0, false⟩ ⟨"", "", 0, false⟩
    ⟨"", "", 0, false⟩ { sampleScene with pipelines := [] } sceneAfterFirstFrame rfl rfl rfl rfl
    sceneAfterFirstFrame_reachable updatedEnv updatedOutcome rfl rfl rfl

end Sgr
